import Mathlib

/-!
# LMMS mixer core (`src/core/mixer.cpp`)

A shallow embedding of the period engine of the LMMS mixer and the
properties its specification states about it.

Conventions of the embedding:

* C++ `int`, `fpp_t` and `f_cnt_t` values that the code keeps non-negative are
  natural numbers; arithmetic is unbounded (no wrap-around is modelled, signed
  overflow being undefined in C++).
* Samples are values of an arbitrary type `α` with the arithmetic the code
  uses (`+`, `*`); a `sampleFrame` is one stereo frame.
* Pointers to play handles and audio ports are natural numbers (addresses);
  the objects they point to live in object stores (functions from address to
  object).
* A memory access outside an allocation is undefined behaviour in C++; the
  embedding makes such an access return `none`.
-/

namespace LMMS

/-! ## Sample frames and audio ports -/

/-- One stereo frame, `sample_t[2]`: channel 0 is `.1`, channel 1 is `.2`. -/
abbrev sampleFrame (α : Type) := α × α

/-- The per-channel volume, `stereoVolumeVector::vol[2]`. -/
abbrev stereoVolumeVector (α : Type) := α × α

/-- The values of `AudioPort::m_bufferUsage`. -/
inductive bufferUsages where
  | NoUsage
  | FirstBuffer
  | BothBuffers
  deriving DecidableEq, Repr

/-- Modelled from the spec: the `AudioPort` class is declared outside
`mixer.cpp`; the fields are the ones `mixer.cpp` reads and writes (the two
buffers of one period each, the usage flag and the target FX channel). -/
structure AudioPort (α : Type) where
  m_firstBuffer : List (sampleFrame α)
  m_secondBuffer : List (sampleFrame α)
  m_bufferUsage : bufferUsages
  m_nextFxChannel : Nat

/-! ## `mixer::bufferToPort` (lines 703-745) -/

/-- One loop body of `bufferToPort`:
`obuf[dst][c] += _buf[src][c] * _vv.vol[c]` for `c = 0, 1`.
The result is `none` when `src` is outside `_buf` or `dst` outside `obuf`. -/
def mixFrame {α : Type} [Add α] [Mul α] (_vv : stereoVolumeVector α)
    (_buf obuf : List (sampleFrame α)) (src dst : Nat) : Option (List (sampleFrame α)) :=
  match _buf[src]?, obuf[dst]? with
  | some s, some o => some (obuf.set dst (o.1 + s.1 * _vv.1, o.2 + s.2 * _vv.2))
  | _, _ => none

/-- The loop `for( frame = f; frame < f + n; ++frame )` of `bufferToPort` with
body `obuf[dstOff + frame] += _buf[srcOff + frame] * _vv`: `n` is the number
of iterations left and `frame` the loop variable. -/
def mixLoop {α : Type} [Add α] [Mul α] (_vv : stereoVolumeVector α)
    (_buf : List (sampleFrame α)) (srcOff dstOff : Nat) :
    Nat → Nat → List (sampleFrame α) → Option (List (sampleFrame α))
  | 0, _, obuf => some obuf
  | n + 1, frame, obuf =>
    match mixFrame _vv _buf obuf (srcOff + frame) (dstOff + frame) with
    | some obuf1 => mixLoop _vv _buf srcOff dstOff n (frame + 1) obuf1
    | none => none

/-- The method `mixer::bufferToPort`. `m_framesPerPeriod` is the mixer field it
reads; the port is passed and returned by value. For `m_framesPerPeriod = 0`
the C++ remainder is undefined; here `_offset % 0` is `_offset`. -/
def bufferToPort {α : Type} [Add α] [Mul α] (m_framesPerPeriod : Nat)
    (_buf : List (sampleFrame α)) (_frames _offset : Nat)
    (_vv : stereoVolumeVector α) (_port : AudioPort α) : Option (AudioPort α) :=
  let start_frame := _offset % m_framesPerPeriod
  let end_frame := start_frame + _frames
  let loop1_frame := min end_frame m_framesPerPeriod
  match mixLoop _vv _buf 0 start_frame (loop1_frame - start_frame) 0 _port.m_firstBuffer with
  | none => none
  | some first =>
    if end_frame > m_framesPerPeriod then
      let frames_done := m_framesPerPeriod - start_frame
      let end_frame2 := min (end_frame - m_framesPerPeriod) m_framesPerPeriod
      match mixLoop _vv _buf frames_done 0 end_frame2 0 _port.m_secondBuffer with
      | none => none
      | some second =>
        some { _port with m_firstBuffer := first, m_secondBuffer := second,
                          m_bufferUsage := bufferUsages.BothBuffers }
    else if _port.m_bufferUsage = bufferUsages.NoUsage then
      some { _port with m_firstBuffer := first,
                        m_bufferUsage := bufferUsages.FirstBuffer }
    else
      some { _port with m_firstBuffer := first }

/-- The value `old + src * vol` of one frame, when both frames exist. -/
def mixedFrame {α : Type} [Add α] [Mul α] (_vv : stereoVolumeVector α)
    (o s : Option (sampleFrame α)) : Option (sampleFrame α) :=
  match o, s with
  | some o, some s => some (o.1 + s.1 * _vv.1, o.2 + s.2 * _vv.2)
  | _, _ => none

/-! ## Play handles and the state shared with the collaborators -/

/-- Modelled from the spec: the tag returned by `playHandle::type()`; the enum
is declared outside `mixer.cpp`. Only `InstrumentPlayHandle` is named by
`mixer.cpp`. -/
inductive playHandleTypes where
  | NotePlayHandle
  | InstrumentPlayHandle
  | SamplePlayHandle
  | PresetPreviewHandle
  deriving DecidableEq, Repr

/-- Modelled from the spec: a play-handle object as `mixer.cpp` sees it through
its virtual interface (`type()`, `done()`, `affinityMatters()`, `affinity()`,
`isFromTrack()`); the class is declared outside `mixer.cpp`. Threads and
tracks are identified by natural numbers. -/
structure playHandle where
  type : playHandleTypes
  done : Bool
  affinityMatters : Bool
  affinity : Nat
  isFromTrack : Nat → Bool

/-- The part of the engine that the mixer shares with its collaborators (song,
play handles, audio ports, FX mixer): the containers of `mixer` that its
public interface lets them change, the object stores the pointers refer to,
and the state `Fx` of `engine::fxMixer()`. The list `deleted` records, in
order, the play handles on which `delete` has been executed. -/
structure EngineState (α Fx : Type) where
  m_playHandles : List Nat
  m_playHandlesToRemove : List Nat
  m_audioPorts : List Nat
  playHandleAt : Nat → playHandle
  audioPortAt : Nat → AudioPort α
  fxMixer : Fx
  deleted : List Nat

/-! ## The job queue (lines 94-295) -/

/-- The enum `MixerWorkerThread::JobTypes`. -/
inductive JobTypes where
  | InvalidJob
  | PlayHandle
  | AudioPortEffects
  | EffectChannel
  | NumJobTypes
  deriving DecidableEq, Repr

/-- The struct `MixerWorkerThread::JobQueueItem`; `job` is the pointer (0 for
`NULL`), `done` the value of the `AtomicInt`. -/
structure JobQueueItem where
  type : JobTypes
  job : Nat
  param : Nat
  done : Nat
  deriving DecidableEq, Repr

/-- The default constructor `JobQueueItem()`. -/
def JobQueueItem.default : JobQueueItem :=
  { type := JobTypes.InvalidJob, job := 0, param := 0, done := 0 }

/-- The constructor `JobQueueItem( _type, _job, _param = 0 )`. -/
def JobQueueItem.new (_type : JobTypes) (_job : Nat) (_param : Nat) : JobQueueItem :=
  { type := _type, job := _job, param := _param, done := 0 }

/-- The constant `JOB_QUEUE_SIZE`. -/
def JOB_QUEUE_SIZE : Nat := 1024

/-- The struct `MixerWorkerThread::JobQueue`. -/
structure JobQueue where
  items : List JobQueueItem
  queueSize : Nat
  itemsDone : Nat
  deriving DecidableEq, Repr

/-- The constructor `JobQueue()`: `JOB_QUEUE_SIZE` default items, size 0. -/
def JobQueue.new : JobQueue :=
  { items := List.replicate JOB_QUEUE_SIZE JobQueueItem.default, queueSize := 0, itemsDone := 0 }

/-- The body shared by `FILL_JOB_QUEUE` and `FILL_JOB_QUEUE_PARAM` for one
element of the vector: `items[queueSize] = item; ++queueSize`. A write outside
the `items` array gives `none`. -/
def fillJobQueueStep (q : JobQueue) (item : JobQueueItem) : Option JobQueue :=
  if q.queueSize < q.items.length then
    some { q with items := q.items.set q.queueSize item, queueSize := q.queueSize + 1 }
  else none

/-- The loop of `FILL_JOB_QUEUE_BEGIN` ... `FILL_JOB_QUEUE_END` over the
elements of the vector, `mk` building the item of an element. -/
def fillJobQueueLoop (mk : Nat → JobQueueItem) (_condition : Nat → Bool) :
    List Nat → JobQueue → Option JobQueue
  | [], q => some q
  | it :: rest, q =>
    if _condition it then
      match fillJobQueueStep q (mk it) with
      | some q1 => fillJobQueueLoop mk _condition rest q1
      | none => none
    else fillJobQueueLoop mk _condition rest q

/-- The macro `FILL_JOB_QUEUE(_vec_type,_vec,_job_type,_condition)`: the
element is stored as the `job` pointer. -/
def FILL_JOB_QUEUE (_vec : List Nat) (_job_type : JobTypes) (_condition : Nat → Bool)
    (q : JobQueue) : Option JobQueue :=
  fillJobQueueLoop (fun it => JobQueueItem.new _job_type it 0) _condition _vec
    { q with queueSize := 0, itemsDone := 0 }

/-- The macro `FILL_JOB_QUEUE_PARAM(_vec_type,_vec,_job_type,_condition)`: the
element is stored as `param`, the `job` pointer is `NULL`. -/
def FILL_JOB_QUEUE_PARAM (_vec : List Nat) (_job_type : JobTypes) (_condition : Nat → Bool)
    (q : JobQueue) : Option JobQueue :=
  fillJobQueueLoop (fun it => JobQueueItem.new _job_type 0 it) _condition _vec
    { q with queueSize := 0, itemsDone := 0 }

/-! ## The mixer state -/

/-- The fields of `mixer` (and the static `MixerWorkerThread::s_jobQueue`) that
the period engine reads and writes. The two-element arrays `m_inputBuffer`,
`m_inputBufferFrames` and `m_inputBufferSize` are functions of the index. The
pointers `m_readBuf` and `m_writeBuf` are `m_bufferPool[m_readBuffer]` and
`m_bufferPool[m_writeBuffer]`. A stereo frame stands for a
`surroundSampleFrame` (the two are the same type when surround is disabled). -/
structure mixer (α Fx : Type) extends EngineState α Fx where
  m_framesPerPeriod : Nat
  m_inputBufferRead : Nat
  m_inputBufferWrite : Nat
  m_inputBuffer : Nat → List (sampleFrame α)
  m_inputBufferFrames : Nat → Nat
  m_inputBufferSize : Nat → Nat
  m_bufferPool : List (List (sampleFrame α))
  m_poolDepth : Nat
  m_readBuffer : Nat
  m_writeBuffer : Nat
  m_cpuLoad : Int
  m_numWorkers : Int
  s_jobQueue : JobQueue

/-- Modelled from the spec: the constant `DEFAULT_BUFFER_SIZE` is declared
outside `mixer.cpp`; the specification gives the default of 256 frames. -/
def DEFAULT_BUFFER_SIZE : Nat := 256

/-- The function `mixer::clearAudioBuffer( _ab, _frames, _offset = 0 )`:
`memset` of the first `_frames` frames; `none` when the buffer is shorter. -/
def clearAudioBuffer {α : Type} [Zero α] (_ab : List (sampleFrame α)) (_frames : Nat) :
    Option (List (sampleFrame α)) :=
  if _frames ≤ _ab.length then
    some (List.replicate _frames ((0 : α), (0 : α)) ++ _ab.drop _frames)
  else none

/-- The constructor `mixer::mixer()` (lines 299-386). `hasGUI` is
`engine::hasGUI()`, `framesperaudiobuffer` the integer value of the
configuration key and `idealThreadCount` the value of
`QThread::idealThreadCount()`; the containers start empty, the object stores
and the FX mixer are the ones of the engine. `fpp_t` is the conversion
`(fpp_t)` of line 339, from the `int` read from the configuration to the frame
count that is stored: the type `fpp_t` is declared outside `mixer.cpp`. The
test `>= 32` is made on the `int`, the test `> DEFAULT_BUFFER_SIZE` on the
converted value. A conversion to a negative value, which a signed `fpp_t` can
give, yields no frame count (the constructor then asks for buffers of negative
size) and is not covered. The fifo and the worker threads are not part of the
state. -/
def mixer.new {α Fx : Type} [Zero α] (fpp_t : Int → Nat) (hasGUI : Bool)
    (framesperaudiobuffer : Int)
    (idealThreadCount : Int) (playHandleAt : Nat → playHandle)
    (audioPortAt : Nat → AudioPort α) (fxMixer : Fx) : mixer α Fx :=
  let m_framesPerPeriod : Nat :=
    if !hasGUI then DEFAULT_BUFFER_SIZE
    else if framesperaudiobuffer ≥ 32 then
      (if fpp_t framesperaudiobuffer > DEFAULT_BUFFER_SIZE then DEFAULT_BUFFER_SIZE
       else fpp_t framesperaudiobuffer)
    else DEFAULT_BUFFER_SIZE
  { m_playHandles := []
    m_playHandlesToRemove := []
    m_audioPorts := []
    playHandleAt := playHandleAt
    audioPortAt := audioPortAt
    fxMixer := fxMixer
    deleted := []
    m_framesPerPeriod := m_framesPerPeriod
    m_inputBufferRead := 0
    m_inputBufferWrite := 1
    m_inputBuffer := fun _ => List.replicate (DEFAULT_BUFFER_SIZE * 100) ((0 : α), (0 : α))
    m_inputBufferFrames := fun _ => 0
    m_inputBufferSize := fun _ => DEFAULT_BUFFER_SIZE * 100
    m_bufferPool := List.replicate 3 (List.replicate m_framesPerPeriod ((0 : α), (0 : α)))
    m_poolDepth := 2
    m_readBuffer := 0
    m_writeBuffer := 1
    m_cpuLoad := 0
    m_numWorkers := idealThreadCount - 1
    s_jobQueue := JobQueue.new }

/-! ## The input capture ring: `mixer::pushInputFrames` (lines 521-546) -/

/-- The call `memcpy( &dst[off], src, n * sizeof( sampleFrame ) )`: `none` when
it would read past `src` or write past `dst`. -/
def memcpy {α : Type} (dst : List (sampleFrame α)) (off : Nat) (src : List (sampleFrame α))
    (n : Nat) : Option (List (sampleFrame α)) :=
  if n ≤ src.length ∧ off + n ≤ dst.length then
    some (dst.take off ++ src.take n ++ dst.drop (off + n))
  else none

/-- The expression `new sampleFrame[ size ]`: `size` frames whose contents are
whatever the allocator hands out, given by `fresh`. -/
def newSampleFrames {α : Type} (fresh : Nat → sampleFrame α) (size : Nat) :
    List (sampleFrame α) :=
  (List.range size).map fresh

/-- The method `mixer::pushInputFrames( _ab, _frames )`. `fresh` gives the
contents of the memory returned by `new` when the buffer grows. -/
def pushInputFrames {α Fx : Type} (fresh : Nat → sampleFrame α)
    (_ab : List (sampleFrame α)) (_frames : Nat) (m : mixer α Fx) : Option (mixer α Fx) :=
  let frames := m.m_inputBufferFrames m.m_inputBufferWrite
  let size := m.m_inputBufferSize m.m_inputBufferWrite
  let buf := m.m_inputBuffer m.m_inputBufferWrite
  let grown : Option (mixer α Fx × List (sampleFrame α)) :=
    if frames + _frames > size then
      let size1 := max (size * 2) (frames + _frames)
      match memcpy (newSampleFrames fresh size1) 0 buf frames with
      | none => none
      | some ab =>
        some ({ m with
                m_inputBufferSize := Function.update m.m_inputBufferSize m.m_inputBufferWrite size1
                m_inputBuffer := Function.update m.m_inputBuffer m.m_inputBufferWrite ab }, ab)
    else some (m, buf)
  match grown with
  | none => none
  | some (m1, buf1) =>
    match memcpy buf1 frames _ab _frames with
    | none => none
    | some buf2 =>
      some { m1 with
             m_inputBuffer := Function.update m1.m_inputBuffer m1.m_inputBufferWrite buf2
             m_inputBufferFrames :=
               Function.update m1.m_inputBufferFrames m1.m_inputBufferWrite
                 (m1.m_inputBufferFrames m1.m_inputBufferWrite + _frames) }

/-- The input swap of `renderNextBuffer` (lines 567-573): both indices advance
modulo 2 and the fill count of the new write buffer is cleared. -/
def swapInputBuffers {α Fx : Type} (m : mixer α Fx) : mixer α Fx :=
  let w := (m.m_inputBufferWrite + 1) % 2
  let r := (m.m_inputBufferRead + 1) % 2
  { m with
    m_inputBufferWrite := w
    m_inputBufferRead := r
    m_inputBufferFrames := Function.update m.m_inputBufferFrames w 0 }

/-- A sequence of `pushInputFrames` calls, each with the memory `new` would
return, its buffer and its frame count. -/
def pushInputFramesAll {α Fx : Type} :
    List ((Nat → sampleFrame α) × List (sampleFrame α) × Nat) → mixer α Fx →
      Option (mixer α Fx)
  | [], m => some m
  | (fresh, ab, n) :: rest, m =>
    match pushInputFrames fresh ab n m with
    | some m1 => pushInputFramesAll rest m1
    | none => none

/-! ## Play-handle lifecycle -/

/-- The deferred-deletion loop of `renderNextBuffer` (lines 583-596) over the
entries of `m_playHandlesToRemove`: `qFind` the entry in `m_playHandles`,
`delete` and erase it when found, and drop the entry from the queue. -/
def drainLoop {α Fx : Type} : List Nat → EngineState α Fx → EngineState α Fx
  | [], e => { e with m_playHandlesToRemove := [] }
  | it_rem :: rest, e =>
    if it_rem ∈ e.m_playHandles then
      drainLoop rest { e with m_playHandles := e.m_playHandles.erase it_rem
                              deleted := e.deleted ++ [it_rem] }
    else drainLoop rest e

/-- Lines 583-596 of `renderNextBuffer`. -/
def drainPlayHandlesToRemove {α Fx : Type} (e : EngineState α Fx) : EngineState α Fx :=
  drainLoop e.m_playHandlesToRemove e

/-- The loop of lines 623-641 over `m_playHandles`: the result is the list of
the handles kept and the list of the handles deleted. -/
def cullLoop (currentThread : Nat) (playHandleAt : Nat → playHandle) :
    List Nat → List Nat × List Nat
  | [] => ([], [])
  | it :: rest =>
    let r := cullLoop currentThread playHandleAt rest
    if (playHandleAt it).affinityMatters && (playHandleAt it).affinity != currentThread then
      (it :: r.1, r.2)
    else if (playHandleAt it).done then
      (r.1, it :: r.2)
    else (it :: r.1, r.2)

/-- Lines 623-641 of `renderNextBuffer`, run on thread `currentThread`. -/
def cullDonePlayHandles {α Fx : Type} (currentThread : Nat) (e : EngineState α Fx) :
    EngineState α Fx :=
  let r := cullLoop currentThread e.playHandleAt e.m_playHandles
  { e with m_playHandles := r.1, deleted := e.deleted ++ r.2 }

/-- The loop of `mixer::clear` over `m_playHandles`, appending to the queue. -/
def clearLoop (playHandleAt : Nat → playHandle) : List Nat → List Nat → List Nat
  | [], queue => queue
  | it :: rest, queue =>
    if (playHandleAt it).type ≠ playHandleTypes.InstrumentPlayHandle then
      clearLoop playHandleAt rest (queue ++ [it])
    else clearLoop playHandleAt rest queue

/-- The method `mixer::clear` (lines 683-698). -/
def clear {α Fx : Type} (e : EngineState α Fx) : EngineState α Fx :=
  { e with m_playHandlesToRemove :=
      clearLoop e.playHandleAt e.m_playHandles e.m_playHandlesToRemove }

/-- The method `mixer::removePlayHandle` (lines 915-937), called on thread
`currentThread`. -/
def removePlayHandle {α Fx : Type} (currentThread : Nat) (_ph : Nat) (e : EngineState α Fx) :
    EngineState α Fx :=
  if (e.playHandleAt _ph).affinityMatters && (e.playHandleAt _ph).affinity == currentThread then
    if _ph ∈ e.m_playHandles then
      { e with m_playHandles := e.m_playHandles.erase _ph, deleted := e.deleted ++ [_ph] }
    else e
  else { e with m_playHandlesToRemove := e.m_playHandlesToRemove ++ [_ph] }

/-- The loop of `mixer::removePlayHandles` over `m_playHandles`: the result is
the list of the handles kept and the list of the handles deleted. -/
def removePlayHandlesLoop (playHandleAt : Nat → playHandle) (_track : Nat) :
    List Nat → List Nat × List Nat
  | [] => ([], [])
  | it :: rest =>
    let r := removePlayHandlesLoop playHandleAt _track rest
    if (playHandleAt it).isFromTrack _track then (r.1, it :: r.2)
    else (it :: r.1, r.2)

/-- The method `mixer::removePlayHandles( _track )` (lines 942-959). -/
def removePlayHandles {α Fx : Type} (_track : Nat) (e : EngineState α Fx) : EngineState α Fx :=
  let r := removePlayHandlesLoop e.playHandleAt _track e.m_playHandles
  { e with m_playHandles := r.1, deleted := e.deleted ++ r.2 }

/-- Modelled from the spec: `mixer::addPlayHandle` is defined outside
`mixer.cpp`; it puts the handle at the end of `play_handles`, the "ordered
collection of active handles". -/
def addPlayHandle {α Fx : Type} (_ph : Nat) (e : EngineState α Fx) : EngineState α Fx :=
  { e with m_playHandles := e.m_playHandles ++ [_ph] }

/-- The metronome injection at the top of `renderNextBuffer` (lines 553-565),
which runs before the deferred deletion. `click` is `none` when the condition
on the song and the piano roll is false; otherwise it is the address returned
by `new samplePlayHandle( ... )` with the object created there, which
`addPlayHandle` registers. -/
def metronomeInjection {α Fx : Type} (click : Option (Nat × playHandle))
    (e : EngineState α Fx) : EngineState α Fx :=
  match click with
  | none => e
  | some (_ph, obj) =>
    addPlayHandle _ph { e with playHandleAt := Function.update e.playHandleAt _ph obj }

/-- The handles that the metronome injection registers: the click, if any. -/
def metronomeHandles (click : Option (Nat × playHandle)) : List Nat :=
  match click with
  | none => []
  | some (_ph, _) => [_ph]

/-! ## The period engine: `MixerWorkerThread::processJobQueue` and
`mixer::renderNextBuffer` -/

/-- The collaborators of the period engine during one period, none of which
is defined in `mixer.cpp`: the song, the play handles, the audio ports and the
FX mixer. Their own state is part of `Fx`; what they read from the mixer
(frames per period, CPU load, input buffers) does not change during the stages
of a period and is part of these functions.
`play` is `playHandle::play` of the handle at an address (it may call
`bufferToPort`, hence may fail); `processEffects` is `AudioPort::processEffects`
of the port at an address; `metronome` is the metronome injection of lines
553-565 (`metronomeInjection`), which depends on the song and the piano roll
only. -/
structure Collaborators (α Fx : Type) where
  NumFxChannels : Nat
  metronome : EngineState α Fx → EngineState α Fx
  prepareMasterMix : Fx → Fx
  processNextBuffer : EngineState α Fx → EngineState α Fx
  play : Nat → EngineState α Fx → Option (EngineState α Fx)
  processEffects : Nat → EngineState α Fx → Bool × EngineState α Fx
  mixToChannel : List (sampleFrame α) → Nat → Fx → Fx
  nextPeriod : AudioPort α → AudioPort α
  processChannel : Nat → Fx → Fx
  masterMix : Fx → List (sampleFrame α) → Fx × List (sampleFrame α)

/-- The `switch( it->type )` of `processJobQueue` (lines 214-237). -/
def dispatchJob {α Fx : Type} (env : Collaborators α Fx) (it : JobQueueItem)
    (e : EngineState α Fx) : Option (EngineState α Fx) :=
  match it.type with
  | JobTypes.PlayHandle => env.play it.job e
  | JobTypes.AudioPortEffects =>
    let r := env.processEffects it.job e
    let me := r.1
    let a := r.2.audioPortAt it.job
    if me || a.m_bufferUsage != bufferUsages.NoUsage then
      some { r.2 with
             fxMixer := env.mixToChannel a.m_firstBuffer a.m_nextFxChannel r.2.fxMixer
             audioPortAt := Function.update r.2.audioPortAt it.job (env.nextPeriod a) }
    else some r.2
  | JobTypes.EffectChannel =>
    some { e with fxMixer := env.processChannel it.param e.fxMixer }
  | _ => some e

/-- The loop of `processJobQueue` run by one thread with no other thread
touching the queue: `n` is the number of iterations left, `i` the loop
variable. `fetchAndStoreOrdered( 1 )` stores 1 and yields the old value. -/
def processJobQueueLoop {α Fx : Type} (env : Collaborators α Fx) :
    Nat → Nat → JobQueue → EngineState α Fx → Option (JobQueue × EngineState α Fx)
  | 0, _, q, e => some (q, e)
  | n + 1, i, q, e =>
    match q.items[i]? with
    | none => none
    | some it =>
      let q1 := { q with items := q.items.set i { it with done := 1 } }
      if it.done = 0 then
        match dispatchJob env it e with
        | none => none
        | some e1 =>
          processJobQueueLoop env n (i + 1) { q1 with itemsDone := q1.itemsDone + 1 } e1
      else processJobQueueLoop env n (i + 1) q1 e

/-- The method `MixerWorkerThread::processJobQueue` (lines 207-241), run by one
thread alone. -/
def processJobQueue {α Fx : Type} (env : Collaborators α Fx) (q : JobQueue)
    (e : EngineState α Fx) : Option (JobQueue × EngineState α Fx) :=
  processJobQueueLoop env q.queueSize 0 q e

/-- The macro `WAIT_FOR_JOBS` with the calling thread as the only worker: it
walks the queue and then spins while `itemsDone < queueSize`; the spin never
ends when no other thread is there to finish a job, which gives `none`. -/
def WAIT_FOR_JOBS {α Fx : Type} (env : Collaborators α Fx) (q : JobQueue)
    (e : EngineState α Fx) : Option (JobQueue × EngineState α Fx) :=
  match processJobQueue env q e with
  | none => none
  | some r => if r.1.itemsDone < r.1.queueSize then none else some r

/-- The jobs of a list dispatched one after the other, in list order. -/
def dispatchJobs {α Fx : Type} (env : Collaborators α Fx) :
    List JobQueueItem → EngineState α Fx → Option (EngineState α Fx)
  | [], e => some e
  | it :: rest, e =>
    match dispatchJob env it e with
    | some e1 => dispatchJobs env rest e1
    | none => none

/-- Modelled from the spec: `tLimit( x, lo, hi )` is declared outside
`mixer.cpp`; the specification calls it a clamp of `x` to `[lo, hi]`. -/
def tLimit (x lo hi : Int) : Int :=
  if x < lo then lo else if x > hi then hi else x

/-- The conversion `(int) x` of a floating-point value, a rational here:
truncation toward zero. -/
def castToInt (x : ℚ) : Int :=
  x.num.tdiv x.den

/-! ### Single-precision arithmetic

The `float` arithmetic of lines 670-672. A `float` is an IEEE-754
single-precision number, here the rational it denotes; every operation gives
the exact result rounded to the nearest `float`, the one with the even
significand at a tie. There is no excess precision and no fused multiply-add.
Infinities, NaN and overflow are not represented, and `x / 0` is `0` as in
`ℚ`. -/

/-- The integer nearest to `x`, the even one when `x` lies halfway between
two integers. -/
def roundHalfEven (x : ℚ) : Int :=
  let f := ⌊x⌋
  if 2 * (x - f) < 1 then f
  else if 2 * (x - f) > 1 then f + 1
  else if f % 2 = 0 then f else f + 1

/-- Significand and exponent of a non-negative magnitude `m * 2 ^ q`: the
significand is halved while it needs more than 24 bits, and doubled while it
needs fewer and the exponent is above -149, the exponent of the smallest
subnormal `float`. `fuel` bounds the number of steps. -/
def float32Scale : Nat → ℚ → Int → ℚ × Int
  | 0, m, q => (m, q)
  | fuel + 1, m, q =>
    if m ≥ 2 ^ 24 then float32Scale fuel (m / 2) (q + 1)
    else if m < 2 ^ 23 ∧ q > -149 then float32Scale fuel (m * 2) (q - 1)
    else (m, q)

/-- The `float` nearest to a non-negative rational: the significand of 24
bits is rounded to an integer. -/
def float32RoundMagnitude (x : ℚ) : ℚ :=
  let r := float32Scale 300 x 0
  (roundHalfEven r.1 : ℚ) * (2 : ℚ) ^ r.2

/-- The `float` nearest to a rational, ties to even. -/
def float32Round (x : ℚ) : ℚ :=
  if x = 0 then 0
  else if x < 0 then -(float32RoundMagnitude (-x))
  else float32RoundMagnitude x

/-- The conversion of an integer operand to `float`. -/
def float32OfInt (n : Int) : ℚ :=
  float32Round (n : ℚ)

/-- The operation `a + b` on `float`s. -/
def float32Add (a b : ℚ) : ℚ :=
  float32Round (a + b)

/-- The operation `a * b` on `float`s. -/
def float32Mul (a b : ℚ) : ℚ :=
  float32Round (a * b)

/-- The operation `a / b` on `float`s. -/
def float32Div (a b : ℚ) : ℚ :=
  float32Round (a / b)

/-- The CPU-load update of lines 670-673: `elapsed` is `timer.elapsed()` and
`processingSampleRate` the value of `processingSampleRate()`. The integer
operands are converted to `float`, the literals `10000.0f`, `0.1f` and `0.9f`
are the nearest `float`s, and the operations are done from left to right in
`float`. -/
def updateCpuLoad (elapsed processingSampleRate m_framesPerPeriod : Nat) (m_cpuLoad : Int) :
    Int :=
  let new_cpu_load : ℚ :=
    float32Div
      (float32Mul (float32Div (float32OfInt elapsed) (float32Round 10000))
        (float32OfInt processingSampleRate))
      (float32OfInt m_framesPerPeriod)
  tLimit (castToInt (float32Add (float32Mul new_cpu_load (float32Round (1 / 10)))
    (float32Mul (float32OfInt m_cpuLoad) (float32Round (9 / 10))))) 0 100

/-- The static vector `__fx_channel_jobs` as the constructor fills it (lines
324-327): the channels `1 .. NumFxChannels`. -/
def fxChannelJobs (NumFxChannels : Nat) : List Nat :=
  List.range' 1 NumFxChannels

/-- The method `mixer::renderNextBuffer` (lines 551-676), called on thread
`currentThread`, with `elapsed` the microseconds the timer reports at the end
and the calling thread as the only worker. The result is the new state and the
pool index of the buffer `m_readBuf` that is returned. -/
def renderNextBuffer {α Fx : Type} [Zero α] (env : Collaborators α Fx)
    (currentThread elapsed processingSampleRate : Nat) (m : mixer α Fx) :
    Option (mixer α Fx × Nat) :=
  -- metronome (lines 553-565)
  let e0 := env.metronome m.toEngineState
  -- input swap (lines 567-573)
  let m1 := swapInputBuffers { m with toEngineState := e0 }
  -- deferred deletion (lines 583-596)
  let e1 := drainPlayHandlesToRemove m1.toEngineState
  -- rotate buffers (lines 598-606)
  let m_writeBuffer := (m1.m_writeBuffer + 1) % m1.m_poolDepth
  let m_readBuffer := (m1.m_readBuffer + 1) % m1.m_poolDepth
  match m1.m_bufferPool[m_writeBuffer]?, m1.m_bufferPool[m_readBuffer]? with
  | some m_writeBuf, some _ =>
    match clearAudioBuffer m_writeBuf m1.m_framesPerPeriod with
    | none => none
    | some cleared =>
      -- lines 608-612
      let e2 := { e1 with fxMixer := env.prepareMasterMix e1.fxMixer }
      let e3 := env.processNextBuffer e2
      -- STAGE 1 (lines 615-620)
      match FILL_JOB_QUEUE e3.m_playHandles JobTypes.PlayHandle
          (fun it => !(e3.playHandleAt it).done) m1.s_jobQueue with
      | none => none
      | some q1 =>
      match WAIT_FOR_JOBS env q1 e3 with
      | none => none
      | some (q2, e4) =>
      -- lines 622-641
      let e5 := cullDonePlayHandles currentThread e4
      -- STAGE 2 (lines 644-648)
      match FILL_JOB_QUEUE e5.m_audioPorts JobTypes.AudioPortEffects (fun _ => true) q2 with
      | none => none
      | some q3 =>
      match WAIT_FOR_JOBS env q3 e5 with
      | none => none
      | some (q4, e6) =>
      -- STAGE 3 (lines 651-655)
      match FILL_JOB_QUEUE_PARAM (fxChannelJobs env.NumFxChannels) JobTypes.EffectChannel
          (fun _ => true) q4 with
      | none => none
      | some q5 =>
      match WAIT_FOR_JOBS env q5 e6 with
      | none => none
      | some (q6, e7) =>
      -- STAGE 4 (line 659)
      let mixed := env.masterMix e7.fxMixer cleared
      let e8 := { e7 with fxMixer := mixed.1 }
      some ({ m1 with
              toEngineState := e8
              m_bufferPool := m1.m_bufferPool.set m_writeBuffer mixed.2
              m_writeBuffer := m_writeBuffer
              m_readBuffer := m_readBuffer
              s_jobQueue := q6
              m_cpuLoad := updateCpuLoad elapsed processingSampleRate m1.m_framesPerPeriod
                m1.m_cpuLoad }, m_readBuffer)
  | _, _ => none

/-- What happens to a mixer between construction and the moment it is looked
at: a period (`renderNextBuffer` on a thread, with the behaviour of the
collaborators during that period, the elapsed time and the sample rate it
sees), a call of the public interface that works on the containers and objects
shared with the collaborators (`addPlayHandle`, `removePlayHandle`, `clear`,
...), or a `pushInputFrames` call. -/
inductive mixerEvent (α Fx : Type) where
  | period (env : Collaborators α Fx) (currentThread elapsed processingSampleRate : Nat)
  | call (f : EngineState α Fx → EngineState α Fx)
  | pushInput (fresh : Nat → sampleFrame α) (_ab : List (sampleFrame α)) (_frames : Nat)

/-- A sequence of events on a mixer: the result is the final state and the
pool indices returned by the periods, in order. -/
def runEvents {α Fx : Type} [Zero α] :
    List (mixerEvent α Fx) → mixer α Fx → Option (mixer α Fx × List Nat)
  | [], m => some (m, [])
  | mixerEvent.period env t el sr :: rest, m =>
    match renderNextBuffer env t el sr m with
    | none => none
    | some (m1, r) =>
      match runEvents rest m1 with
      | none => none
      | some (m2, rs) => some (m2, r :: rs)
  | mixerEvent.call f :: rest, m =>
    runEvents rest { m with toEngineState := f m.toEngineState }
  | mixerEvent.pushInput fresh ab n :: rest, m =>
    match pushInputFrames fresh ab n m with
    | none => none
    | some m1 => runEvents rest m1

/-! ## Scenario S2: a single voice through a pass-through FX mixer -/

/-- Modelled from the spec: `AudioPort::nextPeriod` is defined outside
`mixer.cpp`; it "swaps `first` and `second` and clears the new `second`,
resetting `buffer_usage`". -/
def nextPeriodSpec {α : Type} [Zero α] (a : AudioPort α) : AudioPort α :=
  { a with
    m_firstBuffer := a.m_secondBuffer
    m_secondBuffer := List.replicate a.m_firstBuffer.length ((0 : α), (0 : α))
    m_bufferUsage := bufferUsages.NoUsage }

/-- Sum of two buffers, frame by frame. -/
def addBuffers {α : Type} [Add α] (x y : List (sampleFrame α)) : List (sampleFrame α) :=
  List.zipWith (fun a b => (a.1 + b.1, a.2 + b.2)) x y

/-- Modelled from the spec: the FX mixer of scenario S2 is "an identity
pass-through" (the class is defined outside `mixer.cpp`). Its state is the
master bus: `prepareMasterMix` clears it, `mixToChannel` adds the buffer of a
port to it, `processChannel` leaves it alone and `masterMix` copies it to the
destination. The song spawns nothing, the port has no effects, and `play` of
every handle mixes `frames` frames of the constant `level` at volume `vol`
into the port at address `port` (offset 0). -/
def scenarioCollaborators {α : Type} [Zero α] [Add α] [Mul α] (fpp frames : Nat)
    (level : sampleFrame α) (vol : stereoVolumeVector α) (port : Nat) :
    Collaborators α (List (sampleFrame α)) :=
  { NumFxChannels := 64
    metronome := fun e => e
    prepareMasterMix := fun _ => List.replicate fpp ((0 : α), (0 : α))
    processNextBuffer := fun e => e
    play := fun _ e =>
      match bufferToPort fpp (List.replicate frames level) frames 0 vol (e.audioPortAt port) with
      | none => none
      | some a => some { e with audioPortAt := Function.update e.audioPortAt port a }
    processEffects := fun _ e => (false, e)
    mixToChannel := fun buf _ fx => addBuffers fx buf
    nextPeriod := nextPeriodSpec
    processChannel := fun _ fx => fx
    masterMix := fun fx _ => (fx, fx) }

/-- The play handle of scenario S2: a note handle that is not done. -/
def scenarioPlayHandle : playHandle :=
  { type := playHandleTypes.NotePlayHandle
    done := false
    affinityMatters := false
    affinity := 0
    isFromTrack := fun _ => false }

/-- The audio port of scenario S2: empty buffers of one period, FX channel 1. -/
def scenarioPort (fpp : Nat) : AudioPort ℚ :=
  { m_firstBuffer := List.replicate fpp (0, 0)
    m_secondBuffer := List.replicate fpp (0, 0)
    m_bufferUsage := bufferUsages.NoUsage
    m_nextFxChannel := 1 }

/-- The conversion `(fpp_t)` of the scenarios: the narrowing of an `int` to an
integer of 16 bits, read as unsigned. On the values the scenarios convert
(48, 64, 65536, 65584) a signed narrowing gives the same. -/
def scenarioFppCast (x : Int) : Nat :=
  (x % 65536).toNat

/-- The mixer of scenario S2 as constructed: no GUI, hence 256 frames per
period. -/
def scenarioNewMixer : mixer ℚ (List (sampleFrame ℚ)) :=
  mixer.new scenarioFppCast false 0 1 (fun _ => scenarioPlayHandle) (fun _ => scenarioPort 256)
    (List.replicate 256 (0, 0))

/-- The registration of the play handle at address 1 and of the audio port at
address 1. -/
def scenarioSetup (e : EngineState ℚ (List (sampleFrame ℚ))) :
    EngineState ℚ (List (sampleFrame ℚ)) :=
  { e with m_playHandles := [1], m_audioPorts := [1] }

/-- The mixer of scenario S2: freshly constructed, then given the play handle
and the audio port. -/
def scenarioMixer : mixer ℚ (List (sampleFrame ℚ)) :=
  { scenarioNewMixer with toEngineState := scenarioSetup scenarioNewMixer.toEngineState }

/-- The collaborators of scenario S2: 256 frames of 0.25 at volume 1. -/
def scenarioS2 : Collaborators ℚ (List (sampleFrame ℚ)) :=
  scenarioCollaborators 256 256 (1 / 4, 1 / 4) (1, 1) 1

/-! ## Several workers on one job queue

The worker threads and the calling thread run `processJobQueue` concurrently
on the shared queue. The model is an interleaving of atomic steps: the loop
test together with `done.fetchAndStoreOrdered( 1 )`, the dispatch of the job,
and `itemsDone.fetchAndAddOrdered( 1 )`. The dispatch is observed through a
log of the indices dispatched. -/

/-- Where a thread stands in `processJobQueue`. -/
inductive WorkerPc where
  /-- Not inside `processJobQueue`. -/
  | waiting
  /-- At the loop test `i < queueSize` with loop variable `i`. -/
  | loopHead (i : Nat)
  /-- The exchange on `items[i].done` gave 0; the `switch` comes next. -/
  | claimed (i : Nat)
  /-- The `switch` for `items[i]` has run; the increment of `itemsDone` comes next. -/
  | dispatched (i : Nat)
  deriving DecidableEq, Repr

/-- A thread of the pool: its position and the number of walks of the queue
(calls of `processJobQueue`) it has completed. -/
structure Worker where
  pc : WorkerPc
  walks : Nat
  deriving DecidableEq, Repr

/-- The shared queue, the threads and the dispatch log. -/
structure PoolState where
  queue : JobQueue
  workers : List Worker
  dispatchLog : List Nat
  deriving DecidableEq, Repr

/-- One atomic step of thread `w`. -/
def workerStep (s : PoolState) (w : Nat) : PoolState :=
  match s.workers[w]? with
  | none => s
  | some wk =>
    match wk.pc with
    | WorkerPc.waiting =>
      { s with workers := s.workers.set w { wk with pc := WorkerPc.loopHead 0 } }
    | WorkerPc.loopHead i =>
      if i < s.queue.queueSize then
        match s.queue.items[i]? with
        | none => s
        | some it =>
          let queue := { s.queue with items := s.queue.items.set i { it with done := 1 } }
          if it.done = 0 then
            { s with queue := queue
                     workers := s.workers.set w { wk with pc := WorkerPc.claimed i } }
          else
            { s with queue := queue
                     workers := s.workers.set w { wk with pc := WorkerPc.loopHead (i + 1) } }
      else
        { s with workers := s.workers.set w { pc := WorkerPc.waiting, walks := wk.walks + 1 } }
    | WorkerPc.claimed i =>
      { s with dispatchLog := s.dispatchLog ++ [i]
               workers := s.workers.set w { wk with pc := WorkerPc.dispatched i } }
    | WorkerPc.dispatched i =>
      { s with queue := { s.queue with itemsDone := s.queue.itemsDone + 1 }
               workers := s.workers.set w { wk with pc := WorkerPc.loopHead (i + 1) } }

/-- An interleaving: the threads take their steps in the order of the schedule. -/
def runSchedule (s : PoolState) (schedule : List Nat) : PoolState :=
  schedule.foldl workerStep s

/-- The pool at the start of a stage: the filled queue, `numThreads` threads
outside `processJobQueue`, nothing dispatched. -/
def startStage (q : JobQueue) (numThreads : Nat) : PoolState :=
  { queue := q
    workers := List.replicate numThreads { pc := WorkerPc.waiting, walks := 0 }
    dispatchLog := [] }

/-- Every thread has left `processJobQueue` after at least one walk. -/
def allWalksFinished (s : PoolState) : Prop :=
  ∀ wk ∈ s.workers, wk.pc = WorkerPc.waiting ∧ 1 ≤ wk.walks

instance (s : PoolState) : Decidable (allWalksFinished s) := by
  unfold allWalksFinished; infer_instance

/-- The shape of the input capture ring that the constructor sets up and
every operation of the mixer keeps: the two indices are 0 and 1 in some order
and the recorded capacity of each buffer is the size of its allocation. -/
def inputRingWellFormed {α Fx : Type} (m : mixer α Fx) : Prop :=
  m.m_inputBufferRead < 2 ∧ m.m_inputBufferWrite < 2 ∧
  m.m_inputBufferRead ≠ m.m_inputBufferWrite ∧
  ∀ i, i < 2 → m.m_inputBufferSize i = (m.m_inputBuffer i).length

/-- Two pushes into the input ring: 2 frames, then 1 frame out of a buffer of
2, each with zeroed fresh memory. -/
def scenarioPushes : List ((Nat → sampleFrame ℚ) × List (sampleFrame ℚ) × Nat) :=
  [(fun _ => (0, 0), [(1, 2), (3, 4)], 2), (fun _ => (0, 0), [(5, 6), (7, 8)], 1)]

/-! ## The stages of one period, job by job -/

/-- The items that `FILL_JOB_QUEUE` or `FILL_JOB_QUEUE_PARAM` stores for a
vector: one item for each element that satisfies the condition, in order. -/
def stageJobs (mk : Nat → JobQueueItem) (_condition : Nat → Bool) (_vec : List Nat) :
    List JobQueueItem :=
  (_vec.filter _condition).map mk

/-- The queue after it has been filled with the given jobs. -/
def filledQueue (jobs : List JobQueueItem) (q : JobQueue) : JobQueue :=
  { items := jobs ++ q.items.drop jobs.length, queueSize := jobs.length, itemsDone := 0 }

/-- The queue after one thread has walked all the given jobs. -/
def finishedQueue (jobs : List JobQueueItem) (q : JobQueue) : JobQueue :=
  { items := jobs.map (fun it => { it with done := 1 }) ++ q.items.drop jobs.length
    queueSize := jobs.length
    itemsDone := jobs.length }

/-- The engine state when stage 1 of a period starts: after the metronome, the
deferred deletion, `prepareMasterMix` and `processNextBuffer`. -/
def periodStart {α Fx : Type} (env : Collaborators α Fx) (e : EngineState α Fx) :
    EngineState α Fx :=
  let e1 := drainPlayHandlesToRemove (env.metronome e)
  env.processNextBuffer { e1 with fxMixer := env.prepareMasterMix e1.fxMixer }

/-- The jobs of stage 1: the play handles that are not done. -/
def stage1Jobs {α Fx : Type} (e : EngineState α Fx) : List JobQueueItem :=
  stageJobs (fun it => JobQueueItem.new JobTypes.PlayHandle it 0)
    (fun it => !(e.playHandleAt it).done) e.m_playHandles

/-- The jobs of stage 2: every audio port. -/
def stage2Jobs {α Fx : Type} (e : EngineState α Fx) : List JobQueueItem :=
  stageJobs (fun it => JobQueueItem.new JobTypes.AudioPortEffects it 0) (fun _ => true)
    e.m_audioPorts

/-- The jobs of stage 3: every FX channel. -/
def stage3Jobs (NumFxChannels : Nat) : List JobQueueItem :=
  stageJobs (fun it => JobQueueItem.new JobTypes.EffectChannel 0 it) (fun _ => true)
    (fxChannelJobs NumFxChannels)

/-- The audio port of scenario S2 after the play handle has mixed its 256
frames into it. -/
def scenarioMixedPort : AudioPort ℚ :=
  { m_firstBuffer := List.replicate 256 (1 / 4, 1 / 4)
    m_secondBuffer := List.replicate 256 (0, 0)
    m_bufferUsage := bufferUsages.FirstBuffer
    m_nextFxChannel := 1 }

/-- The state of the mixer of scenario S2 at every period boundary: one play
handle that is not done, one empty port, a pool of three buffers of 256
frames with a depth of 2, and a job queue of `JOB_QUEUE_SIZE` items. -/
def scenarioSteady (m : mixer ℚ (List (sampleFrame ℚ))) : Prop :=
  m.m_framesPerPeriod = 256 ∧ m.m_poolDepth = 2 ∧ m.m_bufferPool.length = 3 ∧
  (∀ b ∈ m.m_bufferPool, b.length = 256) ∧
  m.m_readBuffer < 2 ∧ m.m_writeBuffer < 2 ∧
  m.m_playHandles = [1] ∧ m.m_playHandlesToRemove = [] ∧ m.m_audioPorts = [1] ∧
  m.playHandleAt 1 = scenarioPlayHandle ∧ m.audioPortAt 1 = scenarioPort 256 ∧
  m.s_jobQueue.items.length = JOB_QUEUE_SIZE

/-- The events of scenario S2: the play handle and the port are registered,
then two periods are rendered. -/
def scenarioEvents : List (mixerEvent ℚ (List (sampleFrame ℚ))) :=
  [mixerEvent.call scenarioSetup, mixerEvent.period scenarioS2 0 1000 44100,
   mixerEvent.period scenarioS2 0 1000 44100]

/-- The engine state of scenario S5: the instrument play handle at address 1
and the note play handle at address 2, nothing queued for removal. -/
def scenarioS5 : EngineState ℚ (List (sampleFrame ℚ)) :=
  { m_playHandles := [1, 2]
    m_playHandlesToRemove := []
    m_audioPorts := []
    playHandleAt := fun p =>
      if p = 1 then { scenarioPlayHandle with type := playHandleTypes.InstrumentPlayHandle }
      else scenarioPlayHandle
    audioPortAt := fun _ => scenarioPort 256
    fxMixer := []
    deleted := [] }

/-- The metronome click of scenario S5: a sample play handle created at
address 99. -/
def scenarioClick : Nat × playHandle :=
  (99, { scenarioPlayHandle with type := playHandleTypes.SamplePlayHandle })

/-! ### The invariant of the worker pool -/

/-- Whether the `done` flag of `items[i]` is set. -/
def doneFlag (q : JobQueue) (i : Nat) : Bool :=
  match q.items[i]? with
  | some it => decide (it.done ≠ 0)
  | none => false

/-- The number of `done` flags set among the first `queueSize` items. -/
def doneCount (q : JobQueue) : Nat :=
  (q.items.take q.queueSize).countP (fun it => decide (it.done ≠ 0))

/-- The number of threads that have claimed `items[i]` and not yet dispatched it. -/
def claimedCount (workers : List Worker) (i : Nat) : Nat :=
  workers.countP (fun wk => decide (wk.pc = WorkerPc.claimed i))

/-- Whether a thread is between the exchange on a `done` flag and the
increment of `itemsDone`. -/
def isInFlight (pc : WorkerPc) : Bool :=
  match pc with
  | WorkerPc.claimed _ => true
  | WorkerPc.dispatched _ => true
  | _ => false

/-- The number of threads in flight. -/
def inFlight (workers : List Worker) : Nat :=
  workers.countP (fun wk => isInFlight wk.pc)

/-- What the position of a thread says about the `done` flags: every item the
thread has walked past is flagged, and a thread that has completed a walk has
seen every item flagged. -/
def workerOk (q : JobQueue) (wk : Worker) : Prop :=
  match wk.pc with
  | WorkerPc.waiting => 1 ≤ wk.walks → ∀ j, j < q.queueSize → doneFlag q j = true
  | WorkerPc.loopHead i => i ≤ q.queueSize ∧ ∀ j, j < i → doneFlag q j = true
  | WorkerPc.claimed i => i < q.queueSize ∧ ∀ j, j ≤ i → doneFlag q j = true
  | WorkerPc.dispatched i => i < q.queueSize ∧ ∀ j, j ≤ i → doneFlag q j = true

/-- The invariant of the pool during a stage of `n` jobs: each flagged item has
been dispatched once or is claimed by exactly one thread that is about to
dispatch it, an item that is not flagged has been neither dispatched nor
claimed, and `itemsDone` counts the flagged items that no thread is still
working on. -/
def poolInvariant (n : Nat) (s : PoolState) : Prop :=
  s.queue.queueSize = n ∧ n ≤ s.queue.items.length ∧
  (∀ i, i < n →
    s.dispatchLog.count i + claimedCount s.workers i = if doneFlag s.queue i then 1 else 0) ∧
  (∀ i ∈ s.dispatchLog, i < n) ∧
  s.queue.itemsDone + inFlight s.workers = doneCount s.queue ∧
  (∀ wk ∈ s.workers, workerOk s.queue wk)

/-- A queue of three play-handle jobs, as `FILL_JOB_QUEUE` leaves it. -/
def scenarioQueue : JobQueue :=
  filledQueue (stageJobs (fun it => JobQueueItem.new JobTypes.PlayHandle it 0) (fun _ => true)
    [10, 11, 12]) JobQueue.new

/-- An interleaving of two threads on the queue of three jobs in which both
complete their walk. -/
def scenarioSchedule : List Nat :=
  [0, 1, 0, 1, 0, 1, 1, 1, 0, 0, 0, 0, 1, 1, 0, 0]

/-! ## Scenario S4: a play handle bound to the engine thread -/

/-- The play handle of scenario S4: a note handle of track 7 whose affinity
matters and is thread 0, the engine thread. -/
def scenarioAffineHandle : playHandle :=
  { type := playHandleTypes.NotePlayHandle
    done := false
    affinityMatters := true
    affinity := 0
    isFromTrack := fun _track => _track == 7 }

/-- The engine state of scenario S4: the play handle at address 1 is
registered, nothing is queued for removal and nothing has been deleted. -/
def scenarioS4 : EngineState ℚ (List (sampleFrame ℚ)) :=
  { m_playHandles := [1]
    m_playHandlesToRemove := []
    m_audioPorts := []
    playHandleAt := fun _ => scenarioAffineHandle
    audioPortAt := fun _ => scenarioPort 256
    fxMixer := []
    deleted := [] }

/-! ## Backend probing: `mixer::tryAudioDevices` (lines 964-1073) -/

/-- The audio backends that `tryAudioDevices` probes, one per `#ifdef` block. -/
inductive AudioBackend where
  | AudioAlsa
  | AudioPortAudio
  | AudioPulseAudio
  | AudioOss
  | AudioJack
  | AudioSdl
  deriving DecidableEq, Repr

/-- An object that `tryAudioDevices` can return: one of the probed backends or
the `AudioDummy` of the last line. -/
inductive AudioDevice where
  | backend (b : AudioBackend)
  | AudioDummy
  deriving DecidableEq, Repr

/-- What `tryAudioDevices` takes from outside `mixer.cpp`: which of the
`LMMS_HAVE_*` macros are defined, the strings returned by the static `name()`
methods, and the value that the constructor of each backend leaves in
`success_ful`. -/
structure AudioBuild where
  LMMS_HAVE : AudioBackend → Bool
  name : AudioBackend → String
  dummyName : String
  success_ful : AudioBackend → Bool

/-- The `#ifdef` blocks of `tryAudioDevices` in the order of the source. -/
def probeOrder : List AudioBackend :=
  [AudioBackend.AudioAlsa, AudioBackend.AudioPortAudio, AudioBackend.AudioPulseAudio,
   AudioBackend.AudioOss, AudioBackend.AudioJack, AudioBackend.AudioSdl]

/-- One `#ifdef` block of `tryAudioDevices` for the backend `b`: `some` of the
returned pointer and the recorded `m_audioDevName` when the block returns,
`none` when control falls through to the next block. -/
def probeBlock (cfg : AudioBuild) (dev_name : String) (b : AudioBackend) :
    Option (Option AudioDevice × String) :=
  if cfg.LMMS_HAVE b then
    if dev_name == cfg.name b || dev_name == "" then
      let dev : Option AudioDevice := some (AudioDevice.backend b)
      if cfg.success_ful b then some (dev, cfg.name b)
      else none
    else none
  else none

/-- The blocks of a list run one after the other, then the fallback of lines
1064-1072. -/
def probeBlocks (cfg : AudioBuild) (dev_name : String) :
    List AudioBackend → Option AudioDevice × String
  | [] => (some AudioDevice.AudioDummy, cfg.dummyName)
  | b :: rest =>
    match probeBlock cfg dev_name b with
    | some r => r
    | none => probeBlocks cfg dev_name rest

/-- The method `mixer::tryAudioDevices` (lines 964-1073): `audiodev` is the
value of the configuration key `mixer.audiodev`; the result is the returned
pointer (`none` for `NULL`) and the value left in `m_audioDevName`. -/
def tryAudioDevices (cfg : AudioBuild) (audiodev : String) : Option AudioDevice × String :=
  let dev_name := if audiodev == cfg.dummyName then "" else audiodev
  probeBlocks cfg dev_name probeOrder

/-- A build with all six backends compiled in, in which only the OSS backend
can be opened. -/
def scenarioS6 : AudioBuild :=
  { LMMS_HAVE := fun _ => true
    name := fun b =>
      match b with
      | AudioBackend.AudioAlsa => "alsa"
      | AudioBackend.AudioPortAudio => "portaudio"
      | AudioBackend.AudioPulseAudio => "pulseaudio"
      | AudioBackend.AudioOss => "oss"
      | AudioBackend.AudioJack => "jack"
      | AudioBackend.AudioSdl => "sdl"
    dummyName := "dummy"
    success_ful := fun b => b == AudioBackend.AudioOss }

/-! ## Peak detection: `mixer::peakValueLeft` and `mixer::peakValueRight`
(lines 769-804) -/

/-- The loop `for( f_cnt_t f = 0; f < _frames; ++f )` of `peakValueLeft` and
`peakValueRight` on channel `c` of the frames: `n` is the number of iterations
left, `f` the loop variable and `p` the running peak. Reading `_ab[f]` past the
end of the buffer gives `none`. -/
def peakLoop {α : Type} [LinearOrderedField α] (c : sampleFrame α → α)
    (_ab : List (sampleFrame α)) : Nat → Nat → α → Option α
  | 0, _, p => some p
  | n + 1, f, p =>
    match _ab[f]? with
    | none => none
    | some x =>
      if c x > p then peakLoop c _ab n (f + 1) (c x)
      else if -(c x) > p then peakLoop c _ab n (f + 1) (-(c x))
      else peakLoop c _ab n (f + 1) p

/-- The method `mixer::peakValueLeft`, on channel 0. -/
def peakValueLeft {α : Type} [LinearOrderedField α] (_ab : List (sampleFrame α))
    (_frames : Nat) : Option α :=
  peakLoop (fun x => x.1) _ab _frames 0 0

/-- The method `mixer::peakValueRight`, on channel 1. -/
def peakValueRight {α : Type} [LinearOrderedField α] (_ab : List (sampleFrame α))
    (_frames : Nat) : Option α :=
  peakLoop (fun x => x.2) _ab _frames 0 0

/-- A buffer of three frames for the peak detection. -/
def scenarioPeakBuffer : List (sampleFrame ℚ) :=
  [(1 / 4, -1 / 2), (-3 / 4, 1 / 8), (1 / 2, 1 / 4)]

/-! ## The aligned allocator: `aligned_malloc` and `aligned_free` (lines 65-90)

Addresses are natural numbers. `ALIGN_SIZE` and `sizeof( int )` are defined
outside `mixer.cpp` and are parameters. The heap is seen through the `int`
objects stored in it: `mem a` is the `int` stored at address `a`. -/

/-- The function `aligned_malloc( _bytes )`: `ptr` is what
`malloc( _bytes + ALIGN_SIZE + sizeof( int ) )` returned (`none` for `NULL`).
The result is the returned pointer and the heap after the store through
`ptr2`. -/
def aligned_malloc (ALIGN_SIZE sizeofInt : Nat) (ptr : Option Nat) (mem : Nat → Int)
    (_bytes : Nat) : Option Nat × (Nat → Int) :=
  let align_mask := ALIGN_SIZE - 1
  match ptr with
  | none => (none, mem)
  | some ptr =>
    let ptr2 := ptr + sizeofInt
    let aligned_ptr := ptr2 + (ALIGN_SIZE - (ptr2 &&& align_mask))
    let ptr2 := aligned_ptr - sizeofInt
    (some aligned_ptr, Function.update mem ptr2 (((aligned_ptr - ptr : Nat) : Int)))

/-- The function `aligned_free( _buf )`: the result is the address passed to
`free`, `none` when `free` is not called. -/
def aligned_free (sizeofInt : Nat) (_buf : Option Nat) (mem : Nat → Int) : Option Int :=
  match _buf with
  | none => none
  | some _buf =>
    let ptr2 := _buf - sizeofInt
    some ((_buf : Int) - mem ptr2)

/-! ## Scenario: the effects job of three ports, with a recording FX mixer -/

/-- Collaborators whose FX mixer records the calls of `mixToChannel`, buffer
and channel, in order. `processEffects` changes nothing and returns true for
the port at address 3 only; `nextPeriod` is the one of the specification. -/
def scenarioRecording : Collaborators ℚ (List (List (sampleFrame ℚ) × Nat)) :=
  { NumFxChannels := 64
    metronome := fun e => e
    prepareMasterMix := fun fx => fx
    processNextBuffer := fun e => e
    play := fun _ e => some e
    processEffects := fun job e => (job == 3, e)
    mixToChannel := fun buf ch fx => fx ++ [(buf, ch)]
    nextPeriod := nextPeriodSpec
    processChannel := fun _ fx => fx
    masterMix := fun fx buf => (fx, buf) }

/-- Three ports of one frame: the port at address 1 has been written to in this
period and feeds channel 5; the others are unused and feed channel 6. -/
def scenarioPorts : EngineState ℚ (List (List (sampleFrame ℚ) × Nat)) :=
  { m_playHandles := []
    m_playHandlesToRemove := []
    m_audioPorts := [1, 2, 3]
    playHandleAt := fun _ => scenarioPlayHandle
    audioPortAt := fun p =>
      if p = 1 then
        { m_firstBuffer := [(1 / 4, 1 / 4)]
          m_secondBuffer := [(0, 0)]
          m_bufferUsage := bufferUsages.FirstBuffer
          m_nextFxChannel := 5 }
      else
        { m_firstBuffer := [(0, 0)]
          m_secondBuffer := [(0, 0)]
          m_bufferUsage := bufferUsages.NoUsage
          m_nextFxChannel := 6 }
    fxMixer := []
    deleted := [] }

/-- A mixer whose input buffers hold 2 frames each, 1 of them filled. -/
def scenarioSmallRing : mixer ℚ (List (sampleFrame ℚ)) :=
  { scenarioNewMixer with
    m_inputBuffer := fun _ => [(9, 9), (0, 0)]
    m_inputBufferSize := fun _ => 2
    m_inputBufferFrames := fun _ => 1 }

/-! ## Theorems -/

theorem mixLoop_spec {α : Type} [Add α] [Mul α] (_vv : stereoVolumeVector α)
    (_buf : List (sampleFrame α)) (srcOff dstOff : Nat) :
    ∀ (n frame : Nat) (obuf : List (sampleFrame α)),
      srcOff + frame + n ≤ _buf.length → dstOff + frame + n ≤ obuf.length →
      ∃ ob, mixLoop _vv _buf srcOff dstOff n frame obuf = some ob ∧
        ob.length = obuf.length ∧
        ∀ j, ob[j]? =
          if dstOff + frame ≤ j ∧ j < dstOff + frame + n then
            mixedFrame _vv obuf[j]? _buf[srcOff + (j - dstOff)]?
          else obuf[j]? := by
  intro n
  induction n with
  | zero =>
    intro frame obuf _ _
    refine ⟨obuf, rfl, rfl, ?_⟩
    intro j
    have : ¬ (dstOff + frame ≤ j ∧ j < dstOff + frame + 0) := by omega
    rw [if_neg this]
  | succ n ih =>
    intro frame obuf hs hd
    have hs1 : srcOff + frame < _buf.length := by omega
    have hd1 : dstOff + frame < obuf.length := by omega
    have e1 : _buf[srcOff + frame]? = some (_buf[srcOff + frame]) :=
      List.getElem?_eq_getElem hs1
    have e2 : obuf[dstOff + frame]? = some (obuf[dstOff + frame]) :=
      List.getElem?_eq_getElem hd1
    obtain ⟨ob, hob, hlen, hget⟩ := ih (frame + 1)
      (obuf.set (dstOff + frame)
        ((obuf[dstOff + frame]).1 + (_buf[srcOff + frame]).1 * _vv.1,
         (obuf[dstOff + frame]).2 + (_buf[srcOff + frame]).2 * _vv.2))
      (by omega) (by simp; omega)
    refine ⟨ob, ?_, ?_, ?_⟩
    · simp only [mixLoop, mixFrame, e1, e2]
      exact hob
    · simpa using hlen
    · intro j
      rw [hget j]
      by_cases hj : j = dstOff + frame
      · subst hj
        have h1 : ¬ (dstOff + (frame + 1) ≤ dstOff + frame ∧
            dstOff + frame < dstOff + (frame + 1) + n) := by omega
        have h2 : dstOff + frame ≤ dstOff + frame ∧
            dstOff + frame < dstOff + frame + (n + 1) := by omega
        have h3 : srcOff + (dstOff + frame - dstOff) = srcOff + frame := by omega
        simp only [h1, h2, if_true, if_false, h3, e1, e2, mixedFrame]
        simp [List.getElem?_set, hd1]
      · have hne : dstOff + frame ≠ j := fun h => hj h.symm
        have hset : (obuf.set (dstOff + frame)
            ((obuf[dstOff + frame]).1 + (_buf[srcOff + frame]).1 * _vv.1,
             (obuf[dstOff + frame]).2 + (_buf[srcOff + frame]).2 * _vv.2))[j]? = obuf[j]? := by
          simp [List.getElem?_set, hne]
        rw [hset]
        by_cases hr : dstOff + (frame + 1) ≤ j ∧ j < dstOff + (frame + 1) + n
        · have hr2 : dstOff + frame ≤ j ∧ j < dstOff + frame + (n + 1) := by omega
          simp [hr, hr2]
        · have hr2 : ¬ (dstOff + frame ≤ j ∧ j < dstOff + frame + (n + 1)) := by omega
          simp [hr, hr2]

theorem bufferToPort_spec {α : Type} [Add α] [Mul α] (fpp : Nat)
    (_buf : List (sampleFrame α)) (_frames _offset : Nat)
    (_vv : stereoVolumeVector α) (_port : AudioPort α)
    (hsrc : _frames ≤ _buf.length)
    (hfirst : _port.m_firstBuffer.length = fpp)
    (hsecond : _port.m_secondBuffer.length = fpp)
    (hend : _offset % fpp + _frames ≤ 2 * fpp) :
    ∃ p, bufferToPort fpp _buf _frames _offset _vv _port = some p ∧
      p.m_firstBuffer.length = fpp ∧ p.m_secondBuffer.length = fpp ∧
      p.m_nextFxChannel = _port.m_nextFxChannel ∧
      (∀ j, p.m_firstBuffer[j]? =
        if _offset % fpp ≤ j ∧ j < min (_offset % fpp + _frames) fpp then
          mixedFrame _vv _port.m_firstBuffer[j]? _buf[j - _offset % fpp]?
        else _port.m_firstBuffer[j]?) ∧
      (∀ j, p.m_secondBuffer[j]? =
        if j + fpp < _offset % fpp + _frames then
          mixedFrame _vv _port.m_secondBuffer[j]? _buf[fpp - _offset % fpp + j]?
        else _port.m_secondBuffer[j]?) ∧
      p.m_bufferUsage =
        (if _offset % fpp + _frames > fpp then bufferUsages.BothBuffers
         else if _port.m_bufferUsage = bufferUsages.NoUsage then bufferUsages.FirstBuffer
         else _port.m_bufferUsage) := by
  have hstart : _offset % fpp ≤ fpp := by
    rcases Nat.eq_zero_or_pos fpp with h0 | hpos
    · subst h0; simp at hend ⊢; omega
    · exact (Nat.mod_lt _ hpos).le
  generalize hS : _offset % fpp = start at hend hstart ⊢
  obtain ⟨f1, hf1, hlen1, hget1⟩ := mixLoop_spec _vv _buf 0 start
    (min (start + _frames) fpp - start) 0 _port.m_firstBuffer
    (by omega) (by omega)
  have hfirstGet : ∀ j, f1[j]? =
      if start ≤ j ∧ j < min (start + _frames) fpp then
        mixedFrame _vv _port.m_firstBuffer[j]? _buf[j - start]?
      else _port.m_firstBuffer[j]? := by
    intro j
    rw [hget1 j]
    by_cases hc : start ≤ j ∧ j < min (start + _frames) fpp
    · have hc2 : start + 0 ≤ j ∧ j < start + 0 + (min (start + _frames) fpp - start) := by
        omega
      rw [if_pos hc, if_pos hc2, Nat.zero_add]
    · have hc2 : ¬ (start + 0 ≤ j ∧
          j < start + 0 + (min (start + _frames) fpp - start)) := by omega
      rw [if_neg hc, if_neg hc2]
  by_cases hspill : start + _frames > fpp
  · obtain ⟨f2, hf2, hlen2, hget2⟩ := mixLoop_spec _vv _buf (fpp - start) 0
      (min (start + _frames - fpp) fpp) 0 _port.m_secondBuffer
      (by omega) (by omega)
    refine ⟨{ _port with m_firstBuffer := f1, m_secondBuffer := f2,
                         m_bufferUsage := bufferUsages.BothBuffers }, ?_, ?_, ?_, rfl,
      hfirstGet, ?_, ?_⟩
    · simp only [bufferToPort, hS, hf1, hf2, if_pos hspill]
    · simpa [hfirst] using hlen1
    · simpa [hsecond] using hlen2
    · intro j
      show f2[j]? = _
      rw [hget2 j]
      by_cases hc : j + fpp < start + _frames
      · have hc2 : 0 + 0 ≤ j ∧ j < 0 + 0 + min (start + _frames - fpp) fpp := by omega
        rw [if_pos hc, if_pos hc2, Nat.sub_zero]
      · have hc2 : ¬ (0 + 0 ≤ j ∧ j < 0 + 0 + min (start + _frames - fpp) fpp) := by omega
        rw [if_neg hc, if_neg hc2]
    · show bufferUsages.BothBuffers = _
      rw [if_pos hspill]
  · have hsec : ∀ j, _port.m_secondBuffer[j]? =
        if j + fpp < start + _frames then
          mixedFrame _vv _port.m_secondBuffer[j]? _buf[fpp - start + j]?
        else _port.m_secondBuffer[j]? := by
      intro j
      have hc : ¬ (j + fpp < start + _frames) := by omega
      rw [if_neg hc]
    by_cases hu : _port.m_bufferUsage = bufferUsages.NoUsage
    · refine ⟨{ _port with m_firstBuffer := f1,
                           m_bufferUsage := bufferUsages.FirstBuffer }, ?_, ?_, hsecond, rfl,
        hfirstGet, hsec, ?_⟩
      · simp only [bufferToPort, hS, hf1, if_neg hspill, if_pos hu]
      · simpa [hfirst] using hlen1
      · show bufferUsages.FirstBuffer = _
        rw [if_neg hspill, if_pos hu]
    · refine ⟨{ _port with m_firstBuffer := f1 }, ?_, ?_, hsecond, rfl,
        hfirstGet, hsec, ?_⟩
      · simp only [bufferToPort, hS, hf1, if_neg hspill, if_neg hu]
      · simpa [hfirst] using hlen1
      · show _port.m_bufferUsage = _
        rw [if_neg hspill, if_neg hu]

/-- C1: `bufferToPort` mixes additively and splits at the period boundary. For
a source of at least `_frames` frames, a port whose two buffers hold one
period each, `start = _offset mod fpp` and `end = start + _frames` at most
`2 * fpp`, the call succeeds and `first[start + i] = old + src[i] * vol` on
both channels for `i < min end fpp - start`, `second[j] = old +
src[fpp - start + j] * vol` for `j < end - fpp`, and every other frame of
`first` and `second` is unchanged. -/
theorem bufferToPort_mixes_and_splits {α : Type} [Add α] [Mul α] (fpp : Nat)
    (src : List (sampleFrame α)) (_frames _offset : Nat)
    (vv : stereoVolumeVector α) (port : AudioPort α)
    (hsrc : _frames ≤ src.length)
    (hfirst : port.m_firstBuffer.length = fpp)
    (hsecond : port.m_secondBuffer.length = fpp)
    (hend : _offset % fpp + _frames ≤ 2 * fpp) :
    ∃ p, bufferToPort fpp src _frames _offset vv port = some p ∧
      (∀ i, i < min (_offset % fpp + _frames) fpp - _offset % fpp →
        ∃ o s, port.m_firstBuffer[_offset % fpp + i]? = some o ∧ src[i]? = some s ∧
          p.m_firstBuffer[_offset % fpp + i]? = some (o.1 + s.1 * vv.1, o.2 + s.2 * vv.2)) ∧
      (∀ j, j < _offset % fpp + _frames - fpp →
        ∃ o s, port.m_secondBuffer[j]? = some o ∧ src[fpp - _offset % fpp + j]? = some s ∧
          p.m_secondBuffer[j]? = some (o.1 + s.1 * vv.1, o.2 + s.2 * vv.2)) ∧
      (∀ k, ¬ (_offset % fpp ≤ k ∧ k < min (_offset % fpp + _frames) fpp) →
        p.m_firstBuffer[k]? = port.m_firstBuffer[k]?) ∧
      (∀ k, ¬ (k < _offset % fpp + _frames - fpp) →
        p.m_secondBuffer[k]? = port.m_secondBuffer[k]?) ∧
      p.m_firstBuffer.length = fpp ∧ p.m_secondBuffer.length = fpp := by
  obtain ⟨p, hp, hl1, hl2, _, hg1, hg2, _⟩ :=
    bufferToPort_spec fpp src _frames _offset vv port hsrc hfirst hsecond hend
  have hstart : _offset % fpp ≤ fpp := by
    rcases Nat.eq_zero_or_pos fpp with h0 | hpos
    · subst h0; simp at hend ⊢; omega
    · exact (Nat.mod_lt _ hpos).le
  refine ⟨p, hp, ?_, ?_, ?_, ?_, hl1, hl2⟩
  · intro i hi
    have ho : _offset % fpp + i < port.m_firstBuffer.length := by omega
    have hs : i < src.length := by omega
    refine ⟨port.m_firstBuffer[_offset % fpp + i], src[i],
      List.getElem?_eq_getElem ho, List.getElem?_eq_getElem hs, ?_⟩
    rw [hg1]
    have hc : _offset % fpp ≤ _offset % fpp + i ∧
        _offset % fpp + i < min (_offset % fpp + _frames) fpp := by omega
    rw [if_pos hc, List.getElem?_eq_getElem ho]
    have hidx : _offset % fpp + i - _offset % fpp = i := by omega
    rw [hidx, List.getElem?_eq_getElem hs]
    rfl
  · intro j hj
    have ho : j < port.m_secondBuffer.length := by omega
    have hs : fpp - _offset % fpp + j < src.length := by omega
    refine ⟨port.m_secondBuffer[j], src[fpp - _offset % fpp + j],
      List.getElem?_eq_getElem ho, List.getElem?_eq_getElem hs, ?_⟩
    rw [hg2]
    have hc : j + fpp < _offset % fpp + _frames := by omega
    rw [if_pos hc, List.getElem?_eq_getElem ho, List.getElem?_eq_getElem hs]
    rfl
  · intro k hk
    rw [hg1, if_neg hk]
  · intro k hk
    rw [hg2]
    have hc : ¬ (k + fpp < _offset % fpp + _frames) := by omega
    rw [if_neg hc]

/-- Witness for C1, scenario S3: offset 200, 128 frames, period 256; 56 frames
go to `first[200..256]` and 72 frames to `second[0..72]`. -/
theorem bufferToPort_mixes_and_splits_witness :
    ∃ p, bufferToPort 256 (List.replicate 128 ((1 : ℚ) / 4, (1 : ℚ) / 4)) 128 200 (1, 1)
        (scenarioPort 256) = some p ∧
      (∀ i, i < 56 →
        ∃ o s, (scenarioPort 256).m_firstBuffer[200 + i]? = some o ∧
          (List.replicate 128 ((1 : ℚ) / 4, (1 : ℚ) / 4))[i]? = some s ∧
          p.m_firstBuffer[200 + i]? = some (o.1 + s.1 * 1, o.2 + s.2 * 1)) ∧
      (∀ j, j < 72 →
        ∃ o s, (scenarioPort 256).m_secondBuffer[j]? = some o ∧
          (List.replicate 128 ((1 : ℚ) / 4, (1 : ℚ) / 4))[56 + j]? = some s ∧
          p.m_secondBuffer[j]? = some (o.1 + s.1 * 1, o.2 + s.2 * 1)) ∧
      (∀ k, ¬ (200 ≤ k ∧ k < 256) →
        p.m_firstBuffer[k]? = (scenarioPort 256).m_firstBuffer[k]?) ∧
      (∀ k, ¬ (k < 72) →
        p.m_secondBuffer[k]? = (scenarioPort 256).m_secondBuffer[k]?) ∧
      p.m_firstBuffer.length = 256 ∧ p.m_secondBuffer.length = 256 :=
  bufferToPort_mixes_and_splits 256 (List.replicate 128 ((1 : ℚ) / 4, (1 : ℚ) / 4)) 128 200
    (1, 1) (scenarioPort 256) (by simp) (List.length_replicate _ _)
    (List.length_replicate _ _) (by decide)

/-! ### The input capture ring -/

theorem memcpy_spec {α : Type} (dst : List (sampleFrame α)) (off : Nat)
    (src : List (sampleFrame α)) (n : Nat) (hn : n ≤ src.length)
    (hoff : off + n ≤ dst.length) :
    ∃ r, memcpy dst off src n = some r ∧ r.length = dst.length ∧
      r.take off = dst.take off ∧
      r.take (off + n) = dst.take off ++ src.take n := by
  refine ⟨dst.take off ++ src.take n ++ dst.drop (off + n), ?_, ?_, ?_, ?_⟩
  · simp [memcpy, hn, hoff]
  · simp only [List.length_append, List.length_take, List.length_drop]
    omega
  · rw [List.append_assoc]
    exact List.take_left' (by simp only [List.length_take]; omega)
  · exact List.take_left' (by
      simp only [List.length_append, List.length_take]; omega)

theorem pushInputFrames_spec {α Fx : Type} (fresh : Nat → sampleFrame α)
    (_ab : List (sampleFrame α)) (_frames : Nat) (m : mixer α Fx)
    (hsize : m.m_inputBufferSize m.m_inputBufferWrite
      = (m.m_inputBuffer m.m_inputBufferWrite).length)
    (hfill : m.m_inputBufferFrames m.m_inputBufferWrite
      ≤ m.m_inputBufferSize m.m_inputBufferWrite)
    (hn : _frames ≤ _ab.length) :
    ∃ m1, pushInputFrames fresh _ab _frames m = some m1 ∧
      m1.m_inputBufferWrite = m.m_inputBufferWrite ∧
      m1.m_inputBufferRead = m.m_inputBufferRead ∧
      m1.m_inputBufferFrames m.m_inputBufferWrite
        = m.m_inputBufferFrames m.m_inputBufferWrite + _frames ∧
      m1.m_inputBufferSize m.m_inputBufferWrite
        = (if m.m_inputBufferFrames m.m_inputBufferWrite + _frames
              ≤ m.m_inputBufferSize m.m_inputBufferWrite
           then m.m_inputBufferSize m.m_inputBufferWrite
           else max (m.m_inputBufferSize m.m_inputBufferWrite * 2)
              (m.m_inputBufferFrames m.m_inputBufferWrite + _frames)) ∧
      m1.m_inputBufferSize m.m_inputBufferWrite
        = (m1.m_inputBuffer m.m_inputBufferWrite).length ∧
      (m1.m_inputBuffer m.m_inputBufferWrite).take
          (m.m_inputBufferFrames m.m_inputBufferWrite + _frames)
        = (m.m_inputBuffer m.m_inputBufferWrite).take
            (m.m_inputBufferFrames m.m_inputBufferWrite) ++ _ab.take _frames ∧
      (∀ i, i ≠ m.m_inputBufferWrite →
        m1.m_inputBuffer i = m.m_inputBuffer i ∧
        m1.m_inputBufferFrames i = m.m_inputBufferFrames i ∧
        m1.m_inputBufferSize i = m.m_inputBufferSize i) := by
  by_cases hgrow : m.m_inputBufferFrames m.m_inputBufferWrite + _frames
      > m.m_inputBufferSize m.m_inputBufferWrite
  · have hlenNew : (newSampleFrames fresh
        (max (m.m_inputBufferSize m.m_inputBufferWrite * 2)
          (m.m_inputBufferFrames m.m_inputBufferWrite + _frames))).length
        = max (m.m_inputBufferSize m.m_inputBufferWrite * 2)
          (m.m_inputBufferFrames m.m_inputBufferWrite + _frames) := by
      simp [newSampleFrames]
    obtain ⟨ab, hab, hablen, _, habtake⟩ := memcpy_spec
      (newSampleFrames fresh
        (max (m.m_inputBufferSize m.m_inputBufferWrite * 2)
          (m.m_inputBufferFrames m.m_inputBufferWrite + _frames)))
      0 (m.m_inputBuffer m.m_inputBufferWrite)
      (m.m_inputBufferFrames m.m_inputBufferWrite) (by omega) (by omega)
    obtain ⟨buf2, hbuf2, hbuf2len, _, hbuf2take⟩ := memcpy_spec ab
      (m.m_inputBufferFrames m.m_inputBufferWrite) _ab _frames hn (by omega)
    rw [Nat.zero_add, List.take_zero, List.nil_append] at habtake
    refine ⟨{ m with
        m_inputBufferSize := Function.update m.m_inputBufferSize m.m_inputBufferWrite
          (max (m.m_inputBufferSize m.m_inputBufferWrite * 2)
            (m.m_inputBufferFrames m.m_inputBufferWrite + _frames))
        m_inputBuffer := Function.update
          (Function.update m.m_inputBuffer m.m_inputBufferWrite ab) m.m_inputBufferWrite buf2
        m_inputBufferFrames := Function.update m.m_inputBufferFrames m.m_inputBufferWrite
          (m.m_inputBufferFrames m.m_inputBufferWrite + _frames) }, ?_, ?_, ?_, ?_, ?_, ?_, ?_, ?_⟩
    · simp only [pushInputFrames, if_pos hgrow, hab, hbuf2]
    · rfl
    · rfl
    · simp
    · have hng : ¬ (m.m_inputBufferFrames m.m_inputBufferWrite + _frames
          ≤ m.m_inputBufferSize m.m_inputBufferWrite) := by omega
      simp [if_neg hng]
    · simp only [Function.update_same]
      omega
    · simp only [Function.update_same]
      rw [hbuf2take, habtake]
    · intro i hi
      simp [Function.update_noteq hi]
  · obtain ⟨buf2, hbuf2, hbuf2len, _, hbuf2take⟩ := memcpy_spec
      (m.m_inputBuffer m.m_inputBufferWrite)
      (m.m_inputBufferFrames m.m_inputBufferWrite) _ab _frames hn (by omega)
    refine ⟨{ m with
        m_inputBuffer := Function.update m.m_inputBuffer m.m_inputBufferWrite buf2
        m_inputBufferFrames := Function.update m.m_inputBufferFrames m.m_inputBufferWrite
          (m.m_inputBufferFrames m.m_inputBufferWrite + _frames) }, ?_, ?_, ?_, ?_, ?_, ?_, ?_, ?_⟩
    · simp only [pushInputFrames, if_neg hgrow, hbuf2]
    · rfl
    · rfl
    · simp
    · have hng : m.m_inputBufferFrames m.m_inputBufferWrite + _frames
          ≤ m.m_inputBufferSize m.m_inputBufferWrite := by omega
      simp [if_pos hng]
    · simp only [Function.update_same]
      omega
    · simp only [Function.update_same]
      rw [hbuf2take]
    · intro i hi
      simp [Function.update_noteq hi]

theorem pushInputFramesAll_spec {α Fx : Type} :
    ∀ (calls : List ((Nat → sampleFrame α) × List (sampleFrame α) × Nat)) (m : mixer α Fx),
      m.m_inputBufferSize m.m_inputBufferWrite
        = (m.m_inputBuffer m.m_inputBufferWrite).length →
      m.m_inputBufferFrames m.m_inputBufferWrite
        ≤ m.m_inputBufferSize m.m_inputBufferWrite →
      (∀ c ∈ calls, c.2.2 ≤ c.2.1.length) →
      ∃ m2, pushInputFramesAll calls m = some m2 ∧
        m2.m_inputBufferWrite = m.m_inputBufferWrite ∧
        m2.m_inputBufferRead = m.m_inputBufferRead ∧
        m2.m_inputBufferFrames m.m_inputBufferWrite
          = m.m_inputBufferFrames m.m_inputBufferWrite + (calls.map (fun c => c.2.2)).sum ∧
        m2.m_inputBufferSize m.m_inputBufferWrite
          = (m2.m_inputBuffer m.m_inputBufferWrite).length ∧
        (m2.m_inputBuffer m.m_inputBufferWrite).take
            (m.m_inputBufferFrames m.m_inputBufferWrite + (calls.map (fun c => c.2.2)).sum)
          = (m.m_inputBuffer m.m_inputBufferWrite).take
              (m.m_inputBufferFrames m.m_inputBufferWrite)
            ++ (calls.map (fun c => c.2.1.take c.2.2)).flatten ∧
        (∀ i, i ≠ m.m_inputBufferWrite →
          m2.m_inputBuffer i = m.m_inputBuffer i ∧
          m2.m_inputBufferFrames i = m.m_inputBufferFrames i ∧
          m2.m_inputBufferSize i = m.m_inputBufferSize i) := by
  intro calls
  induction calls with
  | nil =>
    intro m hsize _ _
    refine ⟨m, rfl, rfl, rfl, by simp, hsize, by simp, fun i _ => ⟨rfl, rfl, rfl⟩⟩
  | cons c rest ih =>
    intro m hsize hfill hcalls
    obtain ⟨fresh, ab, n⟩ := c
    have hn : n ≤ ab.length := hcalls (fresh, ab, n) (List.mem_cons_self _ _)
    obtain ⟨m1, hm1, hw1, hr1, hfr1, hsz1, hlen1, htake1, hother1⟩ :=
      pushInputFrames_spec fresh ab n m hsize hfill hn
    have hfill1 : m1.m_inputBufferFrames m1.m_inputBufferWrite
        ≤ m1.m_inputBufferSize m1.m_inputBufferWrite := by
      rw [hw1, hfr1, hsz1]
      split <;> omega
    obtain ⟨m2, hm2, hw2, hr2, hfr2, hlen2, htake2, hother2⟩ :=
      ih m1 (by rw [hw1]; exact hlen1) hfill1
        (fun c hc => hcalls c (List.mem_cons_of_mem _ hc))
    rw [hw1] at hfr2 hlen2 htake2 hother2
    refine ⟨m2, ?_, by rw [hw2, hw1], by rw [hr2, hr1], ?_, hlen2, ?_, ?_⟩
    · simp only [pushInputFramesAll, hm1]
      exact hm2
    · rw [hfr2, hfr1]
      simp only [List.map_cons, List.sum_cons]
      omega
    · simp only [List.map_cons, List.sum_cons, List.flatten_cons]
      rw [hfr1] at htake2
      rw [← Nat.add_assoc, htake2, htake1, List.append_assoc]
    · intro i hi
      obtain ⟨a1, a2, a3⟩ := hother1 i hi
      obtain ⟨b1, b2, b3⟩ := hother2 i hi
      exact ⟨b1.trans a1, b2.trans a2, b3.trans a3⟩

/-- C3: input capture round trip. From a state whose ring is well formed, the
period swap, then any sequence of `pushInputFrames` calls (each given at least
as many frames as it announces), then the next period swap: all the calls
succeed, the read buffer has a fill count equal to the sum of the frame
counts, and its first frames are the concatenation of the pushed frames in
call order, whether or not a push made the buffer grow. -/
theorem input_capture_round_trip {α Fx : Type} (m : mixer α Fx)
    (calls : List ((Nat → sampleFrame α) × List (sampleFrame α) × Nat))
    (hwf : inputRingWellFormed m)
    (hcalls : ∀ c ∈ calls, c.2.2 ≤ c.2.1.length) :
    ∃ m2, pushInputFramesAll calls (swapInputBuffers m) = some m2 ∧
      (swapInputBuffers m2).m_inputBufferFrames (swapInputBuffers m2).m_inputBufferRead
        = (calls.map (fun c => c.2.2)).sum ∧
      ((swapInputBuffers m2).m_inputBuffer (swapInputBuffers m2).m_inputBufferRead).take
          (calls.map (fun c => c.2.2)).sum
        = (calls.map (fun c => c.2.1.take c.2.2)).flatten := by
  obtain ⟨hr, hw, hne, hsz⟩ := hwf
  have hw1 : (swapInputBuffers m).m_inputBufferWrite = (m.m_inputBufferWrite + 1) % 2 := rfl
  have hr1 : (swapInputBuffers m).m_inputBufferRead = (m.m_inputBufferRead + 1) % 2 := rfl
  have hfr1 : (swapInputBuffers m).m_inputBufferFrames (swapInputBuffers m).m_inputBufferWrite
      = 0 := by
    simp [swapInputBuffers]
  have hsize1 : (swapInputBuffers m).m_inputBufferSize (swapInputBuffers m).m_inputBufferWrite
      = ((swapInputBuffers m).m_inputBuffer (swapInputBuffers m).m_inputBufferWrite).length :=
    hsz _ (Nat.mod_lt _ (by decide))
  obtain ⟨m2, hm2, hw2, hr2, hfr2, _, htake2, _⟩ :=
    pushInputFramesAll_spec calls (swapInputBuffers m) hsize1 (by rw [hfr1]; exact Nat.zero_le _)
      hcalls
  rw [hfr1, Nat.zero_add] at hfr2 htake2
  rw [List.take_zero, List.nil_append] at htake2
  have hread3 : (swapInputBuffers m2).m_inputBufferRead
      = (swapInputBuffers m).m_inputBufferWrite := by
    show (m2.m_inputBufferRead + 1) % 2 = _
    rw [hr2, hr1, hw1]
    omega
  have hwrite3 : (m2.m_inputBufferWrite + 1) % 2 ≠ (swapInputBuffers m).m_inputBufferWrite := by
    rw [hw2, hw1]
    omega
  refine ⟨m2, hm2, ?_, ?_⟩
  · rw [hread3]
    show Function.update m2.m_inputBufferFrames ((m2.m_inputBufferWrite + 1) % 2) 0
      (swapInputBuffers m).m_inputBufferWrite = _
    rw [Function.update_noteq (Ne.symm hwrite3)]
    exact hfr2
  · rw [hread3]
    exact htake2

/-- Witness for C3: on the freshly constructed mixer, a push of 2 frames and a
push of 1 frame out of a buffer of 2. -/
theorem input_capture_round_trip_witness :
    ∃ m2, pushInputFramesAll scenarioPushes (swapInputBuffers scenarioMixer) = some m2 ∧
      (swapInputBuffers m2).m_inputBufferFrames (swapInputBuffers m2).m_inputBufferRead
        = (scenarioPushes.map (fun c => c.2.2)).sum ∧
      ((swapInputBuffers m2).m_inputBuffer (swapInputBuffers m2).m_inputBufferRead).take
          (scenarioPushes.map (fun c => c.2.2)).sum
        = (scenarioPushes.map (fun c => c.2.1.take c.2.2)).flatten :=
  input_capture_round_trip scenarioMixer scenarioPushes
    ⟨by decide, by decide, by decide, fun _ _ => (List.length_replicate _ _).symm⟩
    (by
      intro c hc
      simp only [scenarioPushes, List.mem_cons, List.mem_singleton, List.not_mem_nil,
        or_false] at hc
      rcases hc with rfl | rfl <;> decide)

/-! ### The job queue: filling it and walking it -/

theorem fillJobQueueLoop_append (mk : Nat → JobQueueItem) (_condition : Nat → Bool) :
    ∀ (vec : List Nat) (pre suf : List JobQueueItem) (d : Nat),
      (vec.filter _condition).length ≤ suf.length →
      fillJobQueueLoop mk _condition vec
          { items := pre ++ suf, queueSize := pre.length, itemsDone := d }
        = some { items := pre ++ (vec.filter _condition).map mk
                    ++ suf.drop (vec.filter _condition).length
                 queueSize := pre.length + (vec.filter _condition).length
                 itemsDone := d } := by
  intro vec
  induction vec with
  | nil =>
    intro pre suf d _
    simp [fillJobQueueLoop]
  | cons it rest ih =>
    intro pre suf d hlen
    by_cases hc : _condition it = true
    · rw [List.filter_cons_of_pos hc] at hlen ⊢
      cases suf with
      | nil => simp at hlen
      | cons s suf1 =>
        have hlen1 : (rest.filter _condition).length ≤ suf1.length := by
          simpa using hlen
        have hstep : fillJobQueueStep
            { items := pre ++ s :: suf1, queueSize := pre.length, itemsDone := d } (mk it)
            = some { items := (pre ++ [mk it]) ++ suf1, queueSize := (pre ++ [mk it]).length,
                     itemsDone := d } := by
          simp [fillJobQueueStep]
        simp only [fillJobQueueLoop, hc, if_true, hstep]
        rw [ih (pre ++ [mk it]) suf1 d hlen1]
        simp
        omega
    · have hc1 : ¬ (_condition it = true) := hc
      rw [List.filter_cons_of_neg hc1] at hlen ⊢
      simp only [fillJobQueueLoop, hc1, if_false]
      exact ih pre suf d hlen

theorem fillJobQueueLoop_overflow (mk : Nat → JobQueueItem) (_condition : Nat → Bool) :
    ∀ (vec : List Nat) (q : JobQueue),
      q.queueSize ≤ q.items.length →
      q.items.length < q.queueSize + (vec.filter _condition).length →
      fillJobQueueLoop mk _condition vec q = none := by
  intro vec
  induction vec with
  | nil =>
    intro q h1 h2
    simp at h2
    omega
  | cons it rest ih =>
    intro q h1 h2
    by_cases hc : _condition it = true
    · rw [List.filter_cons_of_pos hc] at h2
      simp only [fillJobQueueLoop, hc, if_true]
      by_cases hlt : q.queueSize < q.items.length
      · simp only [fillJobQueueStep, if_pos hlt]
        apply ih
        · simp; omega
        · simp at h2 ⊢; omega
      · simp only [fillJobQueueStep, if_neg hlt]
    · have hc1 : ¬ (_condition it = true) := hc
      rw [List.filter_cons_of_neg hc1] at h2
      simp only [fillJobQueueLoop, hc1, if_false]
      exact ih q h1 h2

theorem processJobQueueLoop_append {α Fx : Type} (env : Collaborators α Fx) :
    ∀ (jobs pre suf : List JobQueueItem) (n d : Nat) (e : EngineState α Fx),
      (∀ it ∈ jobs, it.done = 0) →
      processJobQueueLoop env jobs.length pre.length
          { items := pre ++ jobs ++ suf, queueSize := n, itemsDone := d } e
        = (dispatchJobs env jobs e).map (fun e1 =>
            (({ items := pre ++ jobs.map (fun it => { it with done := 1 }) ++ suf
                queueSize := n
                itemsDone := d + jobs.length } : JobQueue), e1)) := by
  intro jobs
  induction jobs with
  | nil =>
    intro pre suf n d e _
    simp [processJobQueueLoop, dispatchJobs]
  | cons j rest ih =>
    intro pre suf n d e hdone
    have hj : j.done = 0 := hdone j (List.mem_cons_self _ _)
    have hget : (pre ++ j :: rest ++ suf)[pre.length]? = some j := by
      rw [List.append_assoc, List.getElem?_append_right (Nat.le_refl _)]
      simp
    have hset : (pre ++ j :: rest ++ suf).set pre.length { j with done := 1 }
        = (pre ++ [{ j with done := 1 }]) ++ rest ++ suf := by
      simp [List.append_assoc]
    simp only [List.length_cons, processJobQueueLoop, hget, hj, if_true, dispatchJobs]
    cases hdisp : dispatchJob env j e with
    | none => simp
    | some e1 =>
      simp only [hset]
      have := ih (pre ++ [{ j with done := 1 }]) suf n (d + 1) e1
        (fun it hit => hdone it (List.mem_cons_of_mem _ hit))
      simp only [List.length_append, List.length_singleton] at this
      rw [this]
      have harith : d + 1 + rest.length = d + (rest.length + 1) := by omega
      simp only [harith, List.append_assoc, List.singleton_append, List.map_cons,
        List.cons_append, List.length_cons, List.nil_append]

theorem stageJobs_done (mk : Nat → JobQueueItem) (hmk : ∀ x, (mk x).done = 0)
    (_condition : Nat → Bool) (_vec : List Nat) :
    ∀ it ∈ stageJobs mk _condition _vec, it.done = 0 := by
  intro it hit
  simp only [stageJobs, List.mem_map] at hit
  obtain ⟨x, _, rfl⟩ := hit
  exact hmk x

theorem FILL_JOB_QUEUE_eq (_vec : List Nat) (_job_type : JobTypes) (_condition : Nat → Bool)
    (q : JobQueue)
    (h : (stageJobs (fun it => JobQueueItem.new _job_type it 0) _condition _vec).length
      ≤ q.items.length) :
    FILL_JOB_QUEUE _vec _job_type _condition q
      = some (filledQueue
          (stageJobs (fun it => JobQueueItem.new _job_type it 0) _condition _vec) q) := by
  have := fillJobQueueLoop_append (fun it => JobQueueItem.new _job_type it 0) _condition _vec
    [] q.items 0 (by simpa [stageJobs] using h)
  simp only [List.nil_append, List.length_nil, Nat.zero_add] at this
  simp only [FILL_JOB_QUEUE, this, filledQueue, stageJobs, List.length_map]

theorem FILL_JOB_QUEUE_PARAM_eq (_vec : List Nat) (_job_type : JobTypes)
    (_condition : Nat → Bool) (q : JobQueue)
    (h : (stageJobs (fun it => JobQueueItem.new _job_type 0 it) _condition _vec).length
      ≤ q.items.length) :
    FILL_JOB_QUEUE_PARAM _vec _job_type _condition q
      = some (filledQueue
          (stageJobs (fun it => JobQueueItem.new _job_type 0 it) _condition _vec) q) := by
  have := fillJobQueueLoop_append (fun it => JobQueueItem.new _job_type 0 it) _condition _vec
    [] q.items 0 (by simpa [stageJobs] using h)
  simp only [List.nil_append, List.length_nil, Nat.zero_add] at this
  simp only [FILL_JOB_QUEUE_PARAM, this, filledQueue, stageJobs, List.length_map]

theorem WAIT_FOR_JOBS_eq {α Fx : Type} (env : Collaborators α Fx)
    (jobs : List JobQueueItem) (q : JobQueue) (e : EngineState α Fx)
    (hdone : ∀ it ∈ jobs, it.done = 0) :
    WAIT_FOR_JOBS env (filledQueue jobs q) e
      = (dispatchJobs env jobs e).map (fun e1 => (finishedQueue jobs q, e1)) := by
  have := processJobQueueLoop_append env jobs [] (q.items.drop jobs.length) jobs.length 0 e hdone
  simp only [List.nil_append, List.length_nil, Nat.zero_add] at this
  simp only [WAIT_FOR_JOBS, processJobQueue, filledQueue, this, finishedQueue]
  cases dispatchJobs env jobs e with
  | none => rfl
  | some e1 => simp

theorem filledQueue_length (jobs : List JobQueueItem) (q : JobQueue)
    (h : jobs.length ≤ q.items.length) :
    (filledQueue jobs q).items.length = q.items.length := by
  simp only [filledQueue, List.length_append, List.length_drop]
  omega

theorem finishedQueue_length (jobs : List JobQueueItem) (q : JobQueue)
    (h : jobs.length ≤ q.items.length) :
    (finishedQueue jobs q).items.length = q.items.length := by
  simp only [finishedQueue, List.length_append, List.length_drop, List.length_map]
  omega

/-! ### One period, stage by stage -/

theorem renderNextBuffer_of_stages {α Fx : Type} [Zero α] (env : Collaborators α Fx)
    (currentThread elapsed processingSampleRate : Nat) (m : mixer α Fx)
    (m_writeBuf : List (sampleFrame α)) (e4 e6 e7 : EngineState α Fx)
    (hq : m.s_jobQueue.items.length = JOB_QUEUE_SIZE)
    (hw : m.m_bufferPool[(m.m_writeBuffer + 1) % m.m_poolDepth]? = some m_writeBuf)
    (hr : (m.m_readBuffer + 1) % m.m_poolDepth < m.m_bufferPool.length)
    (hfpp : m.m_framesPerPeriod ≤ m_writeBuf.length)
    (h1 : (stage1Jobs (periodStart env m.toEngineState)).length ≤ JOB_QUEUE_SIZE)
    (hs1 : dispatchJobs env (stage1Jobs (periodStart env m.toEngineState))
      (periodStart env m.toEngineState) = some e4)
    (h2 : (stage2Jobs (cullDonePlayHandles currentThread e4)).length ≤ JOB_QUEUE_SIZE)
    (hs2 : dispatchJobs env (stage2Jobs (cullDonePlayHandles currentThread e4))
      (cullDonePlayHandles currentThread e4) = some e6)
    (h3 : (stage3Jobs env.NumFxChannels).length ≤ JOB_QUEUE_SIZE)
    (hs3 : dispatchJobs env (stage3Jobs env.NumFxChannels) e6 = some e7) :
    ∃ q, q.items.length = JOB_QUEUE_SIZE ∧
      renderNextBuffer env currentThread elapsed processingSampleRate m
        = some ({ swapInputBuffers m with
            toEngineState :=
              { e7 with fxMixer := (env.masterMix e7.fxMixer
                  (List.replicate m.m_framesPerPeriod ((0 : α), (0 : α))
                    ++ m_writeBuf.drop m.m_framesPerPeriod)).1 }
            m_bufferPool := m.m_bufferPool.set ((m.m_writeBuffer + 1) % m.m_poolDepth)
              (env.masterMix e7.fxMixer
                (List.replicate m.m_framesPerPeriod ((0 : α), (0 : α))
                  ++ m_writeBuf.drop m.m_framesPerPeriod)).2
            m_writeBuffer := (m.m_writeBuffer + 1) % m.m_poolDepth
            m_readBuffer := (m.m_readBuffer + 1) % m.m_poolDepth
            s_jobQueue := q
            m_cpuLoad := updateCpuLoad elapsed processingSampleRate m.m_framesPerPeriod
              m.m_cpuLoad },
          (m.m_readBuffer + 1) % m.m_poolDepth) := by
  have hdone1 := stageJobs_done (fun it => JobQueueItem.new JobTypes.PlayHandle it 0)
    (fun _ => rfl) (fun it => !((periodStart env m.toEngineState).playHandleAt it).done)
    (periodStart env m.toEngineState).m_playHandles
  have hdone2 := stageJobs_done (fun it => JobQueueItem.new JobTypes.AudioPortEffects it 0)
    (fun _ => rfl) (fun _ => true) (cullDonePlayHandles currentThread e4).m_audioPorts
  have hdone3 := stageJobs_done (fun it => JobQueueItem.new JobTypes.EffectChannel 0 it)
    (fun _ => rfl) (fun _ => true) (fxChannelJobs env.NumFxChannels)
  have hl1 := finishedQueue_length (stage1Jobs (periodStart env m.toEngineState)) m.s_jobQueue
    (by rw [hq]; exact h1)
  have hl2 := finishedQueue_length (stage2Jobs (cullDonePlayHandles currentThread e4))
    (finishedQueue (stage1Jobs (periodStart env m.toEngineState)) m.s_jobQueue)
    (by rw [hl1, hq]; exact h2)
  have hl3 := finishedQueue_length (stage3Jobs env.NumFxChannels)
    (finishedQueue (stage2Jobs (cullDonePlayHandles currentThread e4))
      (finishedQueue (stage1Jobs (periodStart env m.toEngineState)) m.s_jobQueue))
    (by rw [hl2, hl1, hq]; exact h3)
  have hf1 := FILL_JOB_QUEUE_eq (periodStart env m.toEngineState).m_playHandles
    JobTypes.PlayHandle (fun it => !((periodStart env m.toEngineState).playHandleAt it).done)
    m.s_jobQueue (by rw [hq]; exact h1)
  have hf2 := FILL_JOB_QUEUE_eq (cullDonePlayHandles currentThread e4).m_audioPorts
    JobTypes.AudioPortEffects (fun _ => true)
    (finishedQueue (stage1Jobs (periodStart env m.toEngineState)) m.s_jobQueue)
    (by rw [hl1, hq]; exact h2)
  have hf3 := FILL_JOB_QUEUE_PARAM_eq (fxChannelJobs env.NumFxChannels)
    JobTypes.EffectChannel (fun _ => true)
    (finishedQueue (stage2Jobs (cullDonePlayHandles currentThread e4))
      (finishedQueue (stage1Jobs (periodStart env m.toEngineState)) m.s_jobQueue))
    (by rw [hl2, hl1, hq]; exact h3)
  have hwt1 := WAIT_FOR_JOBS_eq env (stage1Jobs (periodStart env m.toEngineState))
    m.s_jobQueue (periodStart env m.toEngineState) hdone1
  have hwt2 := WAIT_FOR_JOBS_eq env (stage2Jobs (cullDonePlayHandles currentThread e4))
    (finishedQueue (stage1Jobs (periodStart env m.toEngineState)) m.s_jobQueue)
    (cullDonePlayHandles currentThread e4) hdone2
  have hwt3 := WAIT_FOR_JOBS_eq env (stage3Jobs env.NumFxChannels)
    (finishedQueue (stage2Jobs (cullDonePlayHandles currentThread e4))
      (finishedQueue (stage1Jobs (periodStart env m.toEngineState)) m.s_jobQueue))
    e6 hdone3
  rw [hs1] at hwt1
  rw [hs2] at hwt2
  rw [hs3] at hwt3
  have hrsome : m.m_bufferPool[(m.m_readBuffer + 1) % m.m_poolDepth]?
      = some (m.m_bufferPool[(m.m_readBuffer + 1) % m.m_poolDepth]) :=
    List.getElem?_eq_getElem hr
  refine ⟨_, hl3.trans (hl2.trans (hl1.trans hq)), ?_⟩
  simp only [periodStart, stage1Jobs, stage2Jobs, stage3Jobs] at hf1 hwt1 hf2 hwt2 hf3 hwt3
  simp only [renderNextBuffer, swapInputBuffers, hw, hrsome, clearAudioBuffer, if_pos hfpp,
    hf1, hwt1, hf2, hwt2, hf3, hwt3, Option.map_some']
  rfl

theorem renderNextBuffer_fields {α Fx : Type} [Zero α] (env : Collaborators α Fx)
    (currentThread elapsed processingSampleRate : Nat) (m m1 : mixer α Fx) (r : Nat)
    (h : renderNextBuffer env currentThread elapsed processingSampleRate m = some (m1, r)) :
    r = (m.m_readBuffer + 1) % m.m_poolDepth ∧
    m1.m_readBuffer = (m.m_readBuffer + 1) % m.m_poolDepth ∧
    m1.m_writeBuffer = (m.m_writeBuffer + 1) % m.m_poolDepth ∧
    m1.m_poolDepth = m.m_poolDepth ∧
    m1.m_framesPerPeriod = m.m_framesPerPeriod ∧
    m1.m_bufferPool.length = m.m_bufferPool.length ∧
    (∀ j, j ≠ (m.m_writeBuffer + 1) % m.m_poolDepth →
      m1.m_bufferPool[j]? = m.m_bufferPool[j]?) ∧
    (m.m_writeBuffer + 1) % m.m_poolDepth < m.m_bufferPool.length ∧
    (m.m_readBuffer + 1) % m.m_poolDepth < m.m_bufferPool.length ∧
    m1.m_inputBufferRead = (swapInputBuffers m).m_inputBufferRead ∧
    m1.m_inputBufferWrite = (swapInputBuffers m).m_inputBufferWrite ∧
    m1.m_inputBuffer = (swapInputBuffers m).m_inputBuffer ∧
    m1.m_inputBufferFrames = (swapInputBuffers m).m_inputBufferFrames ∧
    m1.m_inputBufferSize = (swapInputBuffers m).m_inputBufferSize ∧
    m1.m_cpuLoad = updateCpuLoad elapsed processingSampleRate m.m_framesPerPeriod m.m_cpuLoad := by
  unfold renderNextBuffer at h
  simp only [swapInputBuffers] at h
  split at h
  · rename_i wb rb hw hr
    split at h
    · exact absurd h (by simp)
    · split at h
      · exact absurd h (by simp)
      · split at h
        · exact absurd h (by simp)
        · split at h
          · exact absurd h (by simp)
          · split at h
            · exact absurd h (by simp)
            · split at h
              · exact absurd h (by simp)
              · split at h
                · exact absurd h (by simp)
                · simp only [Option.some.injEq, Prod.mk.injEq] at h
                  obtain ⟨hm, hr1⟩ := h
                  subst hm
                  have hwlt := (List.getElem?_eq_some_iff.1 hw).1
                  have hrlt := (List.getElem?_eq_some_iff.1 hr).1
                  refine ⟨hr1.symm, rfl, rfl, rfl, rfl, by simp, ?_, hwlt, hrlt, rfl, rfl, rfl,
                    rfl, rfl, rfl⟩
                  intro j hj
                  simp only [List.getElem?_set, if_neg (Ne.symm hj)]
  · exact absurd h (by simp)

/-! ### Scenario S2 -/

theorem scenario_bufferToPort :
    bufferToPort 256 (List.replicate 256 ((1 : ℚ) / 4, (1 : ℚ) / 4)) 256 0 (1, 1)
      (scenarioPort 256) = some scenarioMixedPort := by
  obtain ⟨p, hp, _, _, hfx, hg1, hg2, hu⟩ := bufferToPort_spec 256
    (List.replicate 256 ((1 : ℚ) / 4, (1 : ℚ) / 4)) 256 0 (1, 1) (scenarioPort 256)
    (by rw [List.length_replicate]) (List.length_replicate _ _) (List.length_replicate _ _)
    (by decide)
  rw [hp]
  refine congrArg some ?_
  cases p with
  | mk f s u c =>
    simp only [scenarioPort] at hfx hg1 hg2 hu
    simp only [scenarioMixedPort, AudioPort.mk.injEq]
    refine ⟨?_, ?_, ?_, hfx⟩
    · apply List.ext_getElem?
      intro j
      rw [hg1 j]
      by_cases hj : j < 256
      · have hc : 0 % 256 ≤ j ∧ j < min (0 % 256 + 256) 256 := ⟨Nat.zero_le _, by simpa using hj⟩
        rw [if_pos hc, List.getElem?_replicate_of_lt hj, List.getElem?_replicate_of_lt hj,
          List.getElem?_replicate_of_lt (by omega)]
        simp only [mixedFrame]
        norm_num
      · have hc : ¬ (0 % 256 ≤ j ∧ j < min (0 % 256 + 256) 256) := by
          intro h
          exact hj (by simpa using h.2)
        rw [if_neg hc, List.getElem?_replicate, List.getElem?_replicate, if_neg hj, if_neg hj]
    · apply List.ext_getElem?
      intro j
      rw [hg2 j]
      have hc : ¬ (j + 256 < 0 % 256 + 256) := by omega
      rw [if_neg hc]
    · rw [hu]
      decide

theorem scenario_addBuffers :
    addBuffers (List.replicate 256 ((0 : ℚ), (0 : ℚ))) (List.replicate 256 ((1 : ℚ) / 4, (1 : ℚ) / 4))
      = List.replicate 256 ((1 : ℚ) / 4, (1 : ℚ) / 4) := by
  unfold addBuffers
  rw [List.zipWith_replicate']
  norm_num

theorem scenario_nextPeriod : nextPeriodSpec scenarioMixedPort = scenarioPort 256 := by
  simp only [nextPeriodSpec, scenarioMixedPort, scenarioPort, List.length_replicate]

theorem scenario_effectChannels (fpp frames : Nat) (level : sampleFrame ℚ)
    (vol : stereoVolumeVector ℚ) (port : Nat) :
    ∀ (jobs : List JobQueueItem) (e : EngineState ℚ (List (sampleFrame ℚ))),
      (∀ it ∈ jobs, it.type = JobTypes.EffectChannel) →
      dispatchJobs (scenarioCollaborators fpp frames level vol port) jobs e = some e := by
  intro jobs
  induction jobs with
  | nil => intro e _; rfl
  | cons j rest ih =>
    intro e h
    have hj : j.type = JobTypes.EffectChannel := h j (List.mem_cons_self _ _)
    have hd : dispatchJob (scenarioCollaborators fpp frames level vol port) j e = some e := by
      simp only [dispatchJob, hj, scenarioCollaborators]
    simp only [dispatchJobs, hd]
    exact ih e (fun it hit => h it (List.mem_cons_of_mem _ hit))

theorem stage3Jobs_type (n : Nat) : ∀ it ∈ stage3Jobs n, it.type = JobTypes.EffectChannel := by
  intro it hit
  simp only [stage3Jobs, stageJobs, List.mem_map] at hit
  obtain ⟨x, _, rfl⟩ := hit
  rfl

theorem stage3Jobs_length (n : Nat) : (stage3Jobs n).length = n := by
  simp [stage3Jobs, stageJobs, fxChannelJobs]

theorem scenario_period (currentThread elapsed processingSampleRate : Nat)
    (m : mixer ℚ (List (sampleFrame ℚ))) (hS : scenarioSteady m) :
    ∃ m1, renderNextBuffer scenarioS2 currentThread elapsed processingSampleRate m
        = some (m1, (m.m_readBuffer + 1) % 2) ∧
      scenarioSteady m1 ∧
      m1.m_writeBuffer = (m.m_writeBuffer + 1) % 2 ∧
      m1.m_readBuffer = (m.m_readBuffer + 1) % 2 ∧
      m1.m_bufferPool = m.m_bufferPool.set ((m.m_writeBuffer + 1) % 2)
        (List.replicate 256 (1 / 4, 1 / 4)) := by
  obtain ⟨hfpp, hdepth, hlen, hbufs, hr, hw, hph, hrem, hports, hobj, hport, hq⟩ := hS
  have hwlt : (m.m_writeBuffer + 1) % m.m_poolDepth < m.m_bufferPool.length := by
    rw [hdepth, hlen]; omega
  have hrlt : (m.m_readBuffer + 1) % m.m_poolDepth < m.m_bufferPool.length := by
    rw [hdepth, hlen]; omega
  obtain ⟨wb, hwbget⟩ : ∃ wb, m.m_bufferPool[(m.m_writeBuffer + 1) % 2]? = some wb :=
    ⟨_, List.getElem?_eq_getElem (by omega)⟩
  have hwb : wb.length = 256 := hbufs wb (List.getElem?_mem hwbget)
  have hstart : periodStart scenarioS2 m.toEngineState
      = { m.toEngineState with
          m_playHandlesToRemove := []
          fxMixer := List.replicate 256 (0, 0) } := by
    simp only [periodStart, scenarioS2, scenarioCollaborators, drainPlayHandlesToRemove, hrem,
      drainLoop]
  have hjobs1 : stage1Jobs (periodStart scenarioS2 m.toEngineState)
      = [JobQueueItem.new JobTypes.PlayHandle 1 0] := by
    rw [hstart]
    simp [stage1Jobs, stageJobs, hph, hobj, scenarioPlayHandle]
  have hs1 : dispatchJobs scenarioS2 (stage1Jobs (periodStart scenarioS2 m.toEngineState))
      (periodStart scenarioS2 m.toEngineState)
      = some { m.toEngineState with
          m_playHandlesToRemove := []
          fxMixer := List.replicate 256 (0, 0)
          audioPortAt := Function.update m.audioPortAt 1 scenarioMixedPort } := by
    rw [hjobs1, hstart]
    simp only [dispatchJobs, dispatchJob, JobQueueItem.new, scenarioS2, scenarioCollaborators,
      hport, scenario_bufferToPort]
  have hcull : cullDonePlayHandles currentThread
      ({ m.toEngineState with
          m_playHandlesToRemove := []
          fxMixer := List.replicate 256 (0, 0)
          audioPortAt := Function.update m.audioPortAt 1 scenarioMixedPort } :
        EngineState ℚ (List (sampleFrame ℚ)))
      = { m.toEngineState with
          m_playHandlesToRemove := []
          fxMixer := List.replicate 256 (0, 0)
          audioPortAt := Function.update m.audioPortAt 1 scenarioMixedPort } := by
    have hloop : cullLoop currentThread m.playHandleAt [1] = ([1], []) := by
      simp [cullLoop, hobj, scenarioPlayHandle]
    unfold cullDonePlayHandles
    simp only [hph, hloop, List.append_nil]
  have hjobs2 : stage2Jobs ({ m.toEngineState with
          m_playHandlesToRemove := []
          fxMixer := List.replicate 256 (0, 0)
          audioPortAt := Function.update m.audioPortAt 1 scenarioMixedPort } :
        EngineState ℚ (List (sampleFrame ℚ)))
      = [JobQueueItem.new JobTypes.AudioPortEffects 1 0] := by
    show List.map (fun it => JobQueueItem.new JobTypes.AudioPortEffects it 0)
      (List.filter (fun _ => true) m.m_audioPorts) = _
    rw [hports]
    rfl
  have hs2 : dispatchJobs scenarioS2 [JobQueueItem.new JobTypes.AudioPortEffects 1 0]
      ({ m.toEngineState with
          m_playHandlesToRemove := []
          fxMixer := List.replicate 256 (0, 0)
          audioPortAt := Function.update m.audioPortAt 1 scenarioMixedPort } :
        EngineState ℚ (List (sampleFrame ℚ)))
      = some { m.toEngineState with
          m_playHandlesToRemove := []
          fxMixer := List.replicate 256 (1 / 4, 1 / 4)
          audioPortAt := Function.update
            (Function.update m.audioPortAt 1 scenarioMixedPort) 1 (scenarioPort 256) } := by
    have hu : (scenarioMixedPort.m_bufferUsage != bufferUsages.NoUsage) = true := by decide
    simp only [dispatchJobs, dispatchJob, JobQueueItem.new, scenarioS2, scenarioCollaborators,
      Function.update_same, hu, Bool.or_true, if_true, scenario_nextPeriod]
    simp only [scenarioMixedPort, scenario_addBuffers]
  have hs3 := scenario_effectChannels 256 256 (1 / 4, 1 / 4) (1, 1) 1 (stage3Jobs 64)
    ({ m.toEngineState with
          m_playHandlesToRemove := []
          fxMixer := List.replicate 256 (1 / 4, 1 / 4)
          audioPortAt := Function.update
            (Function.update m.audioPortAt 1 scenarioMixedPort) 1 (scenarioPort 256) } :
        EngineState ℚ (List (sampleFrame ℚ)))
    (stage3Jobs_type 64)
  obtain ⟨q, hqlen, hrender⟩ := renderNextBuffer_of_stages scenarioS2 currentThread elapsed
    processingSampleRate m wb _ _ _ hq
    (by rw [hdepth]; exact hwbget) hrlt (by rw [hwb, hfpp])
    (by rw [hjobs1]; decide) hs1
    (by rw [hcull, hjobs2]; decide)
    (by rw [hcull, hjobs2]; exact hs2)
    (by rw [stage3Jobs_length]; decide) hs3
  rw [hdepth] at hrender
  refine ⟨_, hrender, ?_, rfl, rfl, ?_⟩
  · refine ⟨hfpp, hdepth, ?_, ?_, Nat.mod_lt _ (by decide), Nat.mod_lt _ (by decide), hph, rfl,
      hports, hobj, ?_, hqlen⟩
    · show (m.m_bufferPool.set _ _).length = 3
      rw [List.length_set]; exact hlen
    · intro b hb
      rcases List.mem_or_eq_of_mem_set hb with hb | rfl
      · exact hbufs b hb
      · exact List.length_replicate _ _
    · show Function.update (Function.update m.audioPortAt 1 scenarioMixedPort) 1
        (scenarioPort 256) 1 = scenarioPort 256
      rw [Function.update_same]
  · rfl

theorem scenarioMixer_steady : scenarioSteady scenarioMixer := by
  refine ⟨rfl, rfl, rfl, ?_, by decide, by decide, rfl, rfl, rfl, rfl, rfl, ?_⟩
  · intro b hb
    have hb1 : b = List.replicate 256 ((0 : ℚ), (0 : ℚ)) := List.eq_of_mem_replicate hb
    rw [hb1]
    exact List.length_replicate _ _
  · exact List.length_replicate _ _

theorem scenarioS2_periods (currentThread elapsed processingSampleRate : Nat) :
    ∃ m1 r1 m2 r2,
      renderNextBuffer scenarioS2 currentThread elapsed processingSampleRate scenarioMixer
        = some (m1, r1) ∧
      m1.m_bufferPool[r1]? = some (List.replicate 256 (0, 0)) ∧
      m1.m_bufferPool[m1.m_writeBuffer]? = some (List.replicate 256 (1 / 4, 1 / 4)) ∧
      renderNextBuffer scenarioS2 currentThread elapsed processingSampleRate m1
        = some (m2, r2) ∧
      m2.m_bufferPool[r2]? = some (List.replicate 256 (1 / 4, 1 / 4)) := by
  obtain ⟨m1, h1, hS1, hw1, hr1, hp1⟩ := scenario_period currentThread elapsed
    processingSampleRate scenarioMixer scenarioMixer_steady
  obtain ⟨m2, h2, _, _, _, hp2⟩ := scenario_period currentThread elapsed
    processingSampleRate m1 hS1
  have hw1v : m1.m_writeBuffer = 0 := hw1
  have hr1v : m1.m_readBuffer = 1 := hr1
  have hpool : scenarioMixer.m_bufferPool
      = [List.replicate 256 (0, 0), List.replicate 256 (0, 0), List.replicate 256 (0, 0)] := rfl
  refine ⟨m1, _, m2, _, h1, ?_, ?_, h2, ?_⟩
  · rw [hp1, hpool]
    rfl
  · rw [hp1, hpool, hw1v]
    rfl
  · rw [hp2, hp1, hpool, hw1v, hr1v]
    rfl

/-- C2, as stated, fails: in scenario S2 the first call of `renderNextBuffer`
after construction returns a buffer of 256 frames of 0/0, not of 0.25/0.25. -/
theorem scenarioS2_first_buffer_not_mixed :
    ∃ m r, renderNextBuffer scenarioS2 0 1000 44100 scenarioMixer = some (m, r) ∧
      m.m_bufferPool[r]? = some (List.replicate 256 ((0 : ℚ), (0 : ℚ))) ∧
      m.m_bufferPool[r]? ≠ some (List.replicate 256 ((1 : ℚ) / 4, (1 : ℚ) / 4)) := by
  obtain ⟨m1, r1, _, _, h1, hz, _⟩ := scenarioS2_periods 0 1000 44100
  refine ⟨m1, r1, h1, hz, ?_⟩
  rw [hz]
  intro hq
  have h0 := (List.replicate_right_inj (by decide : (256 : Nat) ≠ 0)).1 (Option.some.inj hq)
  have h2 : (0 : ℚ) = 1 / 4 := congrArg Prod.fst h0
  norm_num at h2

/-- C2, amended: in scenario S2, on whatever thread and with whatever elapsed
time and sample rate, the buffer returned by the first call of
`renderNextBuffer` is the untouched read buffer, 256 frames of 0/0; the 256
frames of 0.25/0.25 are in the write buffer after that period, and they are
what the second call returns. -/
theorem scenarioS2_one_period_latency (currentThread elapsed processingSampleRate : Nat) :
    ∃ m1 r1 m2 r2,
      renderNextBuffer scenarioS2 currentThread elapsed processingSampleRate scenarioMixer
        = some (m1, r1) ∧
      m1.m_bufferPool[r1]? = some (List.replicate 256 (0, 0)) ∧
      m1.m_bufferPool[m1.m_writeBuffer]? = some (List.replicate 256 (1 / 4, 1 / 4)) ∧
      renderNextBuffer scenarioS2 currentThread elapsed processingSampleRate m1
        = some (m2, r2) ∧
      m2.m_bufferPool[r2]? = some (List.replicate 256 (1 / 4, 1 / 4)) :=
  scenarioS2_periods currentThread elapsed processingSampleRate

/-! ### The job-queue bound -/

theorem FILL_JOB_QUEUE_overflow (_vec : List Nat) (_job_type : JobTypes)
    (_condition : Nat → Bool) (q : JobQueue) (hlen : q.items.length = JOB_QUEUE_SIZE)
    (h : JOB_QUEUE_SIZE < (_vec.filter _condition).length) :
    FILL_JOB_QUEUE _vec _job_type _condition q = none :=
  fillJobQueueLoop_overflow _ _ _ _ (Nat.zero_le _)
    (by show q.items.length < 0 + (_vec.filter _condition).length; omega)

/-- C5 (defect): with 1025 play handles that are not done, `FILL_JOB_QUEUE`
runs past the 1024 entries of `items`: the 1025th descriptor is written
outside the array, which the embedding reports as `none`. -/
theorem FILL_JOB_QUEUE_overflow_1025 :
    FILL_JOB_QUEUE (List.range 1025) JobTypes.PlayHandle (fun _ => true) JobQueue.new = none :=
  FILL_JOB_QUEUE_overflow _ _ _ _ (List.length_replicate _ _)
    (by rw [List.filter_true, List.length_range]; decide)

/-! ### Play-handle lifecycle -/

theorem clearLoop_eq (playHandleAt : Nat → playHandle) :
    ∀ (l queue : List Nat),
      clearLoop playHandleAt l queue
        = queue ++ l.filter
            (fun it => decide ((playHandleAt it).type ≠ playHandleTypes.InstrumentPlayHandle)) := by
  intro l
  induction l with
  | nil => intro queue; simp [clearLoop]
  | cons it rest ih =>
    intro queue
    by_cases h : (playHandleAt it).type ≠ playHandleTypes.InstrumentPlayHandle
    · simp only [clearLoop, if_pos h, ih, List.filter_cons, decide_eq_true h, if_true,
        List.append_assoc, List.singleton_append]
    · simp only [clearLoop, if_neg h, ih, List.filter_cons, decide_eq_false h]
      rfl

theorem drainLoop_eq {α Fx : Type} :
    ∀ (queue : List Nat) (e : EngineState α Fx),
      (drainLoop queue e).m_playHandles = queue.foldl List.erase e.m_playHandles ∧
      (drainLoop queue e).m_playHandlesToRemove = [] ∧
      (drainLoop queue e).playHandleAt = e.playHandleAt ∧
      (drainLoop queue e).m_audioPorts = e.m_audioPorts := by
  intro queue
  induction queue with
  | nil => intro e; exact ⟨rfl, rfl, rfl, rfl⟩
  | cons r rest ih =>
    intro e
    by_cases h : r ∈ e.m_playHandles
    · simp only [drainLoop, if_pos h, List.foldl_cons]
      exact ih _
    · simp only [drainLoop, if_neg h, List.foldl_cons, List.erase_of_not_mem h]
      exact ih _

theorem count_foldl_erase (a : Nat) :
    ∀ (queue l : List Nat), (queue.foldl List.erase l).count a = l.count a - queue.count a := by
  intro queue
  induction queue with
  | nil => intro l; simp
  | cons r rest ih =>
    intro l
    rw [List.foldl_cons, ih, List.count_erase, List.count_cons]
    by_cases h : r = a
    · subst h; simp; omega
    · have h1 : (r == a) = false := by simpa using h
      simp [h1]

theorem foldl_erase_nodup :
    ∀ (queue l : List Nat), l.Nodup →
      queue.foldl List.erase l = l.filter (fun h => decide (h ∉ queue)) := by
  intro queue
  induction queue with
  | nil => intro l _; simp
  | cons r rest ih =>
    intro l hl
    rw [List.foldl_cons, ih _ (hl.erase r), hl.erase_eq_filter r, List.filter_filter]
    apply List.filter_congr
    intro x _
    by_cases hx : x = r
    · subst hx; simp
    · simp [hx]

/-- C8, as stated, fails: in the state of scenario S5 (an instrument handle
and a note handle), right after `clear()` the note handle is still in
`m_playHandles`. -/
theorem clear_keeps_note_handle :
    ∃ h ∈ (clear scenarioS5).m_playHandles,
      (scenarioS5.playHandleAt h).type ≠ playHandleTypes.InstrumentPlayHandle :=
  ⟨2, by decide, by decide⟩

theorem metronomeInjection_eq {α Fx : Type} (click : Option (Nat × playHandle))
    (e : EngineState α Fx) :
    (metronomeInjection click e).m_playHandles = e.m_playHandles ++ metronomeHandles click ∧
    (metronomeInjection click e).m_playHandlesToRemove = e.m_playHandlesToRemove := by
  cases click with
  | none => exact ⟨(List.append_nil _).symm, rfl⟩
  | some c => exact ⟨rfl, rfl⟩

theorem drain_after_metronome {α Fx : Type} (click : Option (Nat × playHandle))
    (e : EngineState α Fx) :
    (drainPlayHandlesToRemove (metronomeInjection click e)).m_playHandles
      = e.m_playHandlesToRemove.foldl List.erase (e.m_playHandles ++ metronomeHandles click) ∧
    (drainPlayHandlesToRemove (metronomeInjection click e)).m_playHandlesToRemove = [] := by
  obtain ⟨hl, hq⟩ := metronomeInjection_eq click e
  obtain ⟨hdrain, hempty, _, _⟩ :=
    drainLoop_eq (metronomeInjection click e).m_playHandlesToRemove (metronomeInjection click e)
  refine ⟨?_, hempty⟩
  show (drainLoop (metronomeInjection click e).m_playHandlesToRemove
    (metronomeInjection click e)).m_playHandles = _
  rw [hdrain, hl, hq]

theorem clear_queue {α Fx : Type} (e : EngineState α Fx) :
    (clear e).m_playHandlesToRemove
      = e.m_playHandlesToRemove ++ e.m_playHandles.filter
          (fun it => decide ((e.playHandleAt it).type ≠ playHandleTypes.InstrumentPlayHandle)) :=
  clearLoop_eq _ _ _

/-- C8, amended: for every state, `clear()` leaves `m_playHandles` unchanged and
has every handle whose type is not `InstrumentPlayHandle` in
`m_playHandlesToRemove`; after the metronome injection and the
deferred-deletion drain of the next `renderNextBuffer`, `m_playHandles`
contains no handle whose type differs from `InstrumentPlayHandle`, other than
the metronome click that this `renderNextBuffer` may have added just before
the drain. -/
theorem clear_then_drain_leaves_instruments {α Fx : Type} (e : EngineState α Fx)
    (click : Option (Nat × playHandle)) :
    (clear e).m_playHandles = e.m_playHandles ∧
    (∀ h ∈ e.m_playHandles,
      (e.playHandleAt h).type ≠ playHandleTypes.InstrumentPlayHandle →
      h ∈ (clear e).m_playHandlesToRemove) ∧
    (∀ h ∈ (drainPlayHandlesToRemove (metronomeInjection click (clear e))).m_playHandles,
      (e.playHandleAt h).type = playHandleTypes.InstrumentPlayHandle ∨
      h ∈ metronomeHandles click) := by
  refine ⟨rfl, ?_, ?_⟩
  · intro h hmem hty
    rw [clear_queue]
    exact List.mem_append_right _ (List.mem_filter.2 ⟨hmem, decide_eq_true hty⟩)
  · intro h hmem
    by_contra hcon
    rw [not_or] at hcon
    obtain ⟨hty, hclick⟩ := hcon
    rw [(drain_after_metronome click (clear e)).1] at hmem
    have hmem1 : h ∈ (clear e).m_playHandlesToRemove.foldl List.erase
        (e.m_playHandles ++ metronomeHandles click) := hmem
    have hcount := count_foldl_erase h (clear e).m_playHandlesToRemove
      (e.m_playHandles ++ metronomeHandles click)
    have hcf : List.count h (e.m_playHandles.filter
        (fun it => decide ((e.playHandleAt it).type ≠ playHandleTypes.InstrumentPlayHandle)))
        = List.count h e.m_playHandles :=
      List.count_filter (decide_eq_true hty)
    have hc0 : List.count h (metronomeHandles click) = 0 := List.count_eq_zero.2 hclick
    rw [clear_queue, List.count_append, List.count_append, hcf, hc0] at hcount
    have hpos : 0 < ((clear e).m_playHandlesToRemove.foldl List.erase
        (e.m_playHandles ++ metronomeHandles click)).count h :=
      List.count_pos_iff.2 hmem1
    rw [clear_queue] at hpos
    omega

/-- Counterexample for C9: in scenario S5 the metronome of the next period adds
its click at address 99 before the drain; after the drain `m_playHandles` is
`[1, 99]`, not the original list restricted to the instrument handles, which is
`[1]`. -/
theorem clear_then_metronome_adds_click :
    scenarioS5.m_playHandles.Nodup ∧ scenarioS5.m_playHandlesToRemove = [] ∧
    (drainPlayHandlesToRemove
      (metronomeInjection (some scenarioClick) (clear scenarioS5))).m_playHandles = [1, 99] ∧
    scenarioS5.m_playHandles.filter
      (fun h => decide ((scenarioS5.playHandleAt h).type
        = playHandleTypes.InstrumentPlayHandle)) = [1] ∧
    (drainPlayHandlesToRemove
      (metronomeInjection (some scenarioClick) (clear scenarioS5))).m_playHandles
      ≠ scenarioS5.m_playHandles.filter
          (fun h => decide ((scenarioS5.playHandleAt h).type
            = playHandleTypes.InstrumentPlayHandle)) := by
  decide

/-- C9, amended: `clear()` preserves instrument handles. For a list of play
handles without duplicates and an empty removal queue, `clear()` leaves
`m_playHandles` unchanged and queues exactly the handles whose type is not
`InstrumentPlayHandle`; after the metronome injection and the deferred-deletion
drain of the next period `m_playHandles` is the original list restricted to the
instrument handles, in the original order, followed by the metronome click if
that period added one, and the removal queue is empty. The click is a new
object, at the address of no registered handle. -/
theorem clear_preserves_instruments {α Fx : Type} (e : EngineState α Fx)
    (click : Option (Nat × playHandle))
    (hnodup : e.m_playHandles.Nodup) (hq : e.m_playHandlesToRemove = [])
    (hfresh : ∀ h ∈ metronomeHandles click, h ∉ e.m_playHandles) :
    (clear e).m_playHandles = e.m_playHandles ∧
    (clear e).m_playHandlesToRemove
      = e.m_playHandles.filter
          (fun h => decide ((e.playHandleAt h).type ≠ playHandleTypes.InstrumentPlayHandle)) ∧
    (drainPlayHandlesToRemove (metronomeInjection click (clear e))).m_playHandles
      = e.m_playHandles.filter
          (fun h => decide ((e.playHandleAt h).type = playHandleTypes.InstrumentPlayHandle))
        ++ metronomeHandles click ∧
    (drainPlayHandlesToRemove (metronomeInjection click (clear e))).m_playHandlesToRemove
      = [] := by
  have hqueue : (clear e).m_playHandlesToRemove
      = e.m_playHandles.filter
          (fun h => decide ((e.playHandleAt h).type ≠ playHandleTypes.InstrumentPlayHandle)) := by
    rw [clear_queue, hq, List.nil_append]
  obtain ⟨hdrain, hempty⟩ := drain_after_metronome click (clear e)
  have hcnodup : (metronomeHandles click).Nodup := by
    cases click with
    | none => exact List.nodup_nil
    | some c => exact List.nodup_singleton _
  have hall : (e.m_playHandles ++ metronomeHandles click).Nodup :=
    List.Nodup.append hnodup hcnodup (fun x hx hc => hfresh x hc hx)
  refine ⟨rfl, hqueue, ?_, hempty⟩
  rw [hdrain]
  show (clear e).m_playHandlesToRemove.foldl List.erase
    (e.m_playHandles ++ metronomeHandles click) = _
  rw [foldl_erase_nodup _ _ hall, hqueue, List.filter_append]
  congr 1
  · apply List.filter_congr
    intro x hx
    by_cases hty : (e.playHandleAt x).type = playHandleTypes.InstrumentPlayHandle
    · simp [hty]
    · simp [hty, hx]
  · apply List.filter_eq_self.2
    intro x hx
    have : x ∉ e.m_playHandles := hfresh x hx
    simp [this]

/-- Witness for C9, scenario S5: one instrument handle and one note handle,
and a metronome click at address 99 in the next period; the instrument handle
remains, the note handle is gone, the click follows. -/
theorem clear_preserves_instruments_witness :
    (drainPlayHandlesToRemove
      (metronomeInjection (some scenarioClick) (clear scenarioS5))).m_playHandles = [1, 99] ∧
    (drainPlayHandlesToRemove (metronomeInjection none (clear scenarioS5))).m_playHandles
      = [1] ∧
    (clear scenarioS5).m_playHandles = scenarioS5.m_playHandles ∧
    (clear scenarioS5).m_playHandlesToRemove
      = scenarioS5.m_playHandles.filter
          (fun h => decide ((scenarioS5.playHandleAt h).type
            ≠ playHandleTypes.InstrumentPlayHandle)) ∧
    (drainPlayHandlesToRemove
      (metronomeInjection (some scenarioClick) (clear scenarioS5))).m_playHandles
      = scenarioS5.m_playHandles.filter
          (fun h => decide ((scenarioS5.playHandleAt h).type
            = playHandleTypes.InstrumentPlayHandle))
        ++ metronomeHandles (some scenarioClick) ∧
    (drainPlayHandlesToRemove
      (metronomeInjection (some scenarioClick) (clear scenarioS5))).m_playHandlesToRemove
      = [] :=
  ⟨by decide, by decide,
    clear_preserves_instruments scenarioS5 (some scenarioClick) (by decide) rfl (by decide)⟩

theorem removePlayHandlesLoop_eq (playHandleAt : Nat → playHandle) (_track : Nat) :
    ∀ l : List Nat,
      removePlayHandlesLoop playHandleAt _track l
        = (l.filter (fun h => !(playHandleAt h).isFromTrack _track),
           l.filter (fun h => (playHandleAt h).isFromTrack _track)) := by
  intro l
  induction l with
  | nil => rfl
  | cons it rest ih =>
    by_cases h : (playHandleAt it).isFromTrack _track = true
    · simp [removePlayHandlesLoop, ih, h]
    · have h1 : (playHandleAt it).isFromTrack _track = false := by simpa using h
      simp [removePlayHandlesLoop, ih, h1]

/-- C10: after `removePlayHandles( t )` the remaining handles are exactly the
handles that are not from track `t`, in their original order, so no remaining
handle satisfies `isFromTrack( t )`; the handles from `t` are the ones
deleted. -/
theorem removePlayHandles_keeps_other_tracks {α Fx : Type} (_track : Nat)
    (e : EngineState α Fx) :
    (removePlayHandles _track e).m_playHandles
      = e.m_playHandles.filter (fun h => !(e.playHandleAt h).isFromTrack _track) ∧
    (∀ h ∈ (removePlayHandles _track e).m_playHandles,
      ((removePlayHandles _track e).playHandleAt h).isFromTrack _track = false) ∧
    (removePlayHandles _track e).deleted
      = e.deleted ++ e.m_playHandles.filter (fun h => (e.playHandleAt h).isFromTrack _track) := by
  have hloop := removePlayHandlesLoop_eq e.playHandleAt _track e.m_playHandles
  have h1 : (removePlayHandles _track e).m_playHandles
      = e.m_playHandles.filter (fun h => !(e.playHandleAt h).isFromTrack _track) := by
    show (removePlayHandlesLoop e.playHandleAt _track e.m_playHandles).1 = _
    rw [hloop]
  refine ⟨h1, ?_, ?_⟩
  · intro h hmem
    rw [h1] at hmem
    have := (List.mem_filter.1 hmem).2
    show (e.playHandleAt h).isFromTrack _track = false
    simpa using this
  · show e.deleted ++ (removePlayHandlesLoop e.playHandleAt _track e.m_playHandles).2 = _
    rw [hloop]

/-! ### The buffer pool -/

theorem pushInputFrames_fields {α Fx : Type} (fresh : Nat → sampleFrame α)
    (_ab : List (sampleFrame α)) (_frames : Nat) (m m1 : mixer α Fx)
    (h : pushInputFrames fresh _ab _frames m = some m1) :
    m1.toEngineState = m.toEngineState ∧ m1.m_poolDepth = m.m_poolDepth ∧
    m1.m_readBuffer = m.m_readBuffer ∧ m1.m_writeBuffer = m.m_writeBuffer ∧
    m1.m_bufferPool = m.m_bufferPool ∧ m1.m_framesPerPeriod = m.m_framesPerPeriod ∧
    m1.m_cpuLoad = m.m_cpuLoad := by
  unfold pushInputFrames at h
  simp only at h
  split at h
  · exact absurd h (by simp)
  · rename_i m2 buf1 hgrown
    split at h
    · exact absurd h (by simp)
    · simp only [Option.some.injEq] at h
      subst h
      split at hgrown
      · split at hgrown
        · exact absurd hgrown (by simp)
        · simp only [Option.some.injEq, Prod.mk.injEq] at hgrown
          obtain ⟨hm2, _⟩ := hgrown
          subst hm2
          exact ⟨rfl, rfl, rfl, rfl, rfl, rfl, rfl⟩
      · simp only [Option.some.injEq, Prod.mk.injEq] at hgrown
        obtain ⟨hm2, _⟩ := hgrown
        subst hm2
        exact ⟨rfl, rfl, rfl, rfl, rfl, rfl, rfl⟩

theorem runEvents_indices {α Fx : Type} [Zero α] :
    ∀ (evs : List (mixerEvent α Fx)) (m m1 : mixer α Fx) (rs : List Nat),
      runEvents evs m = some (m1, rs) →
      m.m_poolDepth = 2 → m.m_readBuffer < 2 → m.m_writeBuffer < 2 →
      m.m_readBuffer ≠ m.m_writeBuffer →
      m1.m_poolDepth = 2 ∧ m1.m_readBuffer < 2 ∧ m1.m_writeBuffer < 2 ∧
      m1.m_readBuffer ≠ m1.m_writeBuffer ∧
      ∀ k, k < rs.length → rs[k]? = some ((m.m_readBuffer + 1 + k) % 2) := by
  intro evs
  induction evs with
  | nil =>
    intro m m1 rs h hd hr hw hne
    simp only [runEvents, Option.some.injEq, Prod.mk.injEq] at h
    obtain ⟨rfl, rfl⟩ := h
    exact ⟨hd, hr, hw, hne, fun k hk => absurd hk (Nat.not_lt_zero _)⟩
  | cons ev rest ih =>
    intro m m1 rs h hd hr hw hne
    cases ev with
    | period env t el sr =>
      simp only [runEvents] at h
      split at h
      · exact absurd h (by simp)
      · rename_i m2 r hrender
        split at h
        · exact absurd h (by simp)
        · rename_i m3 rs1 hrest
          simp only [Option.some.injEq, Prod.mk.injEq] at h
          obtain ⟨rfl, rfl⟩ := h
          obtain ⟨hr0, hr2, hw2, hd2, _⟩ := renderNextBuffer_fields env t el sr m m2 r hrender
          rw [hd] at hr0 hr2 hw2
          obtain ⟨a1, a2, a3, a4, a5⟩ := ih m2 m3 rs1 hrest (by rw [hd2, hd])
            (by rw [hr2]; omega) (by rw [hw2]; omega) (by rw [hr2, hw2]; omega)
          refine ⟨a1, a2, a3, a4, ?_⟩
          intro k hk
          cases k with
          | zero => simp [hr0]
          | succ k =>
            have := a5 k (by simpa using hk)
            rw [List.getElem?_cons_succ, this, hr2]
            congr 1
            omega
    | call f =>
      simp only [runEvents] at h
      exact ih { m with toEngineState := f m.toEngineState } m1 rs h hd hr hw hne
    | pushInput fresh ab n =>
      simp only [runEvents] at h
      split at h
      · exact absurd h (by simp)
      · rename_i m2 hpush
        obtain ⟨_, b1, b2, b3, _⟩ := pushInputFrames_fields fresh ab n m m2 hpush
        obtain ⟨a1, a2, a3, a4, a5⟩ := ih m2 m1 rs h (by rw [b1, hd]) (by rw [b2]; exact hr)
          (by rw [b3]; exact hw) (by rw [b2, b3]; exact hne)
        rw [b2] at a5
        exact ⟨a1, a2, a3, a4, a5⟩

theorem runEvents_period {α Fx : Type} [Zero α] (env : Collaborators α Fx)
    (t el sr : Nat) (rest : List (mixerEvent α Fx)) (m m1 m2 : mixer α Fx) (r : Nat)
    (rs : List Nat) (h : renderNextBuffer env t el sr m = some (m1, r))
    (h2 : runEvents rest m1 = some (m2, rs)) :
    runEvents (mixerEvent.period env t el sr :: rest) m = some (m2, r :: rs) := by
  simp only [runEvents, h, h2]

theorem runEvents_call {α Fx : Type} [Zero α]
    (f : EngineState α Fx → EngineState α Fx) (rest : List (mixerEvent α Fx))
    (m : mixer α Fx) :
    runEvents (mixerEvent.call f :: rest) m
      = runEvents rest { m with toEngineState := f m.toEngineState } := by
  simp only [runEvents]

theorem scenario_events :
    ∃ m, runEvents scenarioEvents
        (mixer.new scenarioFppCast false 0 1 (fun _ => scenarioPlayHandle) (fun _ => scenarioPort 256)
          (List.replicate 256 (0, 0)))
      = some (m, [1, 0]) := by
  obtain ⟨m1, h1, hS1, _, hr1, _⟩ := scenario_period 0 1000 44100 scenarioMixer
    scenarioMixer_steady
  obtain ⟨m2, h2, _⟩ := scenario_period 0 1000 44100 m1 hS1
  have hr1v : m1.m_readBuffer = 1 := hr1
  have hr0 : (scenarioMixer.m_readBuffer + 1) % 2 = 1 := rfl
  have hr2 : (1 + 1) % 2 = 0 := rfl
  rw [hr1v, hr2] at h2
  rw [hr0] at h1
  have e1 := runEvents_period scenarioS2 0 1000 44100 [] m1 m2 m2 0 [] h2 rfl
  have e0 := runEvents_period scenarioS2 0 1000 44100 _ scenarioMixer m1 m2 1 [0] h1 e1
  exact ⟨m2, (runEvents_call scenarioSetup _ scenarioNewMixer).trans e0⟩

/-- C6: from construction on, whatever else happens to the mixer between the
periods, the pool index returned by `renderNextBuffer` in period `p` (for
`p` from 2 on) differs from the one returned in period `p - 1`. -/
theorem returned_pool_buffers_differ {α Fx : Type} [Zero α]
    (fpp_t : Int → Nat) (hasGUI : Bool) (framesperaudiobuffer idealThreadCount : Int)
    (playHandleAt : Nat → playHandle) (audioPortAt : Nat → AudioPort α) (fxMixer : Fx)
    (evs : List (mixerEvent α Fx)) (m : mixer α Fx) (rs : List Nat)
    (h : runEvents evs
      (mixer.new fpp_t hasGUI framesperaudiobuffer idealThreadCount playHandleAt audioPortAt fxMixer)
      = some (m, rs))
    (p : Nat) (hp2 : 2 ≤ p) (hp : p ≤ rs.length) :
    ∃ a b, rs[p - 2]? = some a ∧ rs[p - 1]? = some b ∧ a ≠ b := by
  obtain ⟨_, _, _, _, hidx⟩ := runEvents_indices evs _ m rs h rfl
    (by show (0 : Nat) < 2; decide) (by show (1 : Nat) < 2; decide)
    (by show (0 : Nat) ≠ 1; decide)
  refine ⟨_, _, hidx (p - 2) (by omega), hidx (p - 1) (by omega), ?_⟩
  have : p - 1 = p - 2 + 1 := by omega
  rw [this]
  omega

/-- Witness for C6: the two periods of scenario S2 return the pool buffers 1
and 0. -/
theorem returned_pool_buffers_differ_witness :
    ∃ m rs, runEvents scenarioEvents
        (mixer.new scenarioFppCast false 0 1 (fun _ => scenarioPlayHandle) (fun _ => scenarioPort 256)
          (List.replicate 256 (0, 0))) = some (m, rs) ∧
      2 ≤ 2 ∧ 2 ≤ rs.length ∧
      ∃ a b, rs[2 - 2]? = some a ∧ rs[2 - 1]? = some b ∧ a ≠ b := by
  obtain ⟨m, hm⟩ := scenario_events
  exact ⟨m, [1, 0], hm, by decide, by decide,
    returned_pool_buffers_differ scenarioFppCast false 0 1 _ _ _ scenarioEvents m [1, 0] hm 2
      (by decide) (by decide)⟩

/-- C7: pool index invariant. After construction and after any number of
`renderNextBuffer` calls, with whatever else happens to the mixer in between,
`m_readBuffer` and `m_writeBuffer` differ and both are below `m_poolDepth`:
the buffer being master-mixed is never the buffer handed to the consumer. -/
theorem pool_indices_distinct {α Fx : Type} [Zero α]
    (fpp_t : Int → Nat) (hasGUI : Bool) (framesperaudiobuffer idealThreadCount : Int)
    (playHandleAt : Nat → playHandle) (audioPortAt : Nat → AudioPort α) (fxMixer : Fx)
    (evs : List (mixerEvent α Fx)) (m : mixer α Fx) (rs : List Nat)
    (h : runEvents evs
      (mixer.new fpp_t hasGUI framesperaudiobuffer idealThreadCount playHandleAt audioPortAt fxMixer)
      = some (m, rs)) :
    m.m_readBuffer ≠ m.m_writeBuffer ∧ m.m_readBuffer < m.m_poolDepth ∧
    m.m_writeBuffer < m.m_poolDepth := by
  obtain ⟨hd, hr, hw, hne, _⟩ := runEvents_indices evs _ m rs h rfl
    (by show (0 : Nat) < 2; decide) (by show (1 : Nat) < 2; decide)
    (by show (0 : Nat) ≠ 1; decide)
  rw [hd]
  exact ⟨hne, hr, hw⟩

/-- Witness for C7: the mixer of scenario S2 after its two periods. -/
theorem pool_indices_distinct_witness :
    ∃ m rs, runEvents scenarioEvents
        (mixer.new scenarioFppCast false 0 1 (fun _ => scenarioPlayHandle) (fun _ => scenarioPort 256)
          (List.replicate 256 (0, 0))) = some (m, rs) ∧
      m.m_readBuffer ≠ m.m_writeBuffer ∧ m.m_readBuffer < m.m_poolDepth ∧
      m.m_writeBuffer < m.m_poolDepth := by
  obtain ⟨m, hm⟩ := scenario_events
  exact ⟨m, [1, 0], hm,
    pool_indices_distinct scenarioFppCast false 0 1 _ _ _ scenarioEvents m [1, 0] hm⟩

/-! ### Several workers on one job queue -/

theorem countP_set_of_getElem {β : Type} (p : β → Bool) (l : List β) (w : Nat) (x y : β)
    (h : l[w]? = some x) :
    (l.set w y).countP p + (if p x then 1 else 0) = l.countP p + (if p y then 1 else 0) := by
  obtain ⟨hw, hx⟩ := List.getElem?_eq_some_iff.1 h
  have h1 := List.countP_set p l w y hw
  have h2 := List.boole_getElem_le_countP p l w hw
  rw [hx] at h1 h2
  omega

theorem doneFlag_set (q : JobQueue) (i : Nat) (x : JobQueueItem) (hi : i < q.items.length)
    (j : Nat) :
    doneFlag { q with items := q.items.set i x } j
      = if j = i then decide (x.done ≠ 0) else doneFlag q j := by
  unfold doneFlag
  simp only [List.getElem?_set]
  by_cases hj : j = i
  · subst hj
    simp [hi]
  · have : ¬ (i = j) := fun h => hj h.symm
    simp [hj, this]

theorem doneCount_set (q : JobQueue) (i : Nat) (it x : JobQueueItem)
    (hi : i < q.queueSize) (hget : q.items[i]? = some it) (hx : x.done ≠ 0) :
    doneCount { q with items := q.items.set i x } + (if it.done ≠ 0 then 1 else 0)
      = doneCount q + 1 := by
  unfold doneCount
  simp only [List.set_take]
  have hget1 : (q.items.take q.queueSize)[i]? = some it := by
    rw [List.getElem?_take_of_lt hi]; exact hget
  have := countP_set_of_getElem (fun it => decide (it.done ≠ 0)) (q.items.take q.queueSize) i it x
    hget1
  simp only [decide_eq_true_eq] at this
  rw [if_pos hx] at this
  exact this

theorem claimedCount_set (ws : List Worker) (w : Nat) (wk wk1 : Worker) (i : Nat)
    (hw : ws[w]? = some wk) :
    claimedCount (ws.set w wk1) i + (if wk.pc = WorkerPc.claimed i then 1 else 0)
      = claimedCount ws i + (if wk1.pc = WorkerPc.claimed i then 1 else 0) := by
  have := countP_set_of_getElem (fun (x : Worker) => decide (x.pc = WorkerPc.claimed i)) ws w wk wk1 hw
  simpa only [claimedCount, decide_eq_true_eq] using this

theorem inFlight_set (ws : List Worker) (w : Nat) (wk wk1 : Worker)
    (hw : ws[w]? = some wk) :
    inFlight (ws.set w wk1) + (if isInFlight wk.pc then 1 else 0)
      = inFlight ws + (if isInFlight wk1.pc then 1 else 0) :=
  countP_set_of_getElem (fun (x : Worker) => isInFlight x.pc) ws w wk wk1 hw

theorem workerOk_set (q : JobQueue) (ws : List Worker) (w : Nat) (wk1 : Worker)
    (hall : ∀ x ∈ ws, workerOk q x) (hnew : workerOk q wk1) :
    ∀ x ∈ ws.set w wk1, workerOk q x := by
  intro x hx
  rcases List.mem_or_eq_of_mem_set hx with h | rfl
  · exact hall x h
  · exact hnew

theorem workerOk_mono (q q1 : JobQueue) (hsz : q1.queueSize = q.queueSize)
    (hmono : ∀ j, doneFlag q j = true → doneFlag q1 j = true) (wk : Worker)
    (h : workerOk q wk) : workerOk q1 wk := by
  unfold workerOk at h ⊢
  cases hpc : wk.pc with
  | waiting =>
    rw [hpc] at h
    simp only at h ⊢
    intro hw j hj
    exact hmono j (h hw j (by rw [← hsz]; exact hj))
  | loopHead i =>
    rw [hpc] at h
    simp only at h ⊢
    exact ⟨by rw [hsz]; exact h.1, fun j hj => hmono j (h.2 j hj)⟩
  | claimed i =>
    rw [hpc] at h
    simp only at h ⊢
    exact ⟨by rw [hsz]; exact h.1, fun j hj => hmono j (h.2 j hj)⟩
  | dispatched i =>
    rw [hpc] at h
    simp only at h ⊢
    exact ⟨by rw [hsz]; exact h.1, fun j hj => hmono j (h.2 j hj)⟩

theorem workerStep_invariant (n : Nat) (s : PoolState) (w : Nat) (h : poolInvariant n s) :
    poolInvariant n (workerStep s w) := by
  obtain ⟨hn, hlen, hE1, hlog, hE2, hwk⟩ := h
  cases hw : s.workers[w]? with
  | none =>
    have : workerStep s w = s := by simp only [workerStep, hw]
    rw [this]
    exact ⟨hn, hlen, hE1, hlog, hE2, hwk⟩
  | some wk =>
    have hok : workerOk s.queue wk := hwk wk (List.getElem?_mem hw)
    unfold workerOk at hok
    cases hpc : wk.pc with
    | waiting =>
      have hstep : workerStep s w
          = { s with workers := s.workers.set w { wk with pc := WorkerPc.loopHead 0 } } := by
        simp only [workerStep, hw, hpc]
      rw [hstep]
      refine ⟨hn, hlen, ?_, hlog, ?_, ?_⟩
      · intro i hi
        have := claimedCount_set s.workers w wk { wk with pc := WorkerPc.loopHead 0 } i hw
        rw [hpc] at this
        simp only [reduceCtorEq, if_false, Nat.add_zero] at this
        show _ + claimedCount (s.workers.set w _) i = _
        rw [this]
        exact hE1 i hi
      · have := inFlight_set s.workers w wk { wk with pc := WorkerPc.loopHead 0 } hw
        rw [hpc] at this
        simp only [isInFlight, Bool.false_eq_true, if_false, Nat.add_zero] at this
        show _ + inFlight (s.workers.set w _) = _
        rw [this]
        exact hE2
      · apply workerOk_set _ _ _ _ hwk
        show (0 : Nat) ≤ s.queue.queueSize ∧ ∀ j, j < 0 → doneFlag s.queue j = true
        exact ⟨Nat.zero_le _, fun j hj => absurd hj (Nat.not_lt_zero _)⟩
    | loopHead i =>
      rw [hpc] at hok
      simp only at hok
      by_cases hi : i < s.queue.queueSize
      · have hilen : i < s.queue.items.length := by omega
        have hget : s.queue.items[i]? = some (s.queue.items[i]) := List.getElem?_eq_getElem hilen
        generalize s.queue.items[i] = it at hget
        have hflag : ∀ j, doneFlag { s.queue with items := s.queue.items.set i { it with done := 1 } } j
            = if j = i then true else doneFlag s.queue j := by
          intro j
          rw [doneFlag_set s.queue i _ hilen j]
          rfl
        have hmono : ∀ j, doneFlag s.queue j = true →
            doneFlag { s.queue with items := s.queue.items.set i { it with done := 1 } } j = true := by
          intro j hj
          rw [hflag j]
          split
          · rfl
          · exact hj
        have hcount := doneCount_set s.queue i it { it with done := 1 } hi hget (Nat.succ_ne_zero 0)
        have hflagi : doneFlag s.queue i = decide (it.done ≠ 0) := by
          simp only [doneFlag, hget]
        have hothers : ∀ x ∈ s.workers,
            workerOk { s.queue with items := s.queue.items.set i { it with done := 1 } } x :=
          fun x hx => workerOk_mono s.queue
            { s.queue with items := s.queue.items.set i { it with done := 1 } } rfl hmono x
            (hwk x hx)
        by_cases hd : it.done = 0
        · have hstep : workerStep s w
              = { s with
                  queue := { s.queue with items := s.queue.items.set i { it with done := 1 } }
                  workers := s.workers.set w { wk with pc := WorkerPc.claimed i } } := by
            simp only [workerStep, hw, hpc, if_pos hi, hget, if_pos hd]
          rw [hstep]
          refine ⟨hn, by simpa using hlen, ?_, hlog, ?_, ?_⟩
          · intro k hk
            have hc := claimedCount_set s.workers w wk { wk with pc := WorkerPc.claimed i } k hw
            rw [hpc] at hc
            simp only [reduceCtorEq, if_false, Nat.add_zero, WorkerPc.claimed.injEq] at hc
            show _ + claimedCount (s.workers.set w _) k = _
            rw [hc, hflag k]
            have hold := hE1 k hk
            by_cases hki : k = i
            · subst hki
              rw [hflagi] at hold
              simp only [hd, ne_eq, not_true_eq_false, decide_False, Bool.false_eq_true,
                if_false] at hold
              simp only [if_true]
              omega
            · have hik : ¬ (i = k) := fun h => hki h.symm
              simp only [hki, hik, if_false, Nat.add_zero]
              exact hold
          · have hf := inFlight_set s.workers w wk { wk with pc := WorkerPc.claimed i } hw
            rw [hpc] at hf
            simp only [isInFlight, Bool.false_eq_true, if_false, Nat.add_zero, if_true] at hf
            show s.queue.itemsDone + inFlight (s.workers.set w { wk with pc := WorkerPc.claimed i })
              = doneCount { s.queue with items := s.queue.items.set i { it with done := 1 } }
            simp only [hd, ne_eq, not_true_eq_false, if_false, Nat.add_zero] at hcount
            rw [hf, hcount]
            omega
          · apply workerOk_set _ _ _ _ hothers
            refine ⟨hi, fun j hj => ?_⟩
            rw [hflag j]
            split
            · rfl
            · exact hok.2 j (by omega)
        · have hstep : workerStep s w
              = { s with
                  queue := { s.queue with items := s.queue.items.set i { it with done := 1 } }
                  workers := s.workers.set w { wk with pc := WorkerPc.loopHead (i + 1) } } := by
            simp only [workerStep, hw, hpc, if_pos hi, hget, if_neg hd]
          rw [hstep]
          have hflag1 : ∀ j,
              doneFlag { s.queue with items := s.queue.items.set i { it with done := 1 } } j
                = doneFlag s.queue j := by
            intro j
            rw [hflag j]
            split
            · rename_i hji
              rw [hji, hflagi]
              simp [hd]
            · rfl
          refine ⟨hn, by simpa using hlen, ?_, hlog, ?_, ?_⟩
          · intro k hk
            have hc := claimedCount_set s.workers w wk { wk with pc := WorkerPc.loopHead (i + 1) }
              k hw
            rw [hpc] at hc
            simp only [reduceCtorEq, if_false, Nat.add_zero] at hc
            show _ + claimedCount (s.workers.set w _) k = _
            rw [hc, hflag1 k]
            exact hE1 k hk
          · have hf := inFlight_set s.workers w wk { wk with pc := WorkerPc.loopHead (i + 1) } hw
            rw [hpc] at hf
            simp only [isInFlight, Bool.false_eq_true, if_false, Nat.add_zero] at hf
            show s.queue.itemsDone
                + inFlight (s.workers.set w { wk with pc := WorkerPc.loopHead (i + 1) })
              = doneCount { s.queue with items := s.queue.items.set i { it with done := 1 } }
            simp only [hd, ne_eq, not_false_eq_true, if_true] at hcount
            rw [hf]
            exact hE2.trans (Nat.add_right_cancel hcount).symm
          · apply workerOk_set _ _ _ _ hothers
            refine ⟨hi, fun j hj => ?_⟩
            rw [hflag j]
            split
            · rfl
            · exact hok.2 j (by omega)
      · have hstep : workerStep s w
            = { s with
                workers := s.workers.set w { pc := WorkerPc.waiting, walks := wk.walks + 1 } } := by
          simp only [workerStep, hw, hpc, if_neg hi]
        rw [hstep]
        refine ⟨hn, hlen, ?_, hlog, ?_, ?_⟩
        · intro k hk
          have hc := claimedCount_set s.workers w wk
            { pc := WorkerPc.waiting, walks := wk.walks + 1 } k hw
          rw [hpc] at hc
          simp only [reduceCtorEq, if_false, Nat.add_zero] at hc
          show _ + claimedCount (s.workers.set w _) k = _
          rw [hc]
          exact hE1 k hk
        · have hf := inFlight_set s.workers w wk
            { pc := WorkerPc.waiting, walks := wk.walks + 1 } hw
          rw [hpc] at hf
          simp only [isInFlight, Bool.false_eq_true, if_false, Nat.add_zero] at hf
          show _ + inFlight (s.workers.set w _) = _
          rw [hf]
          exact hE2
        · apply workerOk_set _ _ _ _ hwk
          intro _ j hj
          exact hok.2 j (by omega)
    | claimed i =>
      rw [hpc] at hok
      simp only at hok
      have hstep : workerStep s w
          = { s with
              dispatchLog := s.dispatchLog ++ [i]
              workers := s.workers.set w { wk with pc := WorkerPc.dispatched i } } := by
        simp only [workerStep, hw, hpc]
      rw [hstep]
      refine ⟨hn, hlen, ?_, ?_, ?_, ?_⟩
      · intro k hk
        have hc := claimedCount_set s.workers w wk { wk with pc := WorkerPc.dispatched i } k hw
        rw [hpc] at hc
        simp only [reduceCtorEq, if_false, Nat.add_zero, WorkerPc.claimed.injEq] at hc
        show List.count k (s.dispatchLog ++ [i]) + claimedCount (s.workers.set w _) k = _
        rw [List.count_append, List.count_cons, List.count_nil]
        have hold := hE1 k hk
        by_cases hki : i = k
        · subst hki
          simp only [if_true] at hc
          simp only [beq_self_eq_true, if_true]
          omega
        · have hb : (i == k) = false := by simpa using hki
          simp only [hki, if_false, Nat.add_zero] at hc
          simp only [hb, Bool.false_eq_true, if_false, Nat.add_zero, Nat.zero_add]
          omega
      · intro x hx
        rcases List.mem_append.1 hx with hx | hx
        · exact hlog x hx
        · rw [List.mem_singleton.1 hx, ← hn]
          exact hok.1
      · have hf := inFlight_set s.workers w wk { wk with pc := WorkerPc.dispatched i } hw
        rw [hpc] at hf
        simp only [isInFlight, if_true] at hf
        show s.queue.itemsDone + inFlight (s.workers.set w { wk with pc := WorkerPc.dispatched i })
          = doneCount s.queue
        omega
      · apply workerOk_set _ _ _ _ hwk
        exact hok
    | dispatched i =>
      rw [hpc] at hok
      simp only at hok
      have hstep : workerStep s w
          = { s with
              queue := { s.queue with itemsDone := s.queue.itemsDone + 1 }
              workers := s.workers.set w { wk with pc := WorkerPc.loopHead (i + 1) } } := by
        simp only [workerStep, hw, hpc]
      rw [hstep]
      refine ⟨hn, hlen, ?_, hlog, ?_, ?_⟩
      · intro k hk
        have hc := claimedCount_set s.workers w wk { wk with pc := WorkerPc.loopHead (i + 1) }
          k hw
        rw [hpc] at hc
        simp only [reduceCtorEq, if_false, Nat.add_zero] at hc
        show _ + claimedCount (s.workers.set w _) k = if doneFlag s.queue k then 1 else 0
        rw [hc]
        exact hE1 k hk
      · have hf := inFlight_set s.workers w wk { wk with pc := WorkerPc.loopHead (i + 1) } hw
        rw [hpc] at hf
        simp only [isInFlight, Bool.false_eq_true, if_false, Nat.add_zero, if_true] at hf
        show s.queue.itemsDone + 1 + inFlight (s.workers.set w _) = doneCount s.queue
        omega
      · apply workerOk_set _ _ _ _
          (fun x hx => workerOk_mono s.queue _ rfl (fun _ hj => hj) x (hwk x hx))
        exact ⟨hok.1, fun j hj => hok.2 j (by omega)⟩

theorem workerStep_length (s : PoolState) (w : Nat) :
    (workerStep s w).workers.length = s.workers.length := by
  unfold workerStep
  split
  · rfl
  · split
    · simp
    · split
      · split
        · rfl
        · split <;> simp
      · simp
    · simp
    · simp

theorem runSchedule_invariant (n : Nat) :
    ∀ (schedule : List Nat) (s : PoolState), poolInvariant n s →
      poolInvariant n (runSchedule s schedule) ∧
      (runSchedule s schedule).workers.length = s.workers.length := by
  intro schedule
  induction schedule with
  | nil => intro s h; exact ⟨h, rfl⟩
  | cons w rest ih =>
    intro s h
    have := ih (workerStep s w) (workerStep_invariant n s w h)
    rw [workerStep_length] at this
    exact this

theorem startStage_invariant (q : JobQueue) (numThreads : Nat)
    (hlen : q.queueSize ≤ q.items.length)
    (hdone : ∀ i it, i < q.queueSize → q.items[i]? = some it → it.done = 0)
    (hzero : q.itemsDone = 0) :
    poolInvariant q.queueSize (startStage q numThreads) := by
  have hclaimed : ∀ i, claimedCount (startStage q numThreads).workers i = 0 := by
    intro i
    unfold claimedCount
    rw [List.countP_eq_zero]
    intro wk hwk
    have : wk = { pc := WorkerPc.waiting, walks := 0 } := List.eq_of_mem_replicate hwk
    rw [this]
    simp
  have hflight : inFlight (startStage q numThreads).workers = 0 := by
    unfold inFlight
    rw [List.countP_eq_zero]
    intro wk hwk
    have : wk = { pc := WorkerPc.waiting, walks := 0 } := List.eq_of_mem_replicate hwk
    rw [this]
    simp [isInFlight]
  have hcount : doneCount q = 0 := by
    unfold doneCount
    rw [List.countP_eq_zero]
    intro it hit
    obtain ⟨i, hi⟩ := List.getElem?_of_mem hit
    rw [List.getElem?_take] at hi
    split at hi
    · rename_i hlt
      simp [hdone i it hlt hi]
    · exact absurd hi (by simp)
  refine ⟨rfl, hlen, ?_, ?_, ?_, ?_⟩
  · intro i hi
    rw [hclaimed i]
    obtain ⟨it, hit⟩ : ∃ it, q.items[i]? = some it :=
      ⟨_, List.getElem?_eq_getElem (by omega)⟩
    have : doneFlag (startStage q numThreads).queue i = false := by
      show doneFlag q i = false
      simp [doneFlag, hit, hdone i it hi hit]
    rw [this]
    rfl
  · intro i hi
    exact absurd hi (List.not_mem_nil _)
  · rw [hflight]
    show q.itemsDone + 0 = doneCount q
    rw [hzero, hcount]
  · intro wk hwk
    have : wk = { pc := WorkerPc.waiting, walks := 0 } := List.eq_of_mem_replicate hwk
    rw [this]
    intro h
    exact absurd h (by decide)

/-- C4: exactly-once dispatch. For a queue filled with at most 1024
descriptors whose `done` flags are 0 and with `itemsDone` 0, any number of
threads and any interleaving of their atomic steps: no descriptor is ever
dispatched more than once, only descriptors of the queue are dispatched,
`itemsDone` never exceeds `queueSize`, and once every thread (of at least
one) has finished a walk of the queue, every descriptor has been dispatched
exactly once and `itemsDone` equals `queueSize`. -/
theorem exactly_once_dispatch (q : JobQueue) (numThreads : Nat) (schedule : List Nat)
    (hsize : q.queueSize ≤ JOB_QUEUE_SIZE) (hlen : q.items.length = JOB_QUEUE_SIZE)
    (hdone : ∀ i it, i < q.queueSize → q.items[i]? = some it → it.done = 0)
    (hzero : q.itemsDone = 0) :
    (∀ i, (runSchedule (startStage q numThreads) schedule).dispatchLog.count i ≤ 1) ∧
    (∀ i ∈ (runSchedule (startStage q numThreads) schedule).dispatchLog, i < q.queueSize) ∧
    (runSchedule (startStage q numThreads) schedule).queue.itemsDone ≤ q.queueSize ∧
    (1 ≤ numThreads → allWalksFinished (runSchedule (startStage q numThreads) schedule) →
      (∀ i, i < q.queueSize →
        (runSchedule (startStage q numThreads) schedule).dispatchLog.count i = 1) ∧
      (runSchedule (startStage q numThreads) schedule).queue.itemsDone
        = (runSchedule (startStage q numThreads) schedule).queue.queueSize) := by
  obtain ⟨⟨hn, hle, hE1, hlog, hE2, hwk⟩, hwlen⟩ :=
    runSchedule_invariant q.queueSize schedule (startStage q numThreads)
      (startStage_invariant q numThreads (by rw [hlen]; exact hsize) hdone hzero)
  generalize runSchedule (startStage q numThreads) schedule = s at hn hle hE1 hlog hE2 hwk hwlen
  have hdc : doneCount s.queue ≤ q.queueSize := by
    unfold doneCount
    refine Nat.le_trans (List.countP_le_length _) ?_
    rw [List.length_take, hn]
    exact Nat.min_le_left _ _
  refine ⟨?_, hlog, by omega, ?_⟩
  · intro i
    by_cases hi : i < q.queueSize
    · have := hE1 i hi
      split at this <;> omega
    · have : i ∉ s.dispatchLog := fun hmem => hi (hlog i hmem)
      rw [List.count_eq_zero.2 this]
      exact Nat.zero_le _
  · intro hthreads hfin
    have hlenw : 0 < s.workers.length := by
      rw [hwlen]
      show 0 < (List.replicate numThreads _).length
      rw [List.length_replicate]
      exact hthreads
    obtain ⟨wk0, hwk0⟩ : ∃ wk, wk ∈ s.workers := ⟨s.workers[0], List.getElem_mem _⟩
    have hall : ∀ j, j < s.queue.queueSize → doneFlag s.queue j = true := by
      have hok := hwk wk0 hwk0
      obtain ⟨hpc, hwalks⟩ := hfin wk0 hwk0
      unfold workerOk at hok
      rw [hpc] at hok
      exact hok hwalks
    have hclaimed : ∀ i, claimedCount s.workers i = 0 := by
      intro i
      unfold claimedCount
      rw [List.countP_eq_zero]
      intro wk hmem
      rw [(hfin wk hmem).1]
      simp
    have hflight : inFlight s.workers = 0 := by
      unfold inFlight
      rw [List.countP_eq_zero]
      intro wk hmem
      rw [(hfin wk hmem).1]
      simp [isInFlight]
    have hfull : doneCount s.queue = s.queue.queueSize := by
      unfold doneCount
      have hl : (s.queue.items.take s.queue.queueSize).length = s.queue.queueSize := by
        rw [List.length_take]
        omega
      have h1 : List.countP (fun it => decide (it.done ≠ 0))
          (s.queue.items.take s.queue.queueSize)
          = (s.queue.items.take s.queue.queueSize).length := by
        rw [List.countP_eq_length]
        intro it hit
        obtain ⟨i, hi⟩ := List.getElem?_of_mem hit
        rw [List.getElem?_take] at hi
        split at hi
        · rename_i hlt
          have := hall i hlt
          simpa [doneFlag, hi] using this
        · exact absurd hi (by simp)
      rw [h1, hl]
    refine ⟨?_, by omega⟩
    intro i hi
    have := hE1 i hi
    rw [hclaimed i, hall i (by rw [hn]; exact hi)] at this
    simpa using this

theorem scenarioQueue_done :
    ∀ i it, i < scenarioQueue.queueSize → scenarioQueue.items[i]? = some it → it.done = 0 := by
  intro i it hi hget
  have hjobs : it ∈ stageJobs (fun it => JobQueueItem.new JobTypes.PlayHandle it 0)
      (fun _ => true) [10, 11, 12] := by
    have : (stageJobs (fun it => JobQueueItem.new JobTypes.PlayHandle it 0)
        (fun _ => true) [10, 11, 12] ++ JobQueue.new.items.drop
          (stageJobs (fun it => JobQueueItem.new JobTypes.PlayHandle it 0)
            (fun _ => true) [10, 11, 12]).length)[i]? = some it := hget
    rw [List.getElem?_append_left hi] at this
    exact List.getElem?_mem this
  exact stageJobs_done _ (fun _ => rfl) _ _ it hjobs

set_option maxRecDepth 100000 in
/-- Witness for C4: two threads on a queue of three jobs, in an interleaving
in which the second thread loses every exchange; both finish their walk, each
job has been dispatched once and `itemsDone` is 3. -/
theorem exactly_once_dispatch_witness :
    scenarioQueue.queueSize ≤ JOB_QUEUE_SIZE ∧ scenarioQueue.items.length = JOB_QUEUE_SIZE ∧
    scenarioQueue.itemsDone = 0 ∧ 1 ≤ 2 ∧
    allWalksFinished (runSchedule (startStage scenarioQueue 2) scenarioSchedule) ∧
    (∀ i, i < scenarioQueue.queueSize →
      (runSchedule (startStage scenarioQueue 2) scenarioSchedule).dispatchLog.count i = 1) ∧
    (runSchedule (startStage scenarioQueue 2) scenarioSchedule).queue.itemsDone
      = (runSchedule (startStage scenarioQueue 2) scenarioSchedule).queue.queueSize :=
  have hlen : scenarioQueue.items.length = JOB_QUEUE_SIZE :=
    (filledQueue_length _ JobQueue.new
      (by rw [show JobQueue.new.items.length = 1024 from List.length_replicate _ _]; decide)).trans
      (List.length_replicate _ _)
  have hfin : allWalksFinished (runSchedule (startStage scenarioQueue 2) scenarioSchedule) := by
    decide
  ⟨by decide, hlen, rfl, by decide, hfin,
    ((exactly_once_dispatch scenarioQueue 2 scenarioSchedule (by decide) hlen
      scenarioQueue_done rfl).2.2.2 (by decide) hfin)⟩

/-! ### The input ring is well formed in every reachable state -/

theorem memcpy_length {α : Type} (dst : List (sampleFrame α)) (off : Nat)
    (src : List (sampleFrame α)) (n : Nat) (r : List (sampleFrame α))
    (h : memcpy dst off src n = some r) : r.length = dst.length := by
  unfold memcpy at h
  split at h
  · rename_i hc
    simp only [Option.some.injEq] at h
    subst h
    simp only [List.length_append, List.length_take, List.length_drop]
    omega
  · exact absurd h (by simp)

theorem pushInputFrames_wellFormed {α Fx : Type} (fresh : Nat → sampleFrame α)
    (_ab : List (sampleFrame α)) (_frames : Nat) (m m1 : mixer α Fx)
    (h : pushInputFrames fresh _ab _frames m = some m1) (hwf : inputRingWellFormed m) :
    inputRingWellFormed m1 := by
  obtain ⟨hr, hw, hne, hsz⟩ := hwf
  unfold pushInputFrames at h
  simp only at h
  split at h
  · exact absurd h (by simp)
  · rename_i m2 buf1 hgrown
    split at h
    · exact absurd h (by simp)
    · rename_i buf2 hcopy
      simp only [Option.some.injEq] at h
      subst h
      have hlen2 := memcpy_length _ _ _ _ _ hcopy
      split at hgrown
      · split at hgrown
        · exact absurd hgrown (by simp)
        · rename_i ab hab
          simp only [Option.some.injEq, Prod.mk.injEq] at hgrown
          obtain ⟨hm2, hb⟩ := hgrown
          subst hm2
          subst hb
          have hlen1 := memcpy_length _ _ _ _ _ hab
          refine ⟨hr, hw, hne, ?_⟩
          intro i hi
          by_cases hiw : i = m.m_inputBufferWrite
          · subst hiw
            simp only [Function.update_same]
            rw [hlen2, hlen1]
            simp [newSampleFrames]
          · simp only [Function.update_noteq hiw]
            exact hsz i hi
      · simp only [Option.some.injEq, Prod.mk.injEq] at hgrown
        obtain ⟨hm2, hb⟩ := hgrown
        subst hm2
        subst hb
        refine ⟨hr, hw, hne, ?_⟩
        intro i hi
        by_cases hiw : i = m.m_inputBufferWrite
        · subst hiw
          simp only [Function.update_same]
          rw [hlen2]
          exact hsz _ hi
        · simp only [Function.update_noteq hiw]
          exact hsz i hi

theorem renderNextBuffer_wellFormed {α Fx : Type} [Zero α] (env : Collaborators α Fx)
    (t el sr : Nat) (m m1 : mixer α Fx) (r : Nat)
    (h : renderNextBuffer env t el sr m = some (m1, r)) (hwf : inputRingWellFormed m) :
    inputRingWellFormed m1 := by
  obtain ⟨hr, hw, hne, hsz⟩ := hwf
  obtain ⟨_, _, _, _, _, _, _, _, _, h1, h2, h3, _, h5, _⟩ :=
    renderNextBuffer_fields env t el sr m m1 r h
  have h1v : m1.m_inputBufferRead = (m.m_inputBufferRead + 1) % 2 := h1
  have h2v : m1.m_inputBufferWrite = (m.m_inputBufferWrite + 1) % 2 := h2
  have h3v : m1.m_inputBuffer = m.m_inputBuffer := h3
  have h5v : m1.m_inputBufferSize = m.m_inputBufferSize := h5
  refine ⟨by omega, by omega, by omega, ?_⟩
  intro i hi
  rw [h3v, h5v]
  exact hsz i hi

theorem runEvents_wellFormed {α Fx : Type} [Zero α] :
    ∀ (evs : List (mixerEvent α Fx)) (m m1 : mixer α Fx) (rs : List Nat),
      runEvents evs m = some (m1, rs) → inputRingWellFormed m → inputRingWellFormed m1 := by
  intro evs
  induction evs with
  | nil =>
    intro m m1 rs h hwf
    simp only [runEvents, Option.some.injEq, Prod.mk.injEq] at h
    obtain ⟨rfl, _⟩ := h
    exact hwf
  | cons ev rest ih =>
    intro m m1 rs h hwf
    cases ev with
    | period env t el sr =>
      simp only [runEvents] at h
      split at h
      · exact absurd h (by simp)
      · rename_i m2 r hrender
        split at h
        · exact absurd h (by simp)
        · rename_i m3 rs1 hrest
          simp only [Option.some.injEq, Prod.mk.injEq] at h
          obtain ⟨rfl, _⟩ := h
          exact ih m2 m3 rs1 hrest (renderNextBuffer_wellFormed env t el sr m m2 r hrender hwf)
    | call f =>
      simp only [runEvents] at h
      exact ih { m with toEngineState := f m.toEngineState } m1 rs h hwf
    | pushInput fresh ab n =>
      simp only [runEvents] at h
      split at h
      · exact absurd h (by simp)
      · rename_i m2 hpush
        exact ih m2 m1 rs h (pushInputFrames_wellFormed fresh ab n m m2 hpush hwf)

theorem inputRingWellFormed_reachable {α Fx : Type} [Zero α]
    (fpp_t : Int → Nat) (hasGUI : Bool) (framesperaudiobuffer idealThreadCount : Int)
    (playHandleAt : Nat → playHandle) (audioPortAt : Nat → AudioPort α) (fxMixer : Fx)
    (evs : List (mixerEvent α Fx)) (m : mixer α Fx) (rs : List Nat)
    (h : runEvents evs
      (mixer.new fpp_t hasGUI framesperaudiobuffer idealThreadCount playHandleAt audioPortAt fxMixer)
      = some (m, rs)) :
    inputRingWellFormed m :=
  runEvents_wellFormed evs _ m rs h
    ⟨by show (0 : Nat) < 2; decide, by show (1 : Nat) < 2; decide,
      by show (0 : Nat) ≠ 1; decide, fun _ _ => (List.length_replicate _ _).symm⟩

/-! ### The usage flag of `bufferToPort` -/

theorem mixLoop_succeeds {α : Type} [Add α] [Mul α] (_vv : stereoVolumeVector α)
    (_buf : List (sampleFrame α)) (srcOff dstOff n : Nat) (obuf : List (sampleFrame α))
    (h : n = 0 ∨ (srcOff + n ≤ _buf.length ∧ dstOff + n ≤ obuf.length)) :
    ∃ ob, mixLoop _vv _buf srcOff dstOff n 0 obuf = some ob := by
  rcases h with h0 | ⟨hs, hd⟩
  · subst h0
    exact ⟨obuf, rfl⟩
  · obtain ⟨ob, hob, _⟩ := mixLoop_spec _vv _buf srcOff dstOff n 0 obuf (by omega) (by omega)
    exact ⟨ob, hob⟩

/-- C20: the `m_bufferUsage` transition of `bufferToPort`. For a source of at
least `_frames` frames and a port whose two buffers hold one period each, the
call succeeds and afterwards the flag is `BothBuffers` when
`end = _offset mod fpp + _frames` exceeds the period; otherwise it is
`FirstBuffer` when it was `NoUsage` and unchanged when it was `FirstBuffer` or
`BothBuffers`. Hence the flag is never `NoUsage` afterwards and `BothBuffers`
is never lowered. -/
theorem bufferToPort_usage_transition {α : Type} [Add α] [Mul α] (fpp : Nat)
    (src : List (sampleFrame α)) (_frames _offset : Nat)
    (vv : stereoVolumeVector α) (port : AudioPort α)
    (hsrc : _frames ≤ src.length)
    (hfirst : port.m_firstBuffer.length = fpp)
    (hsecond : port.m_secondBuffer.length = fpp) :
    ∃ p, bufferToPort fpp src _frames _offset vv port = some p ∧
      p.m_bufferUsage =
        (if _offset % fpp + _frames > fpp then bufferUsages.BothBuffers
         else if port.m_bufferUsage = bufferUsages.NoUsage then bufferUsages.FirstBuffer
         else port.m_bufferUsage) ∧
      p.m_bufferUsage ≠ bufferUsages.NoUsage ∧
      (port.m_bufferUsage = bufferUsages.BothBuffers →
        p.m_bufferUsage = bufferUsages.BothBuffers) := by
  have hstart : fpp = 0 ∨ _offset % fpp < fpp := by
    rcases Nat.eq_zero_or_pos fpp with h0 | hpos
    · exact Or.inl h0
    · exact Or.inr (Nat.mod_lt _ hpos)
  simp only [bufferToPort]
  generalize _offset % fpp = start at hstart ⊢
  obtain ⟨f1, hf1⟩ := mixLoop_succeeds vv src 0 start (min (start + _frames) fpp - start)
    port.m_firstBuffer (by
      rcases hstart with h0 | hlt
      · left; subst h0; simp
      · right; omega)
  have hflag : ∀ u : bufferUsages,
      u = (if start + _frames > fpp then bufferUsages.BothBuffers
         else if port.m_bufferUsage = bufferUsages.NoUsage then bufferUsages.FirstBuffer
         else port.m_bufferUsage) →
      u ≠ bufferUsages.NoUsage ∧
      (port.m_bufferUsage = bufferUsages.BothBuffers → u = bufferUsages.BothBuffers) := by
    intro u hu
    subst hu
    split
    · exact ⟨by decide, fun _ => rfl⟩
    · split
      · rename_i hno
        exact ⟨by decide, fun hb => by rw [hb] at hno; exact absurd hno (by decide)⟩
      · rename_i hno
        exact ⟨hno, fun hb => hb⟩
  by_cases hspill : start + _frames > fpp
  · obtain ⟨f2, hf2⟩ := mixLoop_succeeds vv src (fpp - start) 0
      (min (start + _frames - fpp) fpp) port.m_secondBuffer (by
        rcases hstart with h0 | hlt
        · left; subst h0; simp
        · right; omega)
    have hu : bufferUsages.BothBuffers =
        (if start + _frames > fpp then bufferUsages.BothBuffers
         else if port.m_bufferUsage = bufferUsages.NoUsage then bufferUsages.FirstBuffer
         else port.m_bufferUsage) := by rw [if_pos hspill]
    refine ⟨{ port with m_firstBuffer := f1, m_secondBuffer := f2,
                        m_bufferUsage := bufferUsages.BothBuffers }, ?_, hu, hflag _ hu⟩
    simp only [hf1, hf2, if_pos hspill]
  · by_cases hno : port.m_bufferUsage = bufferUsages.NoUsage
    · have hu : bufferUsages.FirstBuffer =
          (if start + _frames > fpp then bufferUsages.BothBuffers
           else if port.m_bufferUsage = bufferUsages.NoUsage then bufferUsages.FirstBuffer
           else port.m_bufferUsage) := by rw [if_neg hspill, if_pos hno]
      refine ⟨{ port with m_firstBuffer := f1, m_bufferUsage := bufferUsages.FirstBuffer },
        ?_, hu, hflag _ hu⟩
      simp only [hf1, if_neg hspill, if_pos hno]
    · have hu : port.m_bufferUsage =
          (if start + _frames > fpp then bufferUsages.BothBuffers
           else if port.m_bufferUsage = bufferUsages.NoUsage then bufferUsages.FirstBuffer
           else port.m_bufferUsage) := by rw [if_neg hspill, if_neg hno]
      refine ⟨{ port with m_firstBuffer := f1 }, ?_, hu, hflag _ hu⟩
      simp only [hf1, if_neg hspill, if_neg hno]

/-- Witness for C20, scenario S3: offset 200 and 128 frames at a period of 256
take the flag from `NoUsage` to `BothBuffers`. -/
theorem bufferToPort_usage_transition_witness :
    ∃ p, bufferToPort 256 (List.replicate 128 ((1 : ℚ) / 4, (1 : ℚ) / 4)) 128 200 (1, 1)
        (scenarioPort 256) = some p ∧
      p.m_bufferUsage =
        (if 200 % 256 + 128 > 256 then bufferUsages.BothBuffers
         else if (scenarioPort 256).m_bufferUsage = bufferUsages.NoUsage
           then bufferUsages.FirstBuffer
         else (scenarioPort 256).m_bufferUsage) ∧
      p.m_bufferUsage ≠ bufferUsages.NoUsage ∧
      ((scenarioPort 256).m_bufferUsage = bufferUsages.BothBuffers →
        p.m_bufferUsage = bufferUsages.BothBuffers) :=
  bufferToPort_usage_transition 256 (List.replicate 128 ((1 : ℚ) / 4, (1 : ℚ) / 4)) 128 200
    (1, 1) (scenarioPort 256) (by rw [List.length_replicate]) (List.length_replicate _ _)
    (List.length_replicate _ _)

/-! ### The CPU load (lines 306, 670-673) -/

theorem tLimit_range (x : Int) : 0 ≤ tLimit x 0 100 ∧ tLimit x 0 100 ≤ 100 := by
  unfold tLimit
  split_ifs <;> omega

theorem updateCpuLoad_range (elapsed processingSampleRate m_framesPerPeriod : Nat)
    (m_cpuLoad : Int) :
    0 ≤ updateCpuLoad elapsed processingSampleRate m_framesPerPeriod m_cpuLoad ∧
    updateCpuLoad elapsed processingSampleRate m_framesPerPeriod m_cpuLoad ≤ 100 :=
  tLimit_range _

theorem runEvents_cpuLoad {α Fx : Type} [Zero α] :
    ∀ (evs : List (mixerEvent α Fx)) (m m1 : mixer α Fx) (rs : List Nat),
      runEvents evs m = some (m1, rs) →
      0 ≤ m.m_cpuLoad ∧ m.m_cpuLoad ≤ 100 →
      0 ≤ m1.m_cpuLoad ∧ m1.m_cpuLoad ≤ 100 := by
  intro evs
  induction evs with
  | nil =>
    intro m m1 rs h hm
    simp only [runEvents, Option.some.injEq, Prod.mk.injEq] at h
    obtain ⟨rfl, rfl⟩ := h
    exact hm
  | cons ev rest ih =>
    intro m m1 rs h hm
    cases ev with
    | period env t el sr =>
      simp only [runEvents] at h
      split at h
      · exact absurd h (by simp)
      · rename_i m2 r hrender
        split at h
        · exact absurd h (by simp)
        · rename_i m3 rs1 hrest
          simp only [Option.some.injEq, Prod.mk.injEq] at h
          obtain ⟨rfl, rfl⟩ := h
          obtain ⟨_, _, _, _, _, _, _, _, _, _, _, _, _, _, hload⟩ :=
            renderNextBuffer_fields env t el sr m m2 r hrender
          exact ih m2 m3 rs1 hrest (by rw [hload]; exact updateCpuLoad_range _ _ _ _)
    | call f =>
      simp only [runEvents] at h
      exact ih { m with toEngineState := f m.toEngineState } m1 rs h hm
    | pushInput fresh ab n =>
      simp only [runEvents] at h
      split at h
      · exact absurd h (by simp)
      · rename_i m2 hpush
        obtain ⟨_, _, _, _, _, _, hload⟩ := pushInputFrames_fields fresh ab n m m2 hpush
        exact ih m2 m1 rs h (by rw [hload]; exact hm)

/-- C17: `m_cpuLoad` is 0 after construction; every `renderNextBuffer` call
that returns, from any state and for every elapsed time, processing sample rate
and period size, leaves it in `[0, 100]`; and so it lies in `[0, 100]` in every
state reached from the constructed mixer by periods, calls of the other
operations and input pushes. -/
theorem cpuLoad_range {α Fx : Type} [Zero α] (fpp_t : Int → Nat) (hasGUI : Bool)
    (framesperaudiobuffer idealThreadCount : Int) (playHandleAt : Nat → playHandle)
    (audioPortAt : Nat → AudioPort α) (fxMixer : Fx)
    (evs : List (mixerEvent α Fx)) (m : mixer α Fx) (rs : List Nat)
    (h : runEvents evs (mixer.new fpp_t hasGUI framesperaudiobuffer idealThreadCount playHandleAt
      audioPortAt fxMixer) = some (m, rs)) :
    (mixer.new fpp_t hasGUI framesperaudiobuffer idealThreadCount playHandleAt audioPortAt
      fxMixer).m_cpuLoad = 0 ∧
    (0 ≤ m.m_cpuLoad ∧ m.m_cpuLoad ≤ 100) ∧
    ∀ (env : Collaborators α Fx) (currentThread elapsed processingSampleRate : Nat)
      (m0 m1 : mixer α Fx) (r : Nat),
      renderNextBuffer env currentThread elapsed processingSampleRate m0 = some (m1, r) →
      0 ≤ m1.m_cpuLoad ∧ m1.m_cpuLoad ≤ 100 := by
  refine ⟨rfl, runEvents_cpuLoad evs _ m rs h ⟨le_refl _, by show (0 : Int) ≤ 100; decide⟩, ?_⟩
  intro env t el sr m0 m1 r hrender
  obtain ⟨_, _, _, _, _, _, _, _, _, _, _, _, _, _, hload⟩ :=
    renderNextBuffer_fields env t el sr m0 m1 r hrender
  rw [hload]
  exact updateCpuLoad_range _ _ _ _

/-- Witness for C17: the two periods of scenario S2, run from the constructed
mixer, end with a CPU load in `[0, 100]`. -/
theorem cpuLoad_range_witness :
    ∃ m, runEvents scenarioEvents
        (mixer.new scenarioFppCast false 0 1 (fun _ => scenarioPlayHandle) (fun _ => scenarioPort 256)
          (List.replicate 256 (0, 0))) = some (m, [1, 0]) ∧
      0 ≤ m.m_cpuLoad ∧ m.m_cpuLoad ≤ 100 := by
  obtain ⟨m, hm⟩ := scenario_events
  exact ⟨m, hm, (cpuLoad_range scenarioFppCast false 0 1 _ _ _ scenarioEvents m [1, 0] hm).2.1⟩

/-! ### The period size chosen by the constructor (lines 329-359) -/

theorem framesPerPeriod_eq {α Fx : Type} [Zero α] (fpp_t : Int → Nat) (hasGUI : Bool)
    (framesperaudiobuffer idealThreadCount : Int) (playHandleAt : Nat → playHandle)
    (audioPortAt : Nat → AudioPort α) (fxMixer : Fx) :
    (mixer.new fpp_t hasGUI framesperaudiobuffer idealThreadCount playHandleAt audioPortAt
      fxMixer).m_framesPerPeriod =
      (if (!hasGUI) = true then DEFAULT_BUFFER_SIZE
       else if framesperaudiobuffer ≥ 32 then
         (if fpp_t framesperaudiobuffer > DEFAULT_BUFFER_SIZE then DEFAULT_BUFFER_SIZE
          else fpp_t framesperaudiobuffer)
       else DEFAULT_BUFFER_SIZE) :=
  rfl

/-- The conversion `(fpp_t)` is applied after the test `>= 32`: with the
narrowing to 16 bits, a GUI and the configured value 65536 the constructor
stores 0 frames per period, and with 65584 it stores 48. -/
theorem framesPerPeriod_narrowed :
    (mixer.new scenarioFppCast true 65536 1 (fun _ => scenarioPlayHandle)
      (fun _ => scenarioPort 256) (List.replicate 256 ((0 : ℚ), (0 : ℚ)))).m_framesPerPeriod
      = 0 ∧
    (mixer.new scenarioFppCast true 65584 1 (fun _ => scenarioPlayHandle)
      (fun _ => scenarioPort 256) (List.replicate 256 ((0 : ℚ), (0 : ℚ)))).m_framesPerPeriod
      = 48 := by
  rw [framesPerPeriod_eq, framesPerPeriod_eq]
  decide

/-- Counterexample for C18: with a GUI and the configured value 48, which the
conversion `(fpp_t)` keeps, the constructor stores 48 frames per period, which
is not a power of two. -/
theorem framesPerPeriod_48_not_power_of_two :
    scenarioFppCast 48 = 48 ∧
    (mixer.new scenarioFppCast true 48 1 (fun _ => scenarioPlayHandle)
      (fun _ => scenarioPort 256)
      (List.replicate 256 ((0 : ℚ), (0 : ℚ)))).m_framesPerPeriod = 48 ∧
    ¬ ∃ k : Nat, (mixer.new scenarioFppCast true 48 1 (fun _ => scenarioPlayHandle)
      (fun _ => scenarioPort 256)
      (List.replicate 256 ((0 : ℚ), (0 : ℚ)))).m_framesPerPeriod = 2 ^ k := by
  have h48 : (mixer.new scenarioFppCast true 48 1 (fun _ => scenarioPlayHandle)
      (fun _ => scenarioPort 256)
      (List.replicate 256 ((0 : ℚ), (0 : ℚ)))).m_framesPerPeriod = 48 := by
    rw [framesPerPeriod_eq]
    decide
  refine ⟨by decide, h48, ?_⟩
  rw [h48]
  rintro ⟨k, hk⟩
  have hk6 : k < 6 := by
    by_contra hge
    have := Nat.pow_le_pow_right (by decide : 0 < 2) (not_lt.mp hge)
    omega
  interval_cases k <;> omega

/-- C18, amended: for every configured value that the conversion `(fpp_t)`
keeps, and in both modes, the period size after construction is at least 32
and at most 256. It is the configured value when there is a GUI and that value
lies in `[32, 256]`, and the default 256 otherwise; so it is a power of two
whenever the configured value is one. The conversion is applied only with a
GUI and a configured value of at least 32. -/
theorem framesPerPeriod_after_construction {α Fx : Type} [Zero α] (fpp_t : Int → Nat)
    (hasGUI : Bool)
    (framesperaudiobuffer idealThreadCount : Int) (playHandleAt : Nat → playHandle)
    (audioPortAt : Nat → AudioPort α) (fxMixer : Fx)
    (hkeep : hasGUI = true → 32 ≤ framesperaudiobuffer →
      fpp_t framesperaudiobuffer = framesperaudiobuffer.toNat) :
    32 ≤ (mixer.new fpp_t hasGUI framesperaudiobuffer idealThreadCount playHandleAt audioPortAt
      fxMixer).m_framesPerPeriod ∧
    (mixer.new fpp_t hasGUI framesperaudiobuffer idealThreadCount playHandleAt audioPortAt
      fxMixer).m_framesPerPeriod ≤ 256 ∧
    (mixer.new fpp_t hasGUI framesperaudiobuffer idealThreadCount playHandleAt audioPortAt
      fxMixer).m_framesPerPeriod =
      (if hasGUI = true ∧ 32 ≤ framesperaudiobuffer ∧ framesperaudiobuffer ≤ 256
       then framesperaudiobuffer.toNat else 256) ∧
    ((∃ k : Nat, framesperaudiobuffer = 2 ^ k) →
      ∃ k : Nat, (mixer.new fpp_t hasGUI framesperaudiobuffer idealThreadCount playHandleAt
        audioPortAt fxMixer).m_framesPerPeriod = 2 ^ k) := by
  have hval : (mixer.new fpp_t hasGUI framesperaudiobuffer idealThreadCount playHandleAt
      audioPortAt fxMixer).m_framesPerPeriod =
      (if hasGUI = true ∧ 32 ≤ framesperaudiobuffer ∧ framesperaudiobuffer ≤ 256
       then framesperaudiobuffer.toNat else 256) := by
    rw [framesPerPeriod_eq]
    unfold DEFAULT_BUFFER_SIZE
    cases hasGUI
    · simp
    · simp only [Bool.not_true, Bool.false_eq_true, if_false, true_and]
      by_cases h32 : framesperaudiobuffer ≥ 32
      · rw [if_pos h32, hkeep rfl h32]
        split_ifs <;> omega
      · rw [if_neg h32, if_neg (fun h => h32 h.1)]
  refine ⟨?_, ?_, hval, ?_⟩
  · rw [hval]; split_ifs <;> omega
  · rw [hval]; split_ifs <;> omega
  · rintro ⟨k, hk⟩
    rw [hval]
    split_ifs
    · refine ⟨k, ?_⟩
      rw [hk]
      exact Int.toNat_natCast (2 ^ k) ▸ by norm_cast
    · exact ⟨8, rfl⟩

/-- Witness for C18: with a GUI and the configured value 64, which the
narrowing to 16 bits keeps, the period size is 64. -/
theorem framesPerPeriod_after_construction_witness :
    scenarioFppCast 64 = (64 : Int).toNat ∧
    (mixer.new scenarioFppCast true 64 1 (fun _ => scenarioPlayHandle)
      (fun _ => scenarioPort 256)
      (List.replicate 256 ((0 : ℚ), (0 : ℚ)))).m_framesPerPeriod = 64 ∧
    ∃ k : Nat, (mixer.new scenarioFppCast true 64 1 (fun _ => scenarioPlayHandle)
      (fun _ => scenarioPort 256)
      (List.replicate 256 ((0 : ℚ), (0 : ℚ)))).m_framesPerPeriod = 2 ^ k :=
  ⟨by decide,
   (framesPerPeriod_after_construction scenarioFppCast true 64 1 (fun _ => scenarioPlayHandle)
      (fun _ => scenarioPort 256) (List.replicate 256 ((0 : ℚ), (0 : ℚ)))
      (fun _ _ => by decide)).2.2.1,
   (framesPerPeriod_after_construction scenarioFppCast true 64 1 (fun _ => scenarioPlayHandle)
      (fun _ => scenarioPort 256) (List.replicate 256 ((0 : ℚ), (0 : ℚ)))
      (fun _ _ => by decide)).2.2.2 ⟨6, by decide⟩⟩

/-! ### The CPU-load update formula (lines 670-673) -/

theorem tLimit_castToInt (q : ℚ) : tLimit (castToInt q) 0 100 = tLimit ⌊q⌋ 0 100 := by
  have hden : (0 : Int) < (q.den : Int) := Int.ofNat_lt.mpr q.den_pos
  by_cases hnum : 0 ≤ q.num
  · have : castToInt q = ⌊q⌋ := by
      rw [Rat.floor_def]
      exact Int.tdiv_eq_ediv hnum (le_of_lt hden)
    rw [this]
  · have hneg : q.num < 0 := not_le.mp hnum
    have h1 : castToInt q ≤ 0 := by
      have h := Int.tdiv_nonneg (le_of_lt (Int.neg_pos_of_neg hneg)) (le_of_lt hden)
      rw [Int.neg_tdiv] at h
      unfold castToInt
      omega
    have h2 : ⌊q⌋ < 0 := by
      rw [Rat.floor_def]
      exact Int.ediv_neg' hneg hden
    unfold tLimit
    split_ifs <;> omega

theorem updateCpuLoad_floor (elapsed processingSampleRate m_framesPerPeriod : Nat)
    (m_cpuLoad : Int) :
    updateCpuLoad elapsed processingSampleRate m_framesPerPeriod m_cpuLoad =
      tLimit ⌊float32Add
        (float32Mul
          (float32Div
            (float32Mul (float32Div (float32OfInt elapsed) (float32Round 10000))
              (float32OfInt processingSampleRate))
            (float32OfInt m_framesPerPeriod))
          (float32Round (1 / 10)))
        (float32Mul (float32OfInt m_cpuLoad) (float32Round (9 / 10)))⌋ 0 100 :=
  tLimit_castToInt _

/-- The literals `0.1f` and `0.9f` are not 1/10 and 9/10 but the nearest
`float`s, and the stored load shows it: with 160 microseconds elapsed at
48000 Hz, 256 frames per period and a load of 3 the exact value is 3, the
`float` value is just below it and 2 is stored; with 24439 microseconds at
44100 Hz and a load of 1 the exact value is just below 43, and 43 is
stored. -/
theorem updateCpuLoad_single_precision :
    updateCpuLoad 160 48000 256 3 = 2 ∧
    ⌊((160 : Nat) : ℚ) / 10000 * ((48000 : Nat) : ℚ) / ((256 : Nat) : ℚ) * (1 / 10)
      + ((3 : Int) : ℚ) * (9 / 10)⌋ = 3 ∧
    updateCpuLoad 24439 44100 256 1 = 43 ∧
    ⌊((24439 : Nat) : ℚ) / 10000 * ((44100 : Nat) : ℚ) / ((256 : Nat) : ℚ) * (1 / 10)
      + ((1 : Int) : ℚ) * (9 / 10)⌋ = 42 := by
  decide!

/-- Counterexample for C19: in scenario S2 a first period with an
instantaneous load of 10 brings the load from 0 to 1; a second period with no
time elapsed smooths it to `0.9f`, and the code stores 0, whereas rounding
9/10 to the nearest integer and clamping gives 1. -/
theorem renderNextBuffer_cpuLoad_truncates :
    ∃ m1 r1 m2 r2,
      renderNextBuffer scenarioS2 0 25600 1000 scenarioMixer = some (m1, r1) ∧
      m1.m_cpuLoad = 1 ∧ m1.m_framesPerPeriod = 256 ∧
      renderNextBuffer scenarioS2 0 0 1000 m1 = some (m2, r2) ∧
      m2.m_cpuLoad = 0 ∧
      tLimit (round (((0 : Nat) : ℚ) / 10000 * ((1000 : Nat) : ℚ) / ((256 : Nat) : ℚ)
        * (1 / 10) + ((1 : Int) : ℚ) * (9 / 10))) 0 100 = 1 := by
  obtain ⟨m1, h1, hS1, _⟩ := scenario_period 0 25600 1000 scenarioMixer scenarioMixer_steady
  obtain ⟨m2, h2, _⟩ := scenario_period 0 0 1000 m1 hS1
  obtain ⟨_, _, _, _, hfpp1, _, _, _, _, _, _, _, _, _, hload1⟩ :=
    renderNextBuffer_fields _ _ _ _ _ _ _ h1
  obtain ⟨_, _, _, _, _, _, _, _, _, _, _, _, _, _, hload2⟩ :=
    renderNextBuffer_fields _ _ _ _ _ _ _ h2
  have hfpp0 : scenarioMixer.m_framesPerPeriod = 256 := scenarioMixer_steady.1
  have hc0 : scenarioMixer.m_cpuLoad = 0 := rfl
  have he1 : updateCpuLoad 25600 1000 256 0 = 1 := by decide!
  have he2 : updateCpuLoad 0 1000 256 1 = 0 := by decide!
  have hq2 : ((0 : Nat) : ℚ) / 10000 * ((1000 : Nat) : ℚ) / ((256 : Nat) : ℚ)
      * (1 / 10) + ((1 : Int) : ℚ) * (9 / 10) = 9 / 10 := by norm_num
  have hm1 : m1.m_cpuLoad = 1 := by
    rw [hload1, hfpp0, hc0, he1]
  have hm2 : m2.m_cpuLoad = 0 := by
    rw [hload2, hS1.1, hm1, he2]
  refine ⟨m1, _, m2, _, h1, hm1, hS1.1, h2, hm2, ?_⟩
  rw [hq2, round_eq]
  have : ⌊(9 / 10 : ℚ) + 1 / 2⌋ = 1 := by
    rw [Int.floor_eq_iff]
    constructor <;> norm_num
  rw [this]
  decide

/-- C19, amended: the value stored by `renderNextBuffer` is
`clamp(trunc(s), 0, 100)`, where `s` is `instant * 0.1f + cpu_load * 0.9f`
with `instant = elapsed / 10000.0f * processing_sr / frames_per_period`, every
operation done in single precision, and `trunc` drops the fractional part as
the cast `(int)` does; under the clamp to `[0, 100]` this is the floor of `s`.
It is not the nearest integer of `s`. -/
theorem renderNextBuffer_cpuLoad_formula {α Fx : Type} [Zero α] (env : Collaborators α Fx)
    (currentThread elapsed processingSampleRate : Nat) (m m1 : mixer α Fx) (r : Nat)
    (h : renderNextBuffer env currentThread elapsed processingSampleRate m = some (m1, r)) :
    m1.m_cpuLoad =
      tLimit (castToInt (float32Add
        (float32Mul
          (float32Div
            (float32Mul (float32Div (float32OfInt elapsed) (float32Round 10000))
              (float32OfInt processingSampleRate))
            (float32OfInt m.m_framesPerPeriod))
          (float32Round (1 / 10)))
        (float32Mul (float32OfInt m.m_cpuLoad) (float32Round (9 / 10))))) 0 100 ∧
    m1.m_cpuLoad =
      tLimit ⌊float32Add
        (float32Mul
          (float32Div
            (float32Mul (float32Div (float32OfInt elapsed) (float32Round 10000))
              (float32OfInt processingSampleRate))
            (float32OfInt m.m_framesPerPeriod))
          (float32Round (1 / 10)))
        (float32Mul (float32OfInt m.m_cpuLoad) (float32Round (9 / 10)))⌋ 0 100 := by
  obtain ⟨_, _, _, _, _, _, _, _, _, _, _, _, _, _, hload⟩ :=
    renderNextBuffer_fields env currentThread elapsed processingSampleRate m m1 r h
  rw [hload]
  exact ⟨rfl, updateCpuLoad_floor _ _ _ _⟩

/-- Witness for C19: the first period of scenario S2 with 160 microseconds
elapsed at 48000 Hz. -/
theorem renderNextBuffer_cpuLoad_formula_witness :
    ∃ m1, renderNextBuffer scenarioS2 0 160 48000 scenarioMixer = some (m1, 1) ∧
      m1.m_cpuLoad =
        tLimit ⌊float32Add
          (float32Mul
            (float32Div
              (float32Mul (float32Div (float32OfInt ((160 : Nat) : Int)) (float32Round 10000))
                (float32OfInt ((48000 : Nat) : Int)))
              (float32OfInt (scenarioMixer.m_framesPerPeriod : Int)))
            (float32Round (1 / 10)))
          (float32Mul (float32OfInt scenarioMixer.m_cpuLoad) (float32Round (9 / 10)))⌋
          0 100 := by
  obtain ⟨m1, h1, _⟩ := scenario_period 0 160 48000 scenarioMixer scenarioMixer_steady
  exact ⟨m1, h1, (renderNextBuffer_cpuLoad_formula scenarioS2 0 160 48000 scenarioMixer m1 _
    h1).2⟩

/-! ### Removing a play handle: `removePlayHandle` and the drain -/

theorem drainLoop_deleted_mono {α Fx : Type} (x : Nat) :
    ∀ (queue : List Nat) (e : EngineState α Fx),
      x ∈ e.deleted → x ∈ (drainLoop queue e).deleted := by
  intro queue
  induction queue with
  | nil => intro e hx; exact hx
  | cons r rest ih =>
    intro e hx
    by_cases h : r ∈ e.m_playHandles
    · simp only [drainLoop, if_pos h]
      exact ih _ (List.mem_append_left _ hx)
    · simp only [drainLoop, if_neg h]
      exact ih _ hx

theorem drainLoop_deletes {α Fx : Type} (x : Nat) :
    ∀ (queue : List Nat) (e : EngineState α Fx),
      x ∈ queue → x ∈ e.m_playHandles → x ∈ (drainLoop queue e).deleted := by
  intro queue
  induction queue with
  | nil => intro e hq; exact absurd hq (List.not_mem_nil x)
  | cons r rest ih =>
    intro e hq hx
    by_cases hrx : r = x
    · subst hrx
      simp only [drainLoop, if_pos hx]
      exact drainLoop_deleted_mono r rest _ (List.mem_append_right _ (List.mem_singleton_self r))
    · have hrest : x ∈ rest := by
        rcases List.mem_cons.mp hq with h | h
        · exact absurd h.symm hrx
        · exact h
      by_cases h : r ∈ e.m_playHandles
      · simp only [drainLoop, if_pos h]
        exact ih _ hrest ((List.mem_erase_of_ne (fun hxr => hrx hxr.symm)).mpr hx)
      · simp only [drainLoop, if_neg h]
        exact ih _ hrest hx

/-- C11: `removePlayHandle( _ph )` called on thread `currentThread`, for a
handle registered once in `m_playHandles`. If the handle's affinity matters and
is the calling thread, the handle is erased from `m_playHandles` and deleted at
once and the removal queue is unchanged. Otherwise `m_playHandles` is
unchanged, so the handle is still registered, nothing is deleted, the handle is
appended to `m_playHandlesToRemove`, and the drain step of the next
`renderNextBuffer` erases and deletes it and empties the queue. -/
theorem removePlayHandle_immediate_or_deferred {α Fx : Type} (currentThread _ph : Nat)
    (e : EngineState α Fx) (hmem : _ph ∈ e.m_playHandles) (hnodup : e.m_playHandles.Nodup) :
    if (e.playHandleAt _ph).affinityMatters = true ∧
        (e.playHandleAt _ph).affinity = currentThread then
      (removePlayHandle currentThread _ph e).m_playHandles = e.m_playHandles.erase _ph ∧
      _ph ∉ (removePlayHandle currentThread _ph e).m_playHandles ∧
      (removePlayHandle currentThread _ph e).m_playHandlesToRemove
        = e.m_playHandlesToRemove ∧
      (removePlayHandle currentThread _ph e).deleted = e.deleted ++ [_ph]
    else
      (removePlayHandle currentThread _ph e).m_playHandles = e.m_playHandles ∧
      _ph ∈ (removePlayHandle currentThread _ph e).m_playHandles ∧
      (removePlayHandle currentThread _ph e).m_playHandlesToRemove
        = e.m_playHandlesToRemove ++ [_ph] ∧
      (removePlayHandle currentThread _ph e).deleted = e.deleted ∧
      _ph ∉ (drainPlayHandlesToRemove (removePlayHandle currentThread _ph e)).m_playHandles ∧
      _ph ∈ (drainPlayHandlesToRemove (removePlayHandle currentThread _ph e)).deleted ∧
      (drainPlayHandlesToRemove
        (removePlayHandle currentThread _ph e)).m_playHandlesToRemove = [] := by
  by_cases hc : (e.playHandleAt _ph).affinityMatters = true ∧
      (e.playHandleAt _ph).affinity = currentThread
  · have hr : removePlayHandle currentThread _ph e =
        { e with m_playHandles := e.m_playHandles.erase _ph, deleted := e.deleted ++ [_ph] } := by
      unfold removePlayHandle
      rw [if_pos (by simp [hc.1, hc.2]), if_pos hmem]
    rw [if_pos hc, hr]
    exact ⟨rfl, hnodup.not_mem_erase, rfl, rfl⟩
  · have hr : removePlayHandle currentThread _ph e =
        { e with m_playHandlesToRemove := e.m_playHandlesToRemove ++ [_ph] } := by
      unfold removePlayHandle
      rw [if_neg]
      intro hcond
      simp only [Bool.and_eq_true, beq_iff_eq] at hcond
      exact hc hcond
    rw [if_neg hc, hr]
    refine ⟨rfl, hmem, rfl, rfl, ?_, ?_, ?_⟩
    · unfold drainPlayHandlesToRemove
      rw [(drainLoop_eq _ _).1]
      show _ph ∉ (e.m_playHandlesToRemove ++ [_ph]).foldl List.erase e.m_playHandles
      rw [foldl_erase_nodup _ _ hnodup]
      simp
    · unfold drainPlayHandlesToRemove
      exact drainLoop_deletes _ph _ _ (List.mem_append_right _ (List.mem_singleton_self _)) hmem
    · unfold drainPlayHandlesToRemove
      exact (drainLoop_eq _ _).2.1

/-- Witness for C11, scenario S4: the handle's affinity is thread 0 and the
call comes from thread 1, so the handle stays registered until the drain. -/
theorem removePlayHandle_immediate_or_deferred_witness :
    (removePlayHandle 1 1 scenarioS4).m_playHandles = [1] ∧
    (removePlayHandle 1 1 scenarioS4).m_playHandlesToRemove = [1] ∧
    (removePlayHandle 1 1 scenarioS4).deleted = [] ∧
    (drainPlayHandlesToRemove (removePlayHandle 1 1 scenarioS4)).m_playHandles = [] ∧
    (drainPlayHandlesToRemove (removePlayHandle 1 1 scenarioS4)).deleted = [1] ∧
    (if (scenarioS4.playHandleAt 1).affinityMatters = true ∧
        (scenarioS4.playHandleAt 1).affinity = 1 then
      (removePlayHandle 1 1 scenarioS4).m_playHandles = scenarioS4.m_playHandles.erase 1 ∧
      1 ∉ (removePlayHandle 1 1 scenarioS4).m_playHandles ∧
      (removePlayHandle 1 1 scenarioS4).m_playHandlesToRemove
        = scenarioS4.m_playHandlesToRemove ∧
      (removePlayHandle 1 1 scenarioS4).deleted = scenarioS4.deleted ++ [1]
    else
      (removePlayHandle 1 1 scenarioS4).m_playHandles = scenarioS4.m_playHandles ∧
      1 ∈ (removePlayHandle 1 1 scenarioS4).m_playHandles ∧
      (removePlayHandle 1 1 scenarioS4).m_playHandlesToRemove
        = scenarioS4.m_playHandlesToRemove ++ [1] ∧
      (removePlayHandle 1 1 scenarioS4).deleted = scenarioS4.deleted ∧
      1 ∉ (drainPlayHandlesToRemove (removePlayHandle 1 1 scenarioS4)).m_playHandles ∧
      1 ∈ (drainPlayHandlesToRemove (removePlayHandle 1 1 scenarioS4)).deleted ∧
      (drainPlayHandlesToRemove (removePlayHandle 1 1 scenarioS4)).m_playHandlesToRemove
        = []) :=
  ⟨by decide, by decide, by decide, by decide, by decide,
    removePlayHandle_immediate_or_deferred 1 1 scenarioS4 (by decide) (by decide)⟩

/-! ### Thread affinity and the deleting operations -/

/-- C12, evaluated at scenario S4: the handle at address 1 has
`affinityMatters()` true and affinity thread 0. `removePlayHandles( track 7 )`
deletes it, and so does the drain after `removePlayHandle` was called on
thread 1; neither operation reads the current thread, so both delete it on
thread 1 as well. The cull run on thread 1 does test the affinity and leaves
the same handle alone even when it is done. -/
theorem deletion_ignores_affinity :
    (scenarioS4.playHandleAt 1).affinityMatters = true ∧
    (scenarioS4.playHandleAt 1).affinity = 0 ∧
    (removePlayHandles 7 scenarioS4).deleted = [1] ∧
    (removePlayHandles 7 scenarioS4).m_playHandles = [] ∧
    (removePlayHandle 1 1 scenarioS4).deleted = [] ∧
    (drainPlayHandlesToRemove (removePlayHandle 1 1 scenarioS4)).deleted = [1] ∧
    (cullDonePlayHandles 1
      { scenarioS4 with
        playHandleAt := fun _ => { scenarioAffineHandle with done := true } }).deleted = [] ∧
    (cullDonePlayHandles 0
      { scenarioS4 with
        playHandleAt := fun _ => { scenarioAffineHandle with done := true } }).deleted = [1] := by
  decide

/-! ### Backend probing -/

theorem probeBlocks_ne_none (cfg : AudioBuild) (dev_name : String) :
    ∀ l : List AudioBackend, (probeBlocks cfg dev_name l).1 ≠ none := by
  intro l
  induction l with
  | nil => simp [probeBlocks]
  | cons b rest ih =>
    unfold probeBlocks
    cases hb : probeBlock cfg dev_name b with
    | none => exact ih
    | some r =>
      simp only
      unfold probeBlock at hb
      split_ifs at hb
      simp only [Option.some.injEq] at hb
      rw [← hb]
      simp

theorem probeBlocks_all_none (cfg : AudioBuild) (dev_name : String) :
    ∀ l : List AudioBackend, (∀ b ∈ l, probeBlock cfg dev_name b = none) →
      probeBlocks cfg dev_name l = (some AudioDevice.AudioDummy, cfg.dummyName) := by
  intro l
  induction l with
  | nil => intro _; rfl
  | cons b rest ih =>
    intro h
    unfold probeBlocks
    rw [h b (List.mem_cons_self _ _)]
    exact ih (fun c hc => h c (List.mem_cons_of_mem _ hc))

theorem probeBlocks_only (cfg : AudioBuild) (dev_name : String) (X : AudioBackend)
    (r : Option AudioDevice × String) (hX : probeBlock cfg dev_name X = some r) :
    ∀ l : List AudioBackend, X ∈ l → (∀ b ∈ l, b ≠ X → probeBlock cfg dev_name b = none) →
      probeBlocks cfg dev_name l = r := by
  intro l
  induction l with
  | nil => intro h; exact absurd h (List.not_mem_nil X)
  | cons b rest ih =>
    intro hmem h
    unfold probeBlocks
    by_cases hb : b = X
    · rw [hb, hX]
    · rw [h b (List.mem_cons_self _ _) hb]
      refine ih ?_ (fun c hc => h c (List.mem_cons_of_mem _ hc))
      rcases List.mem_cons.mp hmem with h1 | h1
      · exact absurd h1.symm hb
      · exact h1

theorem probeBlocks_no_preference (cfg : AudioBuild) :
    ∀ l : List AudioBackend, probeBlocks cfg "" l =
      match l.find? (fun b => cfg.LMMS_HAVE b && cfg.success_ful b) with
      | some b => (some (AudioDevice.backend b), cfg.name b)
      | none => (some AudioDevice.AudioDummy, cfg.dummyName) := by
  intro l
  induction l with
  | nil => rfl
  | cons b rest ih =>
    unfold probeBlocks
    by_cases hb : (cfg.LMMS_HAVE b && cfg.success_ful b) = true
    · simp only [List.find?_cons, hb]
      simp only [Bool.and_eq_true] at hb
      simp [probeBlock, hb.1, hb.2]
    · have hb2 : (cfg.LMMS_HAVE b && cfg.success_ful b) = false := Bool.eq_false_iff.mpr hb
      simp only [List.find?_cons, hb2]
      rw [← ih]
      have : probeBlock cfg "" b = none := by
        unfold probeBlock
        simp only [Bool.and_eq_true, not_and, Bool.not_eq_true] at hb
        split_ifs with h1 h2 h3
        · rw [hb h1] at h3
          exact absurd h3 (by decide)
        · rfl
        · rfl
        · rfl
      rw [this]

theorem mem_probeOrder (b : AudioBackend) : b ∈ probeOrder := by
  cases b <;> decide

theorem probeBlock_other_name (cfg : AudioBuild) (dev_name : String) (b : AudioBackend)
    (hne : dev_name ≠ "") (h : cfg.LMMS_HAVE b = true → cfg.name b ≠ dev_name) :
    probeBlock cfg dev_name b = none := by
  unfold probeBlock
  split_ifs with h1 h2 h3
  · simp only [Bool.or_eq_true, beq_iff_eq] at h2
    rcases h2 with h2 | h2
    · exact absurd h2.symm (h h1)
    · exact absurd h2 hne
  · rfl
  · rfl
  · rfl

theorem tryAudioDevices_preference (cfg : AudioBuild) (audiodev : String)
    (hdummy : audiodev ≠ cfg.dummyName) :
    tryAudioDevices cfg audiodev = probeBlocks cfg audiodev probeOrder := by
  unfold tryAudioDevices
  have : (audiodev == cfg.dummyName) = false := by
    rw [beq_eq_false_iff_ne]
    exact hdummy
  simp only [this, Bool.false_eq_true, if_false]

theorem tryAudioDevices_eq (cfg : AudioBuild) (audiodev : String) :
    tryAudioDevices cfg audiodev =
      probeBlocks cfg (if audiodev = cfg.dummyName then "" else audiodev) probeOrder := by
  unfold tryAudioDevices
  by_cases h : audiodev = cfg.dummyName
  · simp [h]
  · simp [h]

theorem probeBlock_failed (cfg : AudioBuild) (dev_name : String) (b : AudioBackend)
    (h : cfg.LMMS_HAVE b = true → (dev_name = cfg.name b ∨ dev_name = "") →
      cfg.success_ful b = false) :
    probeBlock cfg dev_name b = none := by
  unfold probeBlock
  split_ifs with h1 h2 h3
  · simp only [Bool.or_eq_true, beq_iff_eq] at h2
    rw [h h1 h2] at h3
    exact absurd h3 (by decide)
  · rfl
  · rfl
  · rfl

/-- Counterexample for C13: all six backends are compiled in, only OSS can be
opened, and the configured name is the dummy name, which is the name of no
compiled-in backend; the probe returns the OSS backend and records its name,
not the dummy backend. -/
theorem tryAudioDevices_dummy_name_probes_all :
    (∀ b, scenarioS6.LMMS_HAVE b = true → scenarioS6.name b ≠ "dummy") ∧
    tryAudioDevices scenarioS6 "dummy"
      = (some (AudioDevice.backend AudioBackend.AudioOss), "oss") ∧
    tryAudioDevices scenarioS6 "dummy" ≠ (some AudioDevice.AudioDummy, scenarioS6.dummyName) := by
  refine ⟨?_, by decide, by decide⟩
  intro b _
  cases b <;> decide

/-- C13, amended: for every configured name and every outcome of the
compiled-in backends `tryAudioDevices` never returns null. When the configured
name is the name of a compiled-in backend X whose construction succeeds, it
returns X and records the name of X. When every tried backend fails, or the
configured name is neither empty nor the dummy name and is the name of no
compiled-in backend, it returns the dummy backend and records the dummy name.
(Backend names are non-empty, differ from the dummy name and from each
other.) -/
theorem tryAudioDevices_result (cfg : AudioBuild) (audiodev : String) :
    (tryAudioDevices cfg audiodev).1 ≠ none ∧
    (∀ X, cfg.LMMS_HAVE X = true → cfg.success_ful X = true → audiodev = cfg.name X →
      cfg.name X ≠ "" → cfg.name X ≠ cfg.dummyName →
      (∀ b, cfg.LMMS_HAVE b = true → cfg.name b = cfg.name X → b = X) →
      tryAudioDevices cfg audiodev = (some (AudioDevice.backend X), cfg.name X)) ∧
    ((∀ b, cfg.LMMS_HAVE b = true →
        ((if audiodev = cfg.dummyName then "" else audiodev) = cfg.name b ∨
          (if audiodev = cfg.dummyName then "" else audiodev) = "") →
        cfg.success_ful b = false) →
      tryAudioDevices cfg audiodev = (some AudioDevice.AudioDummy, cfg.dummyName)) ∧
    (audiodev ≠ "" → audiodev ≠ cfg.dummyName →
      (∀ b, cfg.LMMS_HAVE b = true → cfg.name b ≠ audiodev) →
      tryAudioDevices cfg audiodev = (some AudioDevice.AudioDummy, cfg.dummyName)) := by
  refine ⟨?_, ?_, ?_, ?_⟩
  · rw [tryAudioDevices_eq]
    exact probeBlocks_ne_none _ _ _
  · intro X hhave hsucc hname hne hdummy hinj
    rw [tryAudioDevices_preference cfg audiodev (by rw [hname]; exact hdummy), hname]
    refine probeBlocks_only cfg (cfg.name X) X _ ?_ probeOrder (mem_probeOrder X) ?_
    · simp [probeBlock, hhave, hsucc]
    · intro b _ hb
      exact probeBlock_other_name cfg _ b hne (fun hh heq => hb (hinj b hh heq))
  · intro hfail
    rw [tryAudioDevices_eq]
    exact probeBlocks_all_none cfg _ probeOrder (fun b _ => probeBlock_failed cfg _ b (hfail b))
  · intro hne hdummy hno
    rw [tryAudioDevices_preference cfg audiodev hdummy]
    exact probeBlocks_all_none cfg _ probeOrder
      (fun b _ => probeBlock_other_name cfg _ b hne (hno b))

/-- Witness for C13: in the build of scenario S6 the configured name of the OSS
backend yields that backend, and the configured name of scenario S6 yields the
dummy backend. -/
theorem tryAudioDevices_result_witness :
    tryAudioDevices scenarioS6 "oss"
      = (some (AudioDevice.backend AudioBackend.AudioOss), "oss") ∧
    tryAudioDevices scenarioS6 "nonexistent" = (some AudioDevice.AudioDummy, "dummy") :=
  ⟨(tryAudioDevices_result scenarioS6 "oss").2.1 AudioBackend.AudioOss (by decide) (by decide)
      (by decide) (by decide) (by decide) (fun b _ hb => by revert hb; cases b <;> decide),
   (tryAudioDevices_result scenarioS6 "nonexistent").2.2.2 (by decide) (by decide)
      (fun b _ => by cases b <;> decide)⟩

/-- Counterexample for C14: all six backends are compiled in and the configured
ALSA backend cannot be opened; the OSS backend could be, yet the probe does not
try it and returns the dummy backend. -/
theorem tryAudioDevices_stops_after_failed_preference :
    scenarioS6.LMMS_HAVE AudioBackend.AudioAlsa = true ∧
    scenarioS6.name AudioBackend.AudioAlsa = "alsa" ∧
    scenarioS6.success_ful AudioBackend.AudioAlsa = false ∧
    scenarioS6.LMMS_HAVE AudioBackend.AudioOss = true ∧
    scenarioS6.success_ful AudioBackend.AudioOss = true ∧
    tryAudioDevices scenarioS6 "alsa" = (some AudioDevice.AudioDummy, "dummy") ∧
    tryAudioDevices scenarioS6 "alsa"
      ≠ (some (AudioDevice.backend AudioBackend.AudioOss), "oss") := by
  decide

/-- C14, amended: when the configured backend X is compiled in but its
construction fails, `tryAudioDevices` tries no other backend and returns the
dummy backend. Only when the configured name is empty or the dummy name does
it try the compiled-in backends in the order of the source and return the
first one that succeeds, the dummy backend if every one of them fails. -/
theorem tryAudioDevices_failed_preference (cfg : AudioBuild) (audiodev : String) :
    (∀ X, cfg.LMMS_HAVE X = true → cfg.success_ful X = false → audiodev = cfg.name X →
      cfg.name X ≠ "" → cfg.name X ≠ cfg.dummyName →
      (∀ b, cfg.LMMS_HAVE b = true → cfg.name b = cfg.name X → b = X) →
      tryAudioDevices cfg audiodev = (some AudioDevice.AudioDummy, cfg.dummyName)) ∧
    (audiodev = "" ∨ audiodev = cfg.dummyName →
      tryAudioDevices cfg audiodev =
        match probeOrder.find? (fun b => cfg.LMMS_HAVE b && cfg.success_ful b) with
        | some b => (some (AudioDevice.backend b), cfg.name b)
        | none => (some AudioDevice.AudioDummy, cfg.dummyName)) := by
  refine ⟨?_, ?_⟩
  · intro X _ hfail hname hne hdummy hinj
    rw [tryAudioDevices_preference cfg audiodev (by rw [hname]; exact hdummy), hname]
    refine probeBlocks_all_none cfg _ probeOrder (fun b _ => ?_)
    by_cases hb : b = X
    · rw [hb]
      exact probeBlock_failed cfg _ X (fun _ _ => hfail)
    · exact probeBlock_other_name cfg _ b hne (fun hh heq => hb (hinj b hh heq))
  · intro h
    rw [tryAudioDevices_eq]
    have : (if audiodev = cfg.dummyName then "" else audiodev) = "" := by
      rcases h with h | h
      · rw [h]; split_ifs <;> rfl
      · rw [if_pos h]
    rw [this]
    exact probeBlocks_no_preference cfg probeOrder

/-- Witness for C14: in the build of scenario S6 the failing ALSA preference
ends in the dummy backend, and the empty name reaches the OSS backend. -/
theorem tryAudioDevices_failed_preference_witness :
    tryAudioDevices scenarioS6 "alsa" = (some AudioDevice.AudioDummy, "dummy") ∧
    tryAudioDevices scenarioS6 "" =
      match probeOrder.find? (fun b => scenarioS6.LMMS_HAVE b && scenarioS6.success_ful b) with
      | some b => (some (AudioDevice.backend b), scenarioS6.name b)
      | none => (some AudioDevice.AudioDummy, scenarioS6.dummyName) :=
  ⟨(tryAudioDevices_failed_preference scenarioS6 "alsa").1 AudioBackend.AudioAlsa (by decide)
      (by decide) (by decide) (by decide) (by decide)
      (fun b _ hb => by revert hb; cases b <;> decide),
   (tryAudioDevices_failed_preference scenarioS6 "").2 (Or.inl rfl)⟩

/-! ### Peak detection -/

theorem foldl_max_ge_init {α : Type} [LinearOrder α] :
    ∀ (l : List α) (p : α), p ≤ l.foldl max p := by
  intro l
  induction l with
  | nil => intro p; exact le_refl p
  | cons a rest ih =>
    intro p
    rw [List.foldl_cons]
    exact le_trans (le_max_left p a) (ih _)

theorem foldl_max_ge_mem {α : Type} [LinearOrder α] :
    ∀ (l : List α) (p a : α), a ∈ l → a ≤ l.foldl max p := by
  intro l
  induction l with
  | nil => intro p a h; exact absurd h (List.not_mem_nil a)
  | cons b rest ih =>
    intro p a h
    rw [List.foldl_cons]
    rcases List.mem_cons.mp h with h1 | h1
    · rw [h1]
      exact le_trans (le_max_right p b) (foldl_max_ge_init rest _)
    · exact ih _ a h1

theorem foldl_max_mem_or_init {α : Type} [LinearOrder α] :
    ∀ (l : List α) (p : α), l.foldl max p = p ∨ l.foldl max p ∈ l := by
  intro l
  induction l with
  | nil => intro p; exact Or.inl rfl
  | cons b rest ih =>
    intro p
    rw [List.foldl_cons]
    rcases ih (max p b) with h | h
    · rcases max_choice p b with hm | hm
      · left; rw [h, hm]
      · right; rw [h, hm]; exact List.mem_cons_self _ _
    · right; exact List.mem_cons_of_mem _ h

theorem peakLoop_eq {α : Type} [LinearOrderedField α] (c : sampleFrame α → α)
    (_ab : List (sampleFrame α)) :
    ∀ (n f : Nat) (p : α), 0 ≤ p → f + n ≤ _ab.length →
      peakLoop c _ab n f p
        = some ((((_ab.drop f).take n).map (fun x => |c x|)).foldl max p) := by
  intro n
  induction n with
  | zero => intro f p _ _; simp [peakLoop]
  | succ n ih =>
    intro f p hp hlen
    have hf : f < _ab.length := by omega
    have hdrop : _ab.drop f = _ab[f] :: _ab.drop (f + 1) := List.drop_eq_getElem_cons hf
    have hstep : (if c _ab[f] > p then peakLoop c _ab n (f + 1) (c _ab[f])
        else if -(c _ab[f]) > p then peakLoop c _ab n (f + 1) (-(c _ab[f]))
        else peakLoop c _ab n (f + 1) p)
        = peakLoop c _ab n (f + 1) (max p |c _ab[f]|) := by
      split_ifs with h1 h2
      · have : max p |c _ab[f]| = c _ab[f] := by
          rw [abs_of_nonneg (le_trans hp (le_of_lt h1))]
          exact max_eq_right (le_of_lt h1)
        rw [this]
      · have hneg : c _ab[f] ≤ 0 := by
          have : 0 < -(c _ab[f]) := lt_of_le_of_lt hp h2
          exact le_of_lt (neg_pos.mp this)
        have : max p |c _ab[f]| = -(c _ab[f]) := by
          rw [abs_of_nonpos hneg]
          exact max_eq_right (le_of_lt h2)
        rw [this]
      · have : |c _ab[f]| ≤ p := abs_le'.mpr ⟨not_lt.mp h1, not_lt.mp h2⟩
        rw [max_eq_left this]
    unfold peakLoop
    rw [List.getElem?_eq_getElem hf]
    simp only
    rw [hstep, ih (f + 1) _ (le_trans hp (le_max_left _ _)) (by omega), hdrop,
      List.take_succ_cons, List.map_cons, List.foldl_cons]

theorem peakLoop_spec {α : Type} [LinearOrderedField α] (c : sampleFrame α → α)
    (_ab : List (sampleFrame α)) (_frames : Nat) (hlen : _frames ≤ _ab.length) :
    ∃ p, peakLoop c _ab _frames 0 0 = some p ∧
      p = (((_ab.take _frames).map (fun x => |c x|)).foldl max 0) ∧
      0 ≤ p ∧
      (∀ i x, i < _frames → _ab[i]? = some x → |c x| ≤ p) ∧
      (_frames = 0 → p = 0) ∧
      (0 < _frames → ∃ i x, i < _frames ∧ _ab[i]? = some x ∧ p = |c x|) := by
  have hub : ∀ i x, i < _frames → _ab[i]? = some x →
      |c x| ≤ (((_ab.take _frames).map (fun x => |c x|)).foldl max 0) := by
    intro i x hi hx
    apply foldl_max_ge_mem
    apply List.mem_map_of_mem
    apply List.getElem?_mem
    rw [List.getElem?_take_of_lt hi]
    exact hx
  refine ⟨_, ?_, rfl, foldl_max_ge_init _ 0, hub, ?_, ?_⟩
  · have h := peakLoop_eq c _ab _frames 0 0 (le_refl 0) (by omega)
    rw [List.drop_zero] at h
    exact h
  · intro h0
    rw [h0, List.take_zero]
    rfl
  · intro hpos
    rcases foldl_max_mem_or_init ((_ab.take _frames).map (fun x => |c x|)) 0 with h | h
    · have h0 : 0 < _ab.length := by omega
      refine ⟨0, _ab[0], hpos, List.getElem?_eq_getElem h0, ?_⟩
      have hle := hub 0 _ab[0] hpos (List.getElem?_eq_getElem h0)
      rw [h] at hle ⊢
      exact le_antisymm (abs_nonneg _) hle
    · obtain ⟨x, hx, hxp⟩ := List.mem_map.mp h
      obtain ⟨i, hi⟩ := List.mem_iff_getElem?.mp hx
      have hilt : i < _frames := by
        by_contra hge
        rw [List.getElem?_eq_none (by rw [List.length_take]; omega)] at hi
        exact absurd hi (by simp)
      rw [List.getElem?_take_of_lt hilt] at hi
      exact ⟨i, x, hilt, hi, hxp.symm⟩

/-- C15: for a buffer of at least `_frames` frames over a linearly ordered
field, `peakValueLeft` and `peakValueRight` return the maximum of the absolute
values of channel 0 and channel 1 over the first `_frames` frames: the result
is the running maximum started at 0, it is at least 0 and at least every
`|_ab[i][channel]|` with `i < _frames`, it is 0 for `_frames = 0`, and for
`_frames > 0` it is the absolute value of some frame. -/
theorem peakValue_is_max_abs {α : Type} [LinearOrderedField α] (_ab : List (sampleFrame α))
    (_frames : Nat) (hlen : _frames ≤ _ab.length) :
    (∃ p, peakValueLeft _ab _frames = some p ∧
      p = (((_ab.take _frames).map (fun x => |x.1|)).foldl max 0) ∧
      0 ≤ p ∧
      (∀ i x, i < _frames → _ab[i]? = some x → |x.1| ≤ p) ∧
      (_frames = 0 → p = 0) ∧
      (0 < _frames → ∃ i x, i < _frames ∧ _ab[i]? = some x ∧ p = |x.1|)) ∧
    (∃ p, peakValueRight _ab _frames = some p ∧
      p = (((_ab.take _frames).map (fun x => |x.2|)).foldl max 0) ∧
      0 ≤ p ∧
      (∀ i x, i < _frames → _ab[i]? = some x → |x.2| ≤ p) ∧
      (_frames = 0 → p = 0) ∧
      (0 < _frames → ∃ i x, i < _frames ∧ _ab[i]? = some x ∧ p = |x.2|)) :=
  ⟨peakLoop_spec (fun x => x.1) _ab _frames hlen, peakLoop_spec (fun x => x.2) _ab _frames hlen⟩

/-- Witness for C15: a buffer of three frames, all of them scanned. -/
theorem peakValue_is_max_abs_witness :
    (∃ p, peakValueLeft scenarioPeakBuffer 3 = some p ∧
      p = (((scenarioPeakBuffer.take 3).map (fun x => |x.1|)).foldl max 0) ∧
      0 ≤ p ∧
      (∀ i x, i < 3 → scenarioPeakBuffer[i]? = some x → |x.1| ≤ p) ∧
      (3 = 0 → p = 0) ∧
      (0 < 3 → ∃ i x, i < 3 ∧ scenarioPeakBuffer[i]? = some x ∧ p = |x.1|)) ∧
    (∃ p, peakValueRight scenarioPeakBuffer 3 = some p ∧
      p = (((scenarioPeakBuffer.take 3).map (fun x => |x.2|)).foldl max 0) ∧
      0 ≤ p ∧
      (∀ i x, i < 3 → scenarioPeakBuffer[i]? = some x → |x.2| ≤ p) ∧
      (3 = 0 → p = 0) ∧
      (0 < 3 → ∃ i x, i < 3 ∧ scenarioPeakBuffer[i]? = some x ∧ p = |x.2|)) :=
  peakValue_is_max_abs scenarioPeakBuffer 3 (by decide)

/-! ### The aligned allocator -/

/-- C16: for every base address `p` returned by `malloc`, every request size
and `ALIGN_SIZE` a power of two, `aligned_malloc` returns an address `a` that
is a multiple of `ALIGN_SIZE` with
`sizeof(int) < a - p ≤ ALIGN_SIZE + sizeof(int)`; the requested bytes
`[a, a + _bytes)` and the delta slot `[a - sizeof(int), a)` lie inside the
block `[p, p + _bytes + ALIGN_SIZE + sizeof(int))`; the slot holds `a - p`;
and `aligned_free( a )` passes exactly `p` to `free`. -/
theorem aligned_malloc_free_spec (ALIGN_SIZE sizeofInt p _bytes : Nat) (mem : Nat → Int)
    (hpow : ∃ k : Nat, ALIGN_SIZE = 2 ^ k) :
    ∃ a mem1, aligned_malloc ALIGN_SIZE sizeofInt (some p) mem _bytes = (some a, mem1) ∧
      a % ALIGN_SIZE = 0 ∧
      sizeofInt < a - p ∧ a - p ≤ ALIGN_SIZE + sizeofInt ∧
      p ≤ a ∧ a + _bytes ≤ p + (_bytes + ALIGN_SIZE + sizeofInt) ∧
      p ≤ a - sizeofInt ∧ (a - sizeofInt) + sizeofInt = a ∧
      mem1 (a - sizeofInt) = ((a - p : Nat) : Int) ∧
      aligned_free sizeofInt (some a) mem1 = some (p : Int) := by
  obtain ⟨k, hk⟩ := hpow
  have hApos : 0 < ALIGN_SIZE := by rw [hk]; exact Nat.pow_pos (by decide)
  have hmask : (p + sizeofInt) &&& (ALIGN_SIZE - 1) = (p + sizeofInt) % ALIGN_SIZE := by
    rw [hk]
    exact Nat.and_pow_two_sub_one_eq_mod _ _
  have hr : (p + sizeofInt) % ALIGN_SIZE < ALIGN_SIZE := Nat.mod_lt _ hApos
  have hdiv := Nat.div_add_mod (p + sizeofInt) ALIGN_SIZE
  have hmul : p + sizeofInt + (ALIGN_SIZE - (p + sizeofInt) % ALIGN_SIZE)
      = ALIGN_SIZE * ((p + sizeofInt) / ALIGN_SIZE + 1) := by
    rw [Nat.mul_add, Nat.mul_one]
    omega
  refine ⟨p + sizeofInt + (ALIGN_SIZE - (p + sizeofInt) % ALIGN_SIZE),
    Function.update mem (p + sizeofInt + (ALIGN_SIZE - (p + sizeofInt) % ALIGN_SIZE) - sizeofInt)
      (((p + sizeofInt + (ALIGN_SIZE - (p + sizeofInt) % ALIGN_SIZE) - p : Nat) : Int)),
    ?_, ?_, ?_, ?_, ?_, ?_, ?_, ?_, ?_, ?_⟩
  · simp only [aligned_malloc, hmask]
  · rw [hmul]
    exact Nat.mul_mod_right _ _
  · omega
  · omega
  · omega
  · omega
  · omega
  · omega
  · exact Function.update_same _ _ _
  · simp only [aligned_free, Function.update_same]
    congr 1
    omega

/-- Witness for C16: `ALIGN_SIZE = 16`, `sizeof(int) = 4`, a block at address
1000 and a request of 100 bytes. -/
theorem aligned_malloc_free_spec_witness :
    (∃ k : Nat, 16 = 2 ^ k) ∧
    (aligned_malloc 16 4 (some 1000) (fun _ => 0) 100).1 = some 1008 ∧
    ∃ a mem1, aligned_malloc 16 4 (some 1000) (fun _ => 0) 100 = (some a, mem1) ∧
      a % 16 = 0 ∧
      4 < a - 1000 ∧ a - 1000 ≤ 16 + 4 ∧
      1000 ≤ a ∧ a + 100 ≤ 1000 + (100 + 16 + 4) ∧
      1000 ≤ a - 4 ∧ (a - 4) + 4 = a ∧
      mem1 (a - 4) = ((a - 1000 : Nat) : Int) ∧
      aligned_free 4 (some a) mem1 = some ((1000 : Nat) : Int) :=
  ⟨⟨4, by decide⟩, by decide,
    aligned_malloc_free_spec 16 4 1000 100 (fun _ => 0) ⟨4, by decide⟩⟩

/-! ### The effects job of an audio port (lines 220-231) -/

/-- C21: the `AudioPortEffects` job of the port at `it.job` always completes.
With `me` the value returned by `processEffects` and `a` the port as
`processEffects` left it: if `me` is true or `a.m_bufferUsage` is not
`NoUsage`, the FX mixer receives `mixToChannel( a.firstBuffer, a.nextFxChannel )`
with the first buffer as it is before `nextPeriod`, the port becomes
`nextPeriod` of `a`, and nothing else changes; otherwise neither call is made
and the state, the port's buffers and usage flag included, is exactly what
`processEffects` left. -/
theorem dispatchJob_AudioPortEffects {α Fx : Type} (env : Collaborators α Fx)
    (it : JobQueueItem) (e : EngineState α Fx) (htype : it.type = JobTypes.AudioPortEffects) :
    ∃ e1, dispatchJob env it e = some e1 ∧
      if (env.processEffects it.job e).1 = true ∨
          ((env.processEffects it.job e).2.audioPortAt it.job).m_bufferUsage
            ≠ bufferUsages.NoUsage then
        e1.fxMixer = env.mixToChannel
          ((env.processEffects it.job e).2.audioPortAt it.job).m_firstBuffer
          ((env.processEffects it.job e).2.audioPortAt it.job).m_nextFxChannel
          (env.processEffects it.job e).2.fxMixer ∧
        e1.audioPortAt it.job
          = env.nextPeriod ((env.processEffects it.job e).2.audioPortAt it.job) ∧
        (∀ j, j ≠ it.job → e1.audioPortAt j = (env.processEffects it.job e).2.audioPortAt j) ∧
        e1.m_playHandles = (env.processEffects it.job e).2.m_playHandles ∧
        e1.m_playHandlesToRemove = (env.processEffects it.job e).2.m_playHandlesToRemove ∧
        e1.m_audioPorts = (env.processEffects it.job e).2.m_audioPorts ∧
        e1.playHandleAt = (env.processEffects it.job e).2.playHandleAt ∧
        e1.deleted = (env.processEffects it.job e).2.deleted
      else e1 = (env.processEffects it.job e).2 := by
  by_cases hc : (env.processEffects it.job e).1 = true ∨
      ((env.processEffects it.job e).2.audioPortAt it.job).m_bufferUsage
        ≠ bufferUsages.NoUsage
  · have hb : ((env.processEffects it.job e).1 ||
        ((env.processEffects it.job e).2.audioPortAt it.job).m_bufferUsage
          != bufferUsages.NoUsage) = true := by
      simpa using hc
    have hd : dispatchJob env it e = some
        { (env.processEffects it.job e).2 with
          fxMixer := env.mixToChannel
            ((env.processEffects it.job e).2.audioPortAt it.job).m_firstBuffer
            ((env.processEffects it.job e).2.audioPortAt it.job).m_nextFxChannel
            (env.processEffects it.job e).2.fxMixer
          audioPortAt := Function.update (env.processEffects it.job e).2.audioPortAt it.job
            (env.nextPeriod ((env.processEffects it.job e).2.audioPortAt it.job)) } := by
      unfold dispatchJob
      rw [htype]
      simp only [hb, if_true]
    refine Exists.intro _ (And.intro hd ?_)
    rw [if_pos hc]
    refine ⟨rfl, Function.update_same _ _ _, ?_, rfl, rfl, rfl, rfl, rfl⟩
    intro j hj
    exact Function.update_noteq hj _ _
  · have hb : ¬ ((env.processEffects it.job e).1 ||
        ((env.processEffects it.job e).2.audioPortAt it.job).m_bufferUsage
          != bufferUsages.NoUsage) = true := by
      simpa using hc
    have hd : dispatchJob env it e = some (env.processEffects it.job e).2 := by
      unfold dispatchJob
      rw [htype]
      simp only [hb, Bool.false_eq_true, if_false]
    refine Exists.intro _ (And.intro hd ?_)
    rw [if_neg hc]

/-- Witness for C21: with the recording FX mixer, the job of port 1 (written to
in this period) records one call with the port's first buffer and channel 5 and
resets the port; the job of port 2 (unused, no effect output) records nothing
and leaves the state alone; the job of port 3 (unused, `processEffects` true)
records one call. -/
theorem dispatchJob_AudioPortEffects_witness :
    (dispatchJob scenarioRecording (JobQueueItem.new JobTypes.AudioPortEffects 1 0)
      scenarioPorts).map (fun e => (e.fxMixer, (e.audioPortAt 1).m_bufferUsage))
      = some ([([(1 / 4, 1 / 4)], 5)], bufferUsages.NoUsage) ∧
    (dispatchJob scenarioRecording (JobQueueItem.new JobTypes.AudioPortEffects 2 0)
      scenarioPorts).map (fun e => e.fxMixer) = some [] ∧
    (dispatchJob scenarioRecording (JobQueueItem.new JobTypes.AudioPortEffects 3 0)
      scenarioPorts).map (fun e => e.fxMixer) = some [([(0, 0)], 6)] ∧
    ∃ e1, dispatchJob scenarioRecording (JobQueueItem.new JobTypes.AudioPortEffects 2 0)
        scenarioPorts = some e1 ∧
      if (scenarioRecording.processEffects
            (JobQueueItem.new JobTypes.AudioPortEffects 2 0).job scenarioPorts).1 = true ∨
          ((scenarioRecording.processEffects
            (JobQueueItem.new JobTypes.AudioPortEffects 2 0).job scenarioPorts).2.audioPortAt
              (JobQueueItem.new JobTypes.AudioPortEffects 2 0).job).m_bufferUsage
            ≠ bufferUsages.NoUsage then
        e1.fxMixer = scenarioRecording.mixToChannel
          ((scenarioRecording.processEffects
            (JobQueueItem.new JobTypes.AudioPortEffects 2 0).job scenarioPorts).2.audioPortAt
              (JobQueueItem.new JobTypes.AudioPortEffects 2 0).job).m_firstBuffer
          ((scenarioRecording.processEffects
            (JobQueueItem.new JobTypes.AudioPortEffects 2 0).job scenarioPorts).2.audioPortAt
              (JobQueueItem.new JobTypes.AudioPortEffects 2 0).job).m_nextFxChannel
          (scenarioRecording.processEffects
            (JobQueueItem.new JobTypes.AudioPortEffects 2 0).job scenarioPorts).2.fxMixer ∧
        e1.audioPortAt (JobQueueItem.new JobTypes.AudioPortEffects 2 0).job
          = scenarioRecording.nextPeriod ((scenarioRecording.processEffects
            (JobQueueItem.new JobTypes.AudioPortEffects 2 0).job scenarioPorts).2.audioPortAt
              (JobQueueItem.new JobTypes.AudioPortEffects 2 0).job) ∧
        (∀ j, j ≠ (JobQueueItem.new JobTypes.AudioPortEffects 2 0).job →
          e1.audioPortAt j = (scenarioRecording.processEffects
            (JobQueueItem.new JobTypes.AudioPortEffects 2 0).job scenarioPorts).2.audioPortAt j) ∧
        e1.m_playHandles = (scenarioRecording.processEffects
          (JobQueueItem.new JobTypes.AudioPortEffects 2 0).job scenarioPorts).2.m_playHandles ∧
        e1.m_playHandlesToRemove = (scenarioRecording.processEffects
          (JobQueueItem.new JobTypes.AudioPortEffects 2 0).job
            scenarioPorts).2.m_playHandlesToRemove ∧
        e1.m_audioPorts = (scenarioRecording.processEffects
          (JobQueueItem.new JobTypes.AudioPortEffects 2 0).job scenarioPorts).2.m_audioPorts ∧
        e1.playHandleAt = (scenarioRecording.processEffects
          (JobQueueItem.new JobTypes.AudioPortEffects 2 0).job scenarioPorts).2.playHandleAt ∧
        e1.deleted = (scenarioRecording.processEffects
          (JobQueueItem.new JobTypes.AudioPortEffects 2 0).job scenarioPorts).2.deleted
      else e1 = (scenarioRecording.processEffects
        (JobQueueItem.new JobTypes.AudioPortEffects 2 0).job scenarioPorts).2 :=
  ⟨rfl, rfl, rfl,
    dispatchJob_AudioPortEffects scenarioRecording
      (JobQueueItem.new JobTypes.AudioPortEffects 2 0) scenarioPorts rfl⟩

/-! ### The input ring stays in bounds -/

/-- C22: for a write buffer whose recorded capacity is the size of its
allocation and whose fill is at most the capacity, and a source of at least
`_frames` frames, `pushInputFrames` returns with `fill' = fill + _frames`,
`fill' ≤ capacity'`, where `capacity'` is the old capacity when
`fill + _frames` fits and `max(2 * capacity, fill + _frames)` otherwise. The
capacity never decreases and is still the size of the allocation, the first
`fill` frames are preserved (across a growth too), the new frames follow them,
and the read buffer's contents, fill and capacity and both indices are
unchanged. -/
theorem pushInputFrames_in_bounds {α Fx : Type} (fresh : Nat → sampleFrame α)
    (_ab : List (sampleFrame α)) (_frames : Nat) (m : mixer α Fx)
    (hsize : m.m_inputBufferSize m.m_inputBufferWrite
      = (m.m_inputBuffer m.m_inputBufferWrite).length)
    (hfill : m.m_inputBufferFrames m.m_inputBufferWrite
      ≤ m.m_inputBufferSize m.m_inputBufferWrite)
    (hn : _frames ≤ _ab.length)
    (hrw : m.m_inputBufferRead ≠ m.m_inputBufferWrite) :
    ∃ m1, pushInputFrames fresh _ab _frames m = some m1 ∧
      m1.m_inputBufferFrames m.m_inputBufferWrite
        = m.m_inputBufferFrames m.m_inputBufferWrite + _frames ∧
      m1.m_inputBufferFrames m.m_inputBufferWrite
        ≤ m1.m_inputBufferSize m.m_inputBufferWrite ∧
      m1.m_inputBufferSize m.m_inputBufferWrite
        = (if m.m_inputBufferFrames m.m_inputBufferWrite + _frames
              ≤ m.m_inputBufferSize m.m_inputBufferWrite
           then m.m_inputBufferSize m.m_inputBufferWrite
           else max (2 * m.m_inputBufferSize m.m_inputBufferWrite)
              (m.m_inputBufferFrames m.m_inputBufferWrite + _frames)) ∧
      m.m_inputBufferSize m.m_inputBufferWrite
        ≤ m1.m_inputBufferSize m.m_inputBufferWrite ∧
      m1.m_inputBufferSize m.m_inputBufferWrite
        = (m1.m_inputBuffer m.m_inputBufferWrite).length ∧
      (m1.m_inputBuffer m.m_inputBufferWrite).take
          (m.m_inputBufferFrames m.m_inputBufferWrite)
        = (m.m_inputBuffer m.m_inputBufferWrite).take
            (m.m_inputBufferFrames m.m_inputBufferWrite) ∧
      (m1.m_inputBuffer m.m_inputBufferWrite).take
          (m.m_inputBufferFrames m.m_inputBufferWrite + _frames)
        = (m.m_inputBuffer m.m_inputBufferWrite).take
            (m.m_inputBufferFrames m.m_inputBufferWrite) ++ _ab.take _frames ∧
      m1.m_inputBuffer m.m_inputBufferRead = m.m_inputBuffer m.m_inputBufferRead ∧
      m1.m_inputBufferFrames m.m_inputBufferRead = m.m_inputBufferFrames m.m_inputBufferRead ∧
      m1.m_inputBufferSize m.m_inputBufferRead = m.m_inputBufferSize m.m_inputBufferRead ∧
      m1.m_inputBufferWrite = m.m_inputBufferWrite ∧
      m1.m_inputBufferRead = m.m_inputBufferRead := by
  obtain ⟨m1, hpush, hw, hr, hfr, hsz, hlen, htake, hother⟩ :=
    pushInputFrames_spec fresh _ab _frames m hsize hfill hn
  obtain ⟨hob, hof, hos⟩ := hother m.m_inputBufferRead hrw
  have hsz2 : m1.m_inputBufferSize m.m_inputBufferWrite
      = (if m.m_inputBufferFrames m.m_inputBufferWrite + _frames
            ≤ m.m_inputBufferSize m.m_inputBufferWrite
         then m.m_inputBufferSize m.m_inputBufferWrite
         else max (2 * m.m_inputBufferSize m.m_inputBufferWrite)
            (m.m_inputBufferFrames m.m_inputBufferWrite + _frames)) := by
    rw [hsz, Nat.mul_comm]
  have hcap : m1.m_inputBufferFrames m.m_inputBufferWrite
      ≤ m1.m_inputBufferSize m.m_inputBufferWrite := by
    rw [hfr, hsz2]
    split_ifs with h
    · exact h
    · exact le_max_right _ _
  have hmono : m.m_inputBufferSize m.m_inputBufferWrite
      ≤ m1.m_inputBufferSize m.m_inputBufferWrite := by
    rw [hsz2]
    split_ifs with h
    · exact le_refl _
    · exact le_trans (by omega) (le_max_left _ _)
  have hkeep : (m1.m_inputBuffer m.m_inputBufferWrite).take
        (m.m_inputBufferFrames m.m_inputBufferWrite)
      = (m.m_inputBuffer m.m_inputBufferWrite).take
          (m.m_inputBufferFrames m.m_inputBufferWrite) := by
    have h := congrArg (List.take (m.m_inputBufferFrames m.m_inputBufferWrite)) htake
    rw [List.take_take, Nat.min_eq_left (Nat.le_add_right _ _)] at h
    rw [h]
    apply List.take_left'
    rw [List.length_take]
    omega
  exact ⟨m1, hpush, hfr, hcap, hsz2, hmono, hlen, hkeep, htake, hob, hof, hos, hw, hr⟩

/-- Witness for C22: a write buffer of capacity 2 holding 1 frame receives 3
frames and grows to capacity `max(4, 4) = 4`. -/
theorem pushInputFrames_in_bounds_witness :
    ∃ m1, pushInputFrames (fun _ => (0, 0)) [(1, 2), (3, 4), (5, 6)] 3 scenarioSmallRing
        = some m1 ∧
      m1.m_inputBufferFrames 1 = 4 ∧ m1.m_inputBufferSize 1 = 4 ∧
      (m1.m_inputBuffer 1).take 4 = [(9, 9), (1, 2), (3, 4), (5, 6)] ∧
      m1.m_inputBuffer 0 = [(9, 9), (0, 0)] ∧ m1.m_inputBufferFrames 0 = 1 ∧
      m1.m_inputBufferSize 0 = 2 := by
  obtain ⟨m1, hpush, hfr, _, hsz, _, _, _, htake, hob, hof, hos, _, _⟩ :=
    pushInputFrames_in_bounds (fun _ => ((0 : ℚ), (0 : ℚ))) [(1, 2), (3, 4), (5, 6)] 3
      scenarioSmallRing rfl (by decide) (by decide) (by decide)
  exact ⟨m1, hpush, hfr, hsz, htake, hob, hof, hos⟩

/-! ### One period of output latency -/

theorem runEvents_no_period {α Fx : Type} [Zero α] :
    ∀ (evs : List (mixerEvent α Fx)) (m m1 : mixer α Fx),
      runEvents evs m = some (m1, []) →
      m1.m_bufferPool = m.m_bufferPool ∧ m1.m_writeBuffer = m.m_writeBuffer ∧
      m1.m_readBuffer = m.m_readBuffer ∧ m1.m_poolDepth = m.m_poolDepth ∧
      m1.m_framesPerPeriod = m.m_framesPerPeriod := by
  intro evs
  induction evs with
  | nil =>
    intro m m1 h
    simp only [runEvents, Option.some.injEq, Prod.mk.injEq] at h
    obtain ⟨rfl, _⟩ := h
    exact ⟨rfl, rfl, rfl, rfl, rfl⟩
  | cons ev rest ih =>
    intro m m1 h
    cases ev with
    | period env t el sr =>
      simp only [runEvents] at h
      split at h
      · exact absurd h (by simp)
      · split at h
        · exact absurd h (by simp)
        · simp only [Option.some.injEq, Prod.mk.injEq] at h
          exact absurd h.2 (List.cons_ne_nil _ _)
    | call f =>
      simp only [runEvents] at h
      exact ih { m with toEngineState := f m.toEngineState } m1 h
    | pushInput fresh ab n =>
      simp only [runEvents] at h
      split at h
      · exact absurd h (by simp)
      · rename_i m2 hpush
        obtain ⟨_, b1, b2, b3, b4, b5, _⟩ := pushInputFrames_fields fresh ab n m m2 hpush
        obtain ⟨a1, a2, a3, a4, a5⟩ := ih m2 m1 h
        exact ⟨a1.trans b4, a2.trans b3, a3.trans b2, a4.trans b1, a5.trans b5⟩

theorem renderNextBuffer_masterMix {α Fx : Type} [Zero α] (env : Collaborators α Fx)
    (currentThread elapsed processingSampleRate : Nat) (m m1 : mixer α Fx) (r : Nat)
    (h : renderNextBuffer env currentThread elapsed processingSampleRate m = some (m1, r)) :
    ∃ fx wb cleared,
      m.m_bufferPool[(m.m_writeBuffer + 1) % m.m_poolDepth]? = some wb ∧
      clearAudioBuffer wb m.m_framesPerPeriod = some cleared ∧
      m1.m_bufferPool[m1.m_writeBuffer]? = some (env.masterMix fx cleared).2 := by
  unfold renderNextBuffer at h
  simp only [swapInputBuffers] at h
  split at h
  · rename_i wb rb hw hr
    split at h
    · exact absurd h (by simp)
    · rename_i cleared hclear
      split at h
      · exact absurd h (by simp)
      · split at h
        · exact absurd h (by simp)
        · split at h
          · exact absurd h (by simp)
          · split at h
            · exact absurd h (by simp)
            · split at h
              · exact absurd h (by simp)
              · split at h
                · exact absurd h (by simp)
                · rename_i q6 e7 _
                  simp only [Option.some.injEq, Prod.mk.injEq] at h
                  obtain ⟨hm, _⟩ := h
                  subst hm
                  have hwlt := (List.getElem?_eq_some_iff.1 hw).1
                  refine ⟨e7.fxMixer, wb, cleared, hw, hclear, ?_⟩
                  simp only [List.getElem?_set, hwlt, if_true]
  · exact absurd h (by simp)

theorem renderNextBuffer_latency {α Fx : Type} [Zero α] (env : Collaborators α Fx)
    (currentThread elapsed processingSampleRate : Nat) (m m1 : mixer α Fx) (r : Nat)
    (hd : m.m_poolDepth = 2) (hr : m.m_readBuffer < 2) (hw : m.m_writeBuffer < 2)
    (hne : m.m_readBuffer ≠ m.m_writeBuffer)
    (h : renderNextBuffer env currentThread elapsed processingSampleRate m = some (m1, r)) :
    m1.m_readBuffer = m.m_writeBuffer ∧ r = m.m_writeBuffer ∧
    m1.m_writeBuffer = m.m_readBuffer ∧
    m1.m_bufferPool[r]? = m.m_bufferPool[m.m_writeBuffer]? ∧
    m1.m_poolDepth = 2 ∧ m1.m_readBuffer < 2 ∧ m1.m_writeBuffer < 2 ∧
    m1.m_readBuffer ≠ m1.m_writeBuffer := by
  obtain ⟨hr0, hr1, hw1, hd1, _, _, hpool, _⟩ :=
    renderNextBuffer_fields env currentThread elapsed processingSampleRate m m1 r h
  rw [hd] at hr0 hr1 hw1 hpool
  have e1 : (m.m_readBuffer + 1) % 2 = m.m_writeBuffer := by omega
  have e2 : (m.m_writeBuffer + 1) % 2 = m.m_readBuffer := by omega
  rw [e1] at hr0 hr1
  rw [e2] at hw1 hpool
  refine ⟨hr1, hr0, hw1, ?_, hd1.trans hd, by omega, by omega, by omega⟩
  rw [hr0]
  exact hpool _ (Ne.symm hne)

/-- C23: one period of output latency. In every `renderNextBuffer` call on a
mixer reached from construction, the read index after the rotation is the
write index before it, and the buffer returned holds what the pool held at
that write index. The master mix of the call writes into the pool buffer at
the new write index, and the next call, with whatever calls and input pushes
in between, returns exactly that buffer with those contents. The first call
after construction returns a pool buffer of `m_framesPerPeriod` zero frames. -/
theorem one_period_output_latency {α Fx : Type} [Zero α] (fpp_t : Int → Nat) (hasGUI : Bool)
    (framesperaudiobuffer idealThreadCount : Int) (playHandleAt : Nat → playHandle)
    (audioPortAt : Nat → AudioPort α) (fxMixer : Fx)
    (evs : List (mixerEvent α Fx)) (m : mixer α Fx) (rs : List Nat)
    (hreach : runEvents evs (mixer.new fpp_t hasGUI framesperaudiobuffer idealThreadCount
      playHandleAt audioPortAt fxMixer) = some (m, rs))
    (env : Collaborators α Fx) (currentThread elapsed processingSampleRate : Nat)
    (m1 : mixer α Fx) (r : Nat)
    (hrender : renderNextBuffer env currentThread elapsed processingSampleRate m
      = some (m1, r)) :
    m1.m_readBuffer = m.m_writeBuffer ∧ r = m.m_writeBuffer ∧
    m1.m_bufferPool[r]? = m.m_bufferPool[m.m_writeBuffer]? ∧
    (∃ fx wb cleared, m.m_bufferPool[m1.m_writeBuffer]? = some wb ∧
      clearAudioBuffer wb m.m_framesPerPeriod = some cleared ∧
      m1.m_bufferPool[m1.m_writeBuffer]? = some (env.masterMix fx cleared).2) ∧
    (∀ (mid : List (mixerEvent α Fx)) (m2 : mixer α Fx) (env2 : Collaborators α Fx)
      (currentThread2 elapsed2 processingSampleRate2 : Nat) (m3 : mixer α Fx) (r3 : Nat),
      runEvents mid m1 = some (m2, []) →
      renderNextBuffer env2 currentThread2 elapsed2 processingSampleRate2 m2 = some (m3, r3) →
      r3 = m1.m_writeBuffer ∧ m3.m_bufferPool[r3]? = m1.m_bufferPool[m1.m_writeBuffer]?) ∧
    (rs = [] →
      m1.m_bufferPool[r]? = some (List.replicate
        (mixer.new fpp_t hasGUI framesperaudiobuffer idealThreadCount playHandleAt audioPortAt
          fxMixer).m_framesPerPeriod ((0 : α), (0 : α)))) := by
  obtain ⟨hd, hr, hw, hne, _⟩ := runEvents_indices evs _ m rs hreach rfl
    (by show (0 : Nat) < 2; decide) (by show (1 : Nat) < 2; decide)
    (by show (0 : Nat) ≠ 1; decide)
  obtain ⟨a1, a2, a3, a4, hd1, hr1, hw1, hne1⟩ :=
    renderNextBuffer_latency env currentThread elapsed processingSampleRate m m1 r
      hd hr hw hne hrender
  obtain ⟨fx, wb, cleared, hwb, hclear, hmix⟩ :=
    renderNextBuffer_masterMix env currentThread elapsed processingSampleRate m m1 r hrender
  have hidx : (m.m_writeBuffer + 1) % m.m_poolDepth = m1.m_writeBuffer := by
    rw [hd, a3]
    omega
  rw [hidx] at hwb
  refine ⟨a1, a2, a4, ⟨fx, wb, cleared, hwb, hclear, hmix⟩, ?_, ?_⟩
  · intro mid m2 env2 t2 el2 sr2 m3 r3 hmid hrender2
    obtain ⟨hp, hw2, hr2, hd2, _⟩ := runEvents_no_period mid m1 m2 hmid
    obtain ⟨_, b2, _, b4, _⟩ :=
      renderNextBuffer_latency env2 t2 el2 sr2 m2 m3 r3 (hd2.trans hd1)
        (by rw [hr2]; exact hr1) (by rw [hw2]; exact hw1) (by rw [hr2, hw2]; exact hne1)
        hrender2
    rw [hw2] at b2 b4
    rw [hp] at b4
    exact ⟨b2, b4⟩
  · intro hrs
    rw [hrs] at hreach
    obtain ⟨hp, hw0, _⟩ := runEvents_no_period evs _ m hreach
    rw [a4, hp, hw0]
    show (List.replicate 3 (List.replicate _ ((0 : α), (0 : α))))[1]? = _
    rw [List.getElem?_replicate_of_lt (by decide)]
    rfl

/-- Witness for C23: the first period of scenario S2, rendered right after the
play handle and the port were registered, returns the pool buffer 1, the write
index of the constructor, holding 256 zero frames. -/
theorem one_period_output_latency_witness :
    ∃ m1, renderNextBuffer scenarioS2 0 1000 44100 scenarioMixer = some (m1, 1) ∧
      m1.m_readBuffer = scenarioMixer.m_writeBuffer ∧ 1 = scenarioMixer.m_writeBuffer ∧
      m1.m_bufferPool[1]? = some (List.replicate scenarioNewMixer.m_framesPerPeriod (0, 0)) := by
  obtain ⟨m1, h1, _⟩ := scenario_period 0 1000 44100 scenarioMixer scenarioMixer_steady
  have hreach : runEvents [mixerEvent.call scenarioSetup]
      (mixer.new scenarioFppCast false 0 1 (fun _ => scenarioPlayHandle) (fun _ => scenarioPort 256)
        (List.replicate 256 (0, 0))) = some (scenarioMixer, []) := rfl
  have h := one_period_output_latency scenarioFppCast false 0 1 _ _ _ [mixerEvent.call scenarioSetup]
    scenarioMixer [] hreach scenarioS2 0 1000 44100 m1 _ h1
  exact ⟨m1, h1, h.1, h.2.1, h.2.2.2.2.2 rfl⟩

end LMMS
